import Mathlib

/-!
# lazyactions: the application state machine of `app/app.go`

A shallow embedding of the Bubble Tea model `App` of `app/app.go`: the state is a
record, every method with a pointer receiver becomes a function returning the next
state (and, where the method returns a `tea.Cmd`, the command), and `tea.Cmd`
closures become descriptions of the call they perform.

Parts of the repository that `app.go` uses but that live in other files
(`FilteredList`, `LogViewport`, the key map, the `github` entity types, the command
constructors, the message types) are modelled from the specification or from the
way `app.go` and the integration tests use them; each such definition says so.
Library widgets (`textinput`, `spinner`) are taken as parameters (`Ext`).
-/

namespace Lazyactions

/-! ## Entities of package `github` (fields as used by `app.go` and the tests) -/

/-- The repository a client call is addressed to (`github.Repository`). -/
structure Repository where
  Owner : String := ""
  Name : String := ""
  deriving DecidableEq, Repr

/-- A workflow (`github.Workflow`). -/
structure Workflow where
  ID : Int := 0
  Name : String := ""
  Path : String := ""
  State : String := ""
  deriving DecidableEq, Repr

/-- A run of a workflow (`github.Run`); `CreatedAt` is kept as a number. -/
structure Run where
  ID : Int := 0
  Name : String := ""
  Status : String := ""
  Conclusion : String := ""
  Branch : String := ""
  Event : String := ""
  Actor : String := ""
  CreatedAt : Int := 0
  URL : String := ""
  deriving DecidableEq, Repr

/-- A step of a job (`github.Step`). -/
structure Step where
  Name : String := ""
  Status : String := ""
  Conclusion : String := ""
  Number : Int := 0
  deriving DecidableEq, Repr

/-- A job of a run (`github.Job`). -/
structure Job where
  ID : Int := 0
  Name : String := ""
  Status : String := ""
  Conclusion : String := ""
  Steps : List Step := []
  deriving DecidableEq, Repr

/-- Modelled from the spec: `Run.IsRunning` is not in the sources; the spec says the
cancel key is meaningful when "the selected Run's status denotes in progress". -/
def Run.IsRunning (r : Run) : Bool :=
  r.Status == "in_progress"

/-- Modelled from the spec: `Run.IsFailed` is not in the sources; the spec says
"the selected Run's terminal outcome denotes failure". -/
def Run.IsFailed (r : Run) : Bool :=
  r.Conclusion == "failure"

/-- A Go `error` value, identified by its message, which is also what its `Error`
method returns; `Option Error` is a possibly nil error. -/
structure Error where
  Message : String
  deriving DecidableEq, Repr

/-- The remote client (`github.Client`), an interface of which the state machine only
holds a reference; `RateLimit` is what `RateLimitRemaining` answers. -/
structure Client where
  RateLimit : Int := 0
  deriving DecidableEq, Repr

/-! ## Strings -/

/-- A run of capital letters in the case table of the Unicode character database:
every `stride`-th code point from `lo` to `hi`; the lowercase form of `lo` is the code
point `lower`, and the lowercase form of any other member lies as far above `lower` as
the member lies above `lo`. -/
structure CaseRange where
  lo : Nat
  hi : Nat
  stride : Nat
  lower : Nat
  deriving DecidableEq, Repr

/-- Whether a code point is one of the capital letters of a run. -/
def CaseRange.covers (r : CaseRange) (n : Nat) : Bool :=
  decide (r.lo ≤ n) && decide (n ≤ r.hi) && (n - r.lo) % r.stride == 0

/-- The first part of the case table: the capital letters from U+00C0 to U+01DB. -/
def caseRanges1 : List CaseRange :=
  [⟨192, 214, 1, 224⟩, ⟨216, 222, 1, 248⟩, ⟨256, 302, 2, 257⟩, ⟨304, 304, 1, 105⟩,
   ⟨306, 310, 2, 307⟩, ⟨313, 327, 2, 314⟩, ⟨330, 374, 2, 331⟩, ⟨376, 376, 1, 255⟩,
   ⟨377, 381, 2, 378⟩, ⟨385, 385, 1, 595⟩, ⟨386, 388, 2, 387⟩, ⟨390, 390, 1, 596⟩,
   ⟨391, 391, 1, 392⟩, ⟨393, 394, 1, 598⟩, ⟨395, 395, 1, 396⟩, ⟨398, 398, 1, 477⟩,
   ⟨399, 399, 1, 601⟩, ⟨400, 400, 1, 603⟩, ⟨401, 401, 1, 402⟩, ⟨403, 403, 1, 608⟩,
   ⟨404, 404, 1, 611⟩, ⟨406, 406, 1, 617⟩, ⟨407, 407, 1, 616⟩, ⟨408, 408, 1, 409⟩,
   ⟨412, 412, 1, 623⟩, ⟨413, 413, 1, 626⟩, ⟨415, 415, 1, 629⟩, ⟨416, 420, 2, 417⟩,
   ⟨422, 422, 1, 640⟩, ⟨423, 423, 1, 424⟩, ⟨425, 425, 1, 643⟩, ⟨428, 428, 1, 429⟩,
   ⟨430, 430, 1, 648⟩, ⟨431, 431, 1, 432⟩, ⟨433, 434, 1, 650⟩, ⟨435, 437, 2, 436⟩,
   ⟨439, 439, 1, 658⟩, ⟨440, 440, 1, 441⟩, ⟨444, 444, 1, 445⟩, ⟨452, 452, 1, 454⟩,
   ⟨453, 453, 1, 454⟩, ⟨455, 455, 1, 457⟩, ⟨456, 456, 1, 457⟩, ⟨458, 458, 1, 460⟩,
   ⟨459, 475, 2, 460⟩]

/-- The second part of the case table: the capital letters from U+01DE to U+13EF. -/
def caseRanges2 : List CaseRange :=
  [⟨478, 494, 2, 479⟩, ⟨497, 497, 1, 499⟩, ⟨498, 500, 2, 499⟩, ⟨502, 502, 1, 405⟩,
   ⟨503, 503, 1, 447⟩, ⟨504, 542, 2, 505⟩, ⟨544, 544, 1, 414⟩, ⟨546, 562, 2, 547⟩,
   ⟨570, 570, 1, 11365⟩, ⟨571, 571, 1, 572⟩, ⟨573, 573, 1, 410⟩, ⟨574, 574, 1, 11366⟩,
   ⟨577, 577, 1, 578⟩, ⟨579, 579, 1, 384⟩, ⟨580, 580, 1, 649⟩, ⟨581, 581, 1, 652⟩,
   ⟨582, 590, 2, 583⟩, ⟨880, 882, 2, 881⟩, ⟨886, 886, 1, 887⟩, ⟨895, 895, 1, 1011⟩,
   ⟨902, 902, 1, 940⟩, ⟨904, 906, 1, 941⟩, ⟨908, 908, 1, 972⟩, ⟨910, 911, 1, 973⟩,
   ⟨913, 929, 1, 945⟩, ⟨931, 939, 1, 963⟩, ⟨975, 975, 1, 983⟩, ⟨984, 1006, 2, 985⟩,
   ⟨1012, 1012, 1, 952⟩, ⟨1015, 1015, 1, 1016⟩, ⟨1017, 1017, 1, 1010⟩, ⟨1018, 1018, 1, 1019⟩,
   ⟨1021, 1023, 1, 891⟩, ⟨1024, 1039, 1, 1104⟩, ⟨1040, 1071, 1, 1072⟩, ⟨1120, 1152, 2, 1121⟩,
   ⟨1162, 1214, 2, 1163⟩, ⟨1216, 1216, 1, 1231⟩, ⟨1217, 1229, 2, 1218⟩, ⟨1232, 1326, 2, 1233⟩,
   ⟨1329, 1366, 1, 1377⟩, ⟨4256, 4293, 1, 11520⟩, ⟨4295, 4295, 1, 11559⟩,
   ⟨4301, 4301, 1, 11565⟩, ⟨5024, 5103, 1, 43888⟩]

/-- The third part of the case table: the capital letters from U+13F0 to U+2C6F. -/
def caseRanges3 : List CaseRange :=
  [⟨5104, 5109, 1, 5112⟩, ⟨7312, 7354, 1, 4304⟩, ⟨7357, 7359, 1, 4349⟩, ⟨7680, 7828, 2, 7681⟩,
   ⟨7838, 7838, 1, 223⟩, ⟨7840, 7934, 2, 7841⟩, ⟨7944, 7951, 1, 7936⟩, ⟨7960, 7965, 1, 7952⟩,
   ⟨7976, 7983, 1, 7968⟩, ⟨7992, 7999, 1, 7984⟩, ⟨8008, 8013, 1, 8000⟩, ⟨8025, 8031, 2, 8017⟩,
   ⟨8040, 8047, 1, 8032⟩, ⟨8072, 8079, 1, 8064⟩, ⟨8088, 8095, 1, 8080⟩, ⟨8104, 8111, 1, 8096⟩,
   ⟨8120, 8121, 1, 8112⟩, ⟨8122, 8123, 1, 8048⟩, ⟨8124, 8124, 1, 8115⟩, ⟨8136, 8139, 1, 8050⟩,
   ⟨8140, 8140, 1, 8131⟩, ⟨8152, 8153, 1, 8144⟩, ⟨8154, 8155, 1, 8054⟩, ⟨8168, 8169, 1, 8160⟩,
   ⟨8170, 8171, 1, 8058⟩, ⟨8172, 8172, 1, 8165⟩, ⟨8184, 8185, 1, 8056⟩, ⟨8186, 8187, 1, 8060⟩,
   ⟨8188, 8188, 1, 8179⟩, ⟨8486, 8486, 1, 969⟩, ⟨8490, 8490, 1, 107⟩, ⟨8491, 8491, 1, 229⟩,
   ⟨8498, 8498, 1, 8526⟩, ⟨8544, 8559, 1, 8560⟩, ⟨8579, 8579, 1, 8580⟩, ⟨9398, 9423, 1, 9424⟩,
   ⟨11264, 11311, 1, 11312⟩, ⟨11360, 11360, 1, 11361⟩, ⟨11362, 11362, 1, 619⟩,
   ⟨11363, 11363, 1, 7549⟩, ⟨11364, 11364, 1, 637⟩, ⟨11367, 11371, 2, 11368⟩,
   ⟨11373, 11373, 1, 593⟩, ⟨11374, 11374, 1, 625⟩, ⟨11375, 11375, 1, 592⟩]

/-- The fourth part of the case table: the capital letters from U+2C70 to U+16E5F. -/
def caseRanges4 : List CaseRange :=
  [⟨11376, 11376, 1, 594⟩, ⟨11378, 11378, 1, 11379⟩, ⟨11381, 11381, 1, 11382⟩,
   ⟨11390, 11391, 1, 575⟩, ⟨11392, 11490, 2, 11393⟩, ⟨11499, 11501, 2, 11500⟩,
   ⟨11506, 11506, 1, 11507⟩, ⟨42560, 42604, 2, 42561⟩, ⟨42624, 42650, 2, 42625⟩,
   ⟨42786, 42798, 2, 42787⟩, ⟨42802, 42862, 2, 42803⟩, ⟨42873, 42875, 2, 42874⟩,
   ⟨42877, 42877, 1, 7545⟩, ⟨42878, 42886, 2, 42879⟩, ⟨42891, 42891, 1, 42892⟩,
   ⟨42893, 42893, 1, 613⟩, ⟨42896, 42898, 2, 42897⟩, ⟨42902, 42920, 2, 42903⟩,
   ⟨42922, 42922, 1, 614⟩, ⟨42923, 42923, 1, 604⟩, ⟨42924, 42924, 1, 609⟩,
   ⟨42925, 42925, 1, 620⟩, ⟨42926, 42926, 1, 618⟩, ⟨42928, 42928, 1, 670⟩,
   ⟨42929, 42929, 1, 647⟩, ⟨42930, 42930, 1, 669⟩, ⟨42931, 42931, 1, 43859⟩,
   ⟨42932, 42946, 2, 42933⟩, ⟨42948, 42948, 1, 42900⟩, ⟨42949, 42949, 1, 642⟩,
   ⟨42950, 42950, 1, 7566⟩, ⟨42951, 42953, 2, 42952⟩, ⟨42960, 42960, 1, 42961⟩,
   ⟨42966, 42968, 2, 42967⟩, ⟨42997, 42997, 1, 42998⟩, ⟨65313, 65338, 1, 65345⟩,
   ⟨66560, 66599, 1, 66600⟩, ⟨66736, 66771, 1, 66776⟩, ⟨66928, 66938, 1, 66967⟩,
   ⟨66940, 66954, 1, 66979⟩, ⟨66956, 66962, 1, 66995⟩, ⟨66964, 66965, 1, 67003⟩,
   ⟨68736, 68786, 1, 68800⟩, ⟨71840, 71871, 1, 71872⟩, ⟨93760, 93791, 1, 93792⟩]

/-- The fifth part of the case table: the capital letters from U+1E900 to U+1E921. -/
def caseRanges5 : List CaseRange :=
  [⟨125184, 125217, 1, 125218⟩]

/-- The case table the Go package `unicode` searches for a code point above ASCII:
the simple lowercase mappings of the Unicode character database, version 14.0, in
code point order. -/
def caseRanges : List CaseRange :=
  caseRanges1 ++ caseRanges2 ++ caseRanges3 ++ caseRanges4 ++ caseRanges5

/-- The Go call `unicode.ToLower`: ASCII capitals are shifted to their small letters
and other ASCII characters returned as they are; above ASCII the case table decides. -/
def unicodeToLower (c : Char) : Char :=
  if c.toNat ≤ 127 then
    if 65 ≤ c.toNat ∧ c.toNat ≤ 90 then Char.ofNat (c.toNat + 32) else c
  else
    match caseRanges.find? (fun r => r.covers c.toNat) with
    | some r => Char.ofNat (r.lower + (c.toNat - r.lo))
    | none => c

/-- The Go call `strings.ToLower`: `unicode.ToLower` mapped over the characters of the
string. -/
def toLower (s : String) : List Char :=
  s.data.map unicodeToLower

/-- The Go call `strings.Contains` on character sequences: `sub` occurs in `s`. -/
def containsChars (s sub : List Char) : Bool :=
  s.tails.any (fun t => sub.isPrefixOf t)

/-- Case-insensitive substring test, `strings.Contains(strings.ToLower(text),
strings.ToLower(filter))`, the shape of all three predicates built by `New`. -/
def containsFold (text filter : String) : Bool :=
  containsChars (toLower text) (toLower filter)

/-- Filter predicate of the workflows list (`New`). -/
def workflowMatch (w : Workflow) (filter : String) : Bool :=
  containsFold w.Name filter

/-- Filter predicate of the runs list (`New`). -/
def runMatch (r : Run) (filter : String) : Bool :=
  containsFold r.Branch filter || containsFold r.Actor filter

/-- Filter predicate of the jobs list (`New`). -/
def jobMatch (j : Job) (filter : String) : Bool :=
  containsFold j.Name filter

/-! ## Filterable selection list -/

/-- Modelled from the spec: `FilteredList` is not in the sources. It holds the full
item sequence, the filter text and a selection index that is `-1` or an index into
the visible subsequence; the predicate is supplied at construction. -/
structure FilteredList (T : Type) (matchFn : T → String → Bool) where
  items : List T := []
  filter : String := ""
  selectedIdx : Int := -1
  deriving DecidableEq, Repr

namespace FilteredList

variable {T : Type} {matchFn : T → String → Bool}

/-- Modelled from the spec: `Items`, the visible subsequence: the items passing the
filter predicate; "empty filter text means all items visible". -/
def Items (l : FilteredList T matchFn) : List T :=
  if l.filter = "" then l.items else l.items.filter (fun x => matchFn x l.filter)

/-- Modelled from the spec: `Len`, the length of the visible subsequence. -/
def Len (l : FilteredList T matchFn) : Nat :=
  l.Items.length

/-- Modelled from the spec: `SelectedIndex`. -/
def SelectedIndex (l : FilteredList T matchFn) : Int :=
  l.selectedIdx

/-- Modelled from the spec: the selection policy after an item or filter change, for a
visible subsequence of length `n`: "preserve the same visible-row position if
possible, else clamp to last valid index, else -1", i.e. the nearest valid index. -/
def rederive (sel : Int) (n : Nat) : Int :=
  if n = 0 then -1
  else if sel < 0 then 0
  else if sel < n then sel
  else (n : Int) - 1

/-- Modelled from the spec: `SetItems` replaces the backing sequence, recomputes the
visible subsequence against the current filter and re-derives the selection. -/
def SetItems (l : FilteredList T matchFn) (items : List T) : FilteredList T matchFn :=
  let l1 : FilteredList T matchFn := { l with items := items }
  { l1 with selectedIdx := rederive l.selectedIdx l1.Len }

/-- Modelled from the spec: `SetFilter` replaces the filter text and re-derives the
visible subsequence and the selection identically to `SetItems`. -/
def SetFilter (l : FilteredList T matchFn) (text : String) : FilteredList T matchFn :=
  let l1 : FilteredList T matchFn := { l with filter := text }
  { l1 with selectedIdx := rederive l.selectedIdx l1.Len }

/-- Modelled from the spec: `SelectNext` moves the selection one position down within
the visible subsequence; no-op at the boundary or when nothing is visible. -/
def SelectNext (l : FilteredList T matchFn) : FilteredList T matchFn :=
  if l.selectedIdx + 1 < l.Len then { l with selectedIdx := l.selectedIdx + 1 }
  else l

/-- Modelled from the spec: `SelectPrev` moves the selection one position up within
the visible subsequence; no-op at the boundary or when nothing is visible. -/
def SelectPrev (l : FilteredList T matchFn) : FilteredList T matchFn :=
  if 0 < l.selectedIdx then { l with selectedIdx := l.selectedIdx - 1 }
  else l

/-- Modelled from the spec: `Selected` returns the item at the current selection and a
validity flag (here `some` item or `none`); invalid exactly when the selection is
`-1`. An index outside the visible subsequence, which the list operations never
produce, also yields `none`. -/
def Selected (l : FilteredList T matchFn) : Option T :=
  if l.selectedIdx < 0 then none else l.Items[l.selectedIdx.toNat]?

/-- The selection invariant of the spec: the index is `-1` when nothing is visible and
a valid index into the visible subsequence otherwise. -/
def WF (l : FilteredList T matchFn) : Prop :=
  (l.Len = 0 ∧ l.selectedIdx = -1) ∨ (0 ≤ l.selectedIdx ∧ l.selectedIdx < l.Len)

end FilteredList

/-! ## Widgets and key map -/

/-- A key event (`tea.KeyMsg`), represented by the text its `String` method yields:
`key.Matches` and the handlers of `app.go` read nothing else of it. -/
abbrev KeyMsg := String

/-- A key binding (`key.Binding`): the key texts it answers to, and whether it is
disabled. -/
structure Binding where
  keys : List String := []
  disabled : Bool := false
  deriving DecidableEq, Repr

/-- The library call `key.Matches(msg, b...)`: the key text equals one of the keys of
an enabled binding among `bs`. -/
def Matches (msg : KeyMsg) (bs : List Binding) : Bool :=
  bs.any (fun b => b.keys.any (fun v => decide (msg = v) && !b.disabled))

/-- The bindings `handleKeyPress` consults (`KeyMap`). -/
structure KeyMap where
  Quit : Binding
  Help : Binding
  Escape : Binding
  Up : Binding
  Down : Binding
  Left : Binding
  ShiftTab : Binding
  Right : Binding
  Tab : Binding
  Filter : Binding
  FullLog : Binding
  Cancel : Binding
  Rerun : Binding
  RerunFailed : Binding
  deriving DecidableEq, Repr

/-- Modelled from the spec: `DefaultKeyMap` is not in the sources; the keys are those
of the help text of `renderHelp` and of the key names used by the tests. -/
def DefaultKeyMap : KeyMap where
  Quit := { keys := ["q"] }
  Help := { keys := ["?"] }
  Escape := { keys := ["esc"] }
  Up := { keys := ["k", "up"] }
  Down := { keys := ["j", "down"] }
  Left := { keys := ["h", "left"] }
  ShiftTab := { keys := ["shift+tab"] }
  Right := { keys := ["l", "right"] }
  Tab := { keys := ["tab"] }
  Filter := { keys := ["/"] }
  FullLog := { keys := ["L"] }
  Cancel := { keys := ["c"] }
  Rerun := { keys := ["r"] }
  RerunFailed := { keys := ["R"] }

/-- The single-line text-entry widget (`textinput.Model`): what `app.go` sets and
reads of it. -/
structure TextInput where
  Placeholder : String := ""
  CharLimit : Nat := 0
  value : String := ""
  focus : Bool := false
  deriving DecidableEq, Repr

/-- The widget call `Focus`. -/
def TextInput.Focus (t : TextInput) : TextInput :=
  { t with focus := true }

/-- The widget call `Blur`. -/
def TextInput.Blur (t : TextInput) : TextInput :=
  { t with focus := false }

/-- The widget call `Value`. -/
def TextInput.Value (t : TextInput) : String :=
  t.value

/-- The spinner widget (`spinner.Model`). -/
structure Spinner where
  id : Nat := 0
  tag : Nat := 0
  frame : Nat := 0
  deriving DecidableEq, Repr

/-- A tick of the spinner (`spinner.TickMsg`). -/
structure TickMsg where
  ID : Nat := 0
  tag : Nat := 0
  deriving DecidableEq, Repr

/-- The log pane widget. Modelled from the spec: `LogViewport` is not in the sources;
it holds the log text ("each poll tick replaces the prior blob wholesale") and its
size. -/
structure LogViewport where
  width : Int
  height : Int
  content : String := ""
  deriving DecidableEq, Repr

/-- Modelled from the spec: `NewLogViewport`. -/
def NewLogViewport (w h : Int) : LogViewport :=
  { width := w, height := h }

/-- Modelled from the spec: `LogViewport.SetSize`. -/
def LogViewport.SetSize (v : LogViewport) (w h : Int) : LogViewport :=
  { v with width := w, height := h }

/-- Modelled from the spec: `LogViewport.SetContent` replaces the text wholesale. -/
def LogViewport.SetContent (v : LogViewport) (s : String) : LogViewport :=
  { v with content := s }

/-! ## Commands and messages -/

/-- A command (`tea.Cmd`), described by the call it performs when run. The client
argument is the possibly nil client the command was built with. -/
inductive Cmd where
  | Quit
  | fetchWorkflows (client : Option Client) (repo : Repository)
  | fetchRuns (client : Option Client) (repo : Repository) (workflowID : Int)
  | fetchJobs (client : Option Client) (repo : Repository) (runID : Int)
  | fetchLogs (client : Option Client) (repo : Repository) (jobID : Int)
  | cancelRun (client : Option Client) (repo : Repository) (runID : Int)
  | rerunWorkflow (client : Option Client) (repo : Repository) (runID : Int)
  | rerunFailedJobs (client : Option Client) (repo : Repository) (runID : Int)
  | spinnerTick (id tag : Nat)
  | widget (n : Nat)
  | tickerStart (task : Nat)
  | BatchMsg (cmds : List Cmd)

/-- The library call `tea.Batch`: nil commands are dropped; no command left gives nil,
a single one is returned as it is, several become one batch command. -/
def Batch (cmds : List (Option Cmd)) : Option Cmd :=
  match cmds.reduceOption with
  | [] => none
  | [c] => some c
  | cs => some (Cmd.BatchMsg cs)

/-- The messages `Update` receives. The result messages carry the fields `app.go` and
the tests read and write; `other` stands for any message type `Update` has no case
for. -/
inductive Msg where
  | KeyMsg (key : KeyMsg)
  | WindowSizeMsg (Width Height : Int)
  | WorkflowsLoadedMsg (Workflows : List Workflow) (Err : Option Error)
  | RunsLoadedMsg (Runs : List Run) (Err : Option Error)
  | JobsLoadedMsg (Jobs : List Job) (Err : Option Error)
  | LogsLoadedMsg (Logs : String) (Err : Option Error)
  | RunCancelledMsg (RunID : Int) (Err : Option Error)
  | RunRerunMsg (RunID : Int) (Err : Option Error)
  | RerunFailedJobsMsg (RunID : Int) (Err : Option Error)
  | WorkflowTriggeredMsg (Workflow : String) (Err : Option Error)
  | FlashClearMsg
  | spinnerTickMsg (tick : TickMsg)
  | other (tag : Nat)
  deriving DecidableEq, Repr

/-- The library widgets, whose `Update` methods are outside the repository: the
text-entry widget and the spinner each return their next state and possibly a
command of their own (`Cmd.widget`); `textinputView` is the text the text-entry
widget renders. -/
structure Ext where
  textinputUpdate : TextInput → KeyMsg → TextInput × Option Nat
  spinnerUpdate : Spinner → TickMsg → Spinner × Option Nat
  textinputView : TextInput → String

/-! ## The application model -/

/-- A UI pane (`Pane`). -/
inductive Pane where
  | WorkflowsPane
  | RunsPane
  | LogsPane
  deriving DecidableEq, Repr

/-- The closure `confirmCancelRun` stores in `confirmFn`: it captures the run selected
when the cancel key was pressed; the client and repository are read from the App
when the closure is called. -/
inductive ConfirmFn where
  | cancelRun (runID : Int)
  deriving DecidableEq, Repr

/-- The adaptive poller built by `New`; the quota function it is given reads the
client of the App. -/
inductive AdaptivePoller where
  | ofClient
  deriving DecidableEq, Repr

/-- A reference to a periodic task (`*TickerTask`). -/
abbrev TaskRef := Nat

/-- The application model (`App`). -/
structure App where
  repo : Repository
  workflows : FilteredList Workflow workflowMatch
  runs : FilteredList Run runMatch
  jobs : FilteredList Job jobMatch
  focusedPane : Pane
  width : Int
  height : Int
  logView : LogViewport
  logPoller : Option TaskRef
  adaptivePoller : Option AdaptivePoller
  loading : Bool
  err : Option Error
  showHelp : Bool
  showConfirm : Bool
  confirmMsg : String
  confirmFn : Option ConfirmFn
  filtering : Bool
  filterInput : TextInput
  spinner : Spinner
  flashMsg : String
  client : Option Client
  keys : KeyMap
  fullscreenLog : Bool
  deriving DecidableEq, Repr

/-- A functional option (`Option` of `app.go`): the two the package exports. -/
inductive AppOption where
  | WithClient (client : Option Client)
  | WithRepository (repo : Repository)
  deriving DecidableEq, Repr

/-- Applying a functional option to the App. -/
def AppOption.apply (a : App) : AppOption → App
  | .WithClient client => { a with client := client }
  | .WithRepository repo => { a with repo := repo }

/-- `New` creates a new App instance. -/
def New (opts : List AppOption) : App :=
  let ti : TextInput := { Placeholder := "Filter...", CharLimit := 50 }
  let s : Spinner := {}
  let a : App :=
    { repo := {}
      workflows := {}
      runs := {}
      jobs := {}
      focusedPane := Pane.WorkflowsPane
      width := 0
      height := 0
      logView := NewLogViewport 80 20
      logPoller := none
      adaptivePoller := none
      loading := false
      err := none
      showHelp := false
      showConfirm := false
      confirmMsg := ""
      confirmFn := none
      filtering := false
      filterInput := ti
      spinner := s
      flashMsg := ""
      client := none
      keys := DefaultKeyMap
      fullscreenLog := false }
  let a := opts.foldl AppOption.apply a
  if a.client ≠ none then { a with adaptivePoller := some AdaptivePoller.ofClient } else a

/-! ### Command generators

The package functions `fetchWorkflows`, `fetchRuns`, `fetchJobs`, `fetchLogs`,
`cancelRun`, `rerunWorkflow` and `rerunFailedJobs` are outside `app.go`; each returns
the command that performs the client call of that name, here the constructor of
`Cmd` with the same name. -/

/-- `fetchWorkflowsCmd`. -/
def fetchWorkflowsCmd (a : App) : App × Option Cmd :=
  if a.client = none then (a, none)
  else
    let a := { a with loading := true }
    (a, some (Cmd.fetchWorkflows a.client a.repo))

/-- `fetchRunsCmd`. -/
def fetchRunsCmd (a : App) (workflowID : Int) : Option Cmd :=
  if a.client = none then none else some (Cmd.fetchRuns a.client a.repo workflowID)

/-- `fetchJobsCmd`. -/
def fetchJobsCmd (a : App) (runID : Int) : Option Cmd :=
  if a.client = none then none else some (Cmd.fetchJobs a.client a.repo runID)

/-- `fetchLogsCmd`. -/
def fetchLogsCmd (a : App) (jobID : Int) : Option Cmd :=
  if a.client = none then none else some (Cmd.fetchLogs a.client a.repo jobID)

/-- Calling the stored confirm closure: `cancelRun(a.client, a.repo, run.ID)`. -/
def ConfirmFn.call (a : App) : ConfirmFn → Option Cmd
  | .cancelRun runID => some (Cmd.cancelRun a.client a.repo runID)

/-- `Init`: the spinner tick and the workflows fetch, batched. -/
def Init (a : App) : App × Option Cmd :=
  let (a1, cmd) := fetchWorkflowsCmd a
  (a1, Batch [some (Cmd.spinnerTick a.spinner.id a.spinner.tag), cmd])

/-! ### Rendering helpers used by `Update` -/

/-- `logPaneWidth`: 55 percent of the width, truncated (the source multiplies by the
float 0.55; here in exact arithmetic). -/
def logPaneWidth (a : App) : Int :=
  Int.tdiv (a.width * 55) 100

/-- `logPaneHeight`. -/
def logPaneHeight (a : App) : Int :=
  a.height - 2

/-! ### Key handling -/

/-- `applyFilter` applies the filter to the list of the focused pane. -/
def applyFilter (a : App) (filter : String) : App :=
  match a.focusedPane with
  | .WorkflowsPane => { a with workflows := a.workflows.SetFilter filter }
  | .RunsPane => { a with runs := a.runs.SetFilter filter }
  | .LogsPane => { a with jobs := a.jobs.SetFilter filter }

/-- `handleFilterInput` handles a key in filter mode. -/
def handleFilterInput (ext : Ext) (a : App) (msg : KeyMsg) : App × Option Cmd :=
  if msg = "esc" then
    let a := { a with filtering := false }
    let a := { a with filterInput := a.filterInput.Blur }
    (applyFilter a "", none)
  else if msg = "enter" then
    let a := { a with filtering := false }
    let a := { a with filterInput := a.filterInput.Blur }
    (applyFilter a a.filterInput.Value, none)
  else
    let r := ext.textinputUpdate a.filterInput msg
    ({ a with filterInput := r.1 }, r.2.map Cmd.widget)

/-- `handleConfirmInput` handles a key in the confirm dialog. -/
def handleConfirmInput (a : App) (msg : KeyMsg) : App × Option Cmd :=
  if msg = "y" ∨ msg = "Y" then
    let a := { a with showConfirm := false }
    match a.confirmFn with
    | some fn => (a, fn.call a)
    | none => (a, none)
  else if msg = "n" ∨ msg = "N" ∨ msg = "esc" then
    ({ a with showConfirm := false, confirmFn := none }, none)
  else (a, none)

/-- `onWorkflowSelectionChange`. -/
def onWorkflowSelectionChange (a : App) : App × Option Cmd :=
  match a.workflows.Selected with
  | some wf =>
    let a := { a with loading := true }
    (a, fetchRunsCmd a wf.ID)
  | none => (a, none)

/-- `onRunSelectionChange`. -/
def onRunSelectionChange (a : App) : App × Option Cmd :=
  match a.runs.Selected with
  | some run =>
    let a := { a with loading := true }
    (a, fetchJobsCmd a run.ID)
  | none => (a, none)

/-- `onJobSelectionChange`. -/
def onJobSelectionChange (a : App) : App × Option Cmd :=
  match a.jobs.Selected with
  | some job => (a, fetchLogsCmd a job.ID)
  | none => (a, none)

/-- `navigateUp` moves the selection up in the focused pane. -/
def navigateUp (a : App) : App × Option Cmd :=
  match a.focusedPane with
  | .WorkflowsPane => onWorkflowSelectionChange { a with workflows := a.workflows.SelectPrev }
  | .RunsPane => onRunSelectionChange { a with runs := a.runs.SelectPrev }
  | .LogsPane => onJobSelectionChange { a with jobs := a.jobs.SelectPrev }

/-- `navigateDown` moves the selection down in the focused pane. -/
def navigateDown (a : App) : App × Option Cmd :=
  match a.focusedPane with
  | .WorkflowsPane => onWorkflowSelectionChange { a with workflows := a.workflows.SelectNext }
  | .RunsPane => onRunSelectionChange { a with runs := a.runs.SelectNext }
  | .LogsPane => onJobSelectionChange { a with jobs := a.jobs.SelectNext }

/-- `focusPrevPane` moves focus to the previous pane. -/
def focusPrevPane (a : App) : App :=
  match a.focusedPane with
  | .RunsPane => { a with focusedPane := Pane.WorkflowsPane }
  | .LogsPane => { a with focusedPane := Pane.RunsPane }
  | .WorkflowsPane => a

/-- `focusNextPane` moves focus to the next pane. -/
def focusNextPane (a : App) : App :=
  match a.focusedPane with
  | .WorkflowsPane => { a with focusedPane := Pane.RunsPane }
  | .RunsPane => { a with focusedPane := Pane.LogsPane }
  | .LogsPane => a

/-- `confirmCancelRun` shows the confirmation dialog for cancelling a run. -/
def confirmCancelRun (a : App) : App × Option Cmd :=
  match a.runs.Selected with
  | none => (a, none)
  | some run =>
    if !run.IsRunning then (a, none)
    else
      ({ a with
          showConfirm := true
          confirmMsg := "Cancel this run?"
          confirmFn := some (ConfirmFn.cancelRun run.ID) }, none)

/-- `rerunWorkflow` triggers a workflow rerun. -/
def rerunWorkflow (a : App) : App × Option Cmd :=
  match a.runs.Selected with
  | none => (a, none)
  | some run => (a, some (Cmd.rerunWorkflow a.client a.repo run.ID))

/-- `rerunFailedJobs` reruns only failed jobs. -/
def rerunFailedJobs (a : App) : App × Option Cmd :=
  match a.runs.Selected with
  | none => (a, none)
  | some run =>
    if !run.IsFailed then (a, none)
    else (a, some (Cmd.rerunFailedJobs a.client a.repo run.ID))

/-- `refreshCurrentWorkflow` refreshes the runs of the current workflow. -/
def refreshCurrentWorkflow (a : App) : Option Cmd :=
  match a.workflows.Selected with
  | some wf => fetchRunsCmd a wf.ID
  | none => none

/-- `handleKeyPress` handles key press events. -/
def handleKeyPress (ext : Ext) (a : App) (msg : KeyMsg) : App × Option Cmd :=
  if a.filtering then handleFilterInput ext a msg
  else if a.showConfirm then handleConfirmInput a msg
  else if Matches msg [a.keys.Quit] then (a, some Cmd.Quit)
  else if Matches msg [a.keys.Help] then ({ a with showHelp := !a.showHelp }, none)
  else if Matches msg [a.keys.Escape] then
    if a.showHelp then ({ a with showHelp := false }, none)
    else if a.fullscreenLog then ({ a with fullscreenLog := false }, none)
    else if a.err ≠ none then ({ a with err := none }, none)
    else (a, none)
  else if Matches msg [a.keys.Up] then navigateUp a
  else if Matches msg [a.keys.Down] then navigateDown a
  else if Matches msg [a.keys.Left] || Matches msg [a.keys.ShiftTab] then
    (focusPrevPane a, none)
  else if Matches msg [a.keys.Right] || Matches msg [a.keys.Tab] then
    (focusNextPane a, none)
  else if Matches msg [a.keys.Filter] then
    ({ a with filtering := true, filterInput := a.filterInput.Focus }, none)
  else if Matches msg [a.keys.FullLog] then
    if a.focusedPane = Pane.LogsPane then ({ a with fullscreenLog := true }, none)
    else (a, none)
  else if Matches msg [a.keys.Cancel] then
    if a.focusedPane = Pane.RunsPane then confirmCancelRun a else (a, none)
  else if Matches msg [a.keys.Rerun] then
    if a.focusedPane = Pane.RunsPane then rerunWorkflow a else (a, none)
  else if Matches msg [a.keys.RerunFailed] then
    if a.focusedPane = Pane.RunsPane then rerunFailedJobs a else (a, none)
  else (a, none)

/-! ### The message handler -/

/-- The commands `Update` collects after loading a list: the next-level fetch for the
selected entry when the list is non-empty and has a selection. -/
def cascade {T : Type} {matchFn : T → String → Bool} (l : FilteredList T matchFn)
    (fetch : T → Option Cmd) : List (Option Cmd) :=
  if l.Len > 0 then
    match l.Selected with
    | some x => [fetch x]
    | none => []
  else []

/-- `Update` implements `tea.Model`: one step of the state machine. -/
def Update (ext : Ext) (a : App) (msg : Msg) : App × Option Cmd :=
  match msg with
  | .KeyMsg key =>
    let r := handleKeyPress ext a key
    match r.2 with
    | some cmd => (r.1, Batch [some cmd])
    | none => (r.1, Batch [])
  | .WindowSizeMsg w h =>
    let a := { a with width := w, height := h }
    ({ a with logView := a.logView.SetSize (logPaneWidth a) (logPaneHeight a) }, Batch [])
  | .WorkflowsLoadedMsg workflows err =>
    let a := { a with loading := false }
    if err ≠ none then ({ a with err := err }, Batch [])
    else
      let a := { a with workflows := a.workflows.SetItems workflows }
      (a, Batch (cascade a.workflows (fun wf => fetchRunsCmd a wf.ID)))
  | .RunsLoadedMsg runs err =>
    let a := { a with loading := false }
    if err ≠ none then ({ a with err := err }, Batch [])
    else
      let a := { a with runs := a.runs.SetItems runs }
      (a, Batch (cascade a.runs (fun run => fetchJobsCmd a run.ID)))
  | .JobsLoadedMsg jobs err =>
    let a := { a with loading := false }
    if err ≠ none then ({ a with err := err }, Batch [])
    else
      let a := { a with jobs := a.jobs.SetItems jobs }
      (a, Batch (cascade a.jobs (fun job => fetchLogsCmd a job.ID)))
  | .LogsLoadedMsg logs err =>
    if err ≠ none then ({ a with err := err }, Batch [])
    else ({ a with logView := a.logView.SetContent logs }, Batch [])
  | .RunCancelledMsg _ err =>
    if err ≠ none then ({ a with err := err }, Batch [])
    else
      let a := { a with flashMsg := "Run cancelled" }
      (a, Batch [refreshCurrentWorkflow a])
  | .RunRerunMsg _ err =>
    if err ≠ none then ({ a with err := err }, Batch [])
    else
      let a := { a with flashMsg := "Rerun triggered" }
      (a, Batch [refreshCurrentWorkflow a])
  | .FlashClearMsg => ({ a with flashMsg := "" }, Batch [])
  | .spinnerTickMsg tick =>
    let r := ext.spinnerUpdate a.spinner tick
    ({ a with spinner := r.1 }, Batch [r.2.map Cmd.widget])
  | .RerunFailedJobsMsg _ _ => (a, Batch [])
  | .WorkflowTriggeredMsg _ _ => (a, Batch [])
  | .other _ => (a, Batch [])

/-! ### The status bar -/

/-- `renderStatusBar`: the text handed to the `StatusBar` style for rendering (width and
colour left out). In filter mode the filter input, else the flash message if one is
set, else the error if one is set, else the key hints of the focused pane. -/
def renderStatusBar (ext : Ext) (a : App) : String :=
  let hints : String :=
    match a.focusedPane with
    | .WorkflowsPane => "[t]rigger [/]filter [?]help [q]uit"
    | .RunsPane => "[c]ancel [r]erun [R]erun-failed [y]ank [?]help [q]uit"
    | .LogsPane => "[L]fullscreen [y]ank [Esc]back [?]help [q]uit"
  if a.filtering then "Filter: " ++ ext.textinputView a.filterInput
  else if a.flashMsg ≠ "" then a.flashMsg
  else
    match a.err with
    | some e => "Error: " ++ e.Message
    | none => hints

/-! ### The view -/

/-- What `View` returns: the text "Loading...", or the output of one of the render
functions of `app.go` (`mainLayout` is the three panes joined with the status bar).
The layout of each goes through the styling library and is left out. -/
inductive Screen where
  | Loading
  | renderFullscreenLog
  | renderHelp
  | renderConfirmDialog
  | mainLayout
  deriving DecidableEq, Repr

/-- `View` implements `tea.Model`: which screen is rendered, decided in source order by
the window size and the overlay flags. -/
def View (a : App) : Screen :=
  if a.width = 0 ∨ a.height = 0 then .Loading
  else if a.fullscreenLog then .renderFullscreenLog
  else if a.showHelp then .renderHelp
  else if a.showConfirm then .renderConfirmDialog
  else .mainLayout

/-! ### Log polling -/

/-- Modelled from the spec: `TickerTask` is not in the sources. A periodic task has
its interval, is started by `Start` and stopped by `Stop` ("signals cancellation and
guarantees no further executions begin"). The unit of work it is given by
`StartLogPolling` is the closure `pollWork` below, which holds the App by reference
and nothing else, so the task record holds no job. -/
structure TickerTask where
  interval : Nat
  started : Bool := false
  stopped : Bool := false
  deriving DecidableEq, Repr

/-- The periodic tasks created so far; a `TaskRef` is a position in this list and
stands for the Go pointer to the task. -/
abbrev Tasks := List TickerTask

/-- Modelled from the spec: `NewTickerTask` with the given interval. -/
def NewTickerTask (interval : Nat) : TickerTask :=
  { interval := interval }

/-- Modelled from the spec: `TickerTask.Start`. -/
def TickerTask.Start (t : TickerTask) : TickerTask :=
  { t with started := true }

/-- Modelled from the spec: `TickerTask.Stop`, on the task a reference points to. -/
def stopTask (ts : Tasks) (r : TaskRef) : Tasks :=
  match ts[r]? with
  | some t => ts.set r { t with stopped := true }
  | none => ts

/-- `StartLogPolling` starts log polling. The stored task, if any, is stopped first;
the interval comes from `NextInterval` of the adaptive poller, whose quota function
reads the client; `policy` is the interval policy of the adaptive poller, which is
not in the sources. The call on a nil poller or a nil client fails (`none`). The
context argument of the source is not used by its body. -/
def StartLogPolling (policy : Int → Nat) (a : App) (ts : Tasks) :
    Option (App × Tasks × Option Cmd) :=
  let ts :=
    match a.logPoller with
    | some r => stopTask ts r
    | none => ts
  match a.adaptivePoller, a.client with
  | some _, some client =>
    let interval := policy client.RateLimit
    let a := { a with logPoller := some ts.length }
    some (a, ts ++ [(NewTickerTask interval).Start], some (Cmd.tickerStart ts.length))
  | _, _ => none

/-- `StopLogPolling` stops log polling. -/
def StopLogPolling (a : App) (ts : Tasks) : App × Tasks :=
  match a.logPoller with
  | some r => ({ a with logPoller := none }, stopTask ts r)
  | none => (a, ts)

/-- What one execution of the unit of work does: the job whose logs it asks the client
for, if any, and the message it delivers, if any. -/
structure PollRun where
  requested : Option Int
  delivered : Option Msg
  deriving DecidableEq, Repr

/-- The unit of work `StartLogPolling` gives to `NewTickerTask`, run against the App
as it is when the tick happens (the closure holds the App by reference).
`getJobLogs` is the answer of the client call `GetJobLogs`, `cancelled` is whether
`ctx.Err()` is non-nil after that call returned. With a job selected and a nil client
the call fails (`none`). -/
def pollWork (getJobLogs : Client → Repository → Int → String × Option Error)
    (cancelled : Bool) (a : App) : Option PollRun :=
  match a.jobs.Selected with
  | none => some { requested := none, delivered := none }
  | some job =>
    match a.client with
    | none => none
    | some client =>
      let r := getJobLogs client a.repo job.ID
      if cancelled then some { requested := some job.ID, delivered := none }
      else some { requested := some job.ID, delivered := some (.LogsLoadedMsg r.1 r.2) }

/-! ## Vocabulary of the statements -/

/-- The cases of the key switch of `handleKeyPress`. -/
inductive KeyCase where
  | Quit
  | Help
  | Escape
  | Up
  | Down
  | PrevPane
  | NextPane
  | Filter
  | FullLog
  | Cancel
  | Rerun
  | RerunFailed
  | unbound
  deriving DecidableEq, Repr

/-- The case of the switch of `handleKeyPress` a key selects under a key map: the
first case, in source order, whose binding matches. -/
def keyCase (keys : KeyMap) (msg : KeyMsg) : KeyCase :=
  if Matches msg [keys.Quit] then .Quit
  else if Matches msg [keys.Help] then .Help
  else if Matches msg [keys.Escape] then .Escape
  else if Matches msg [keys.Up] then .Up
  else if Matches msg [keys.Down] then .Down
  else if Matches msg [keys.Left] || Matches msg [keys.ShiftTab] then .PrevPane
  else if Matches msg [keys.Right] || Matches msg [keys.Tab] then .NextPane
  else if Matches msg [keys.Filter] then .Filter
  else if Matches msg [keys.FullLog] then .FullLog
  else if Matches msg [keys.Cancel] then .Cancel
  else if Matches msg [keys.Rerun] then .Rerun
  else if Matches msg [keys.RerunFailed] then .RerunFailed
  else .unbound

/-- The state after handling a sequence of messages in arrival order. -/
def runMsgs (ext : Ext) (a : App) (ms : List Msg) : App :=
  ms.foldl (fun s m => (Update ext s m).1) a

/-- The states the program can be in: `New` with any options, then `Init` and any
sequence of `Update` steps. -/
inductive Reachable (ext : Ext) : App → Prop where
  | new (opts : List AppOption) : Reachable ext (New opts)
  | init {a : App} : Reachable ext a → Reachable ext (Init a).1
  | update {a : App} (msg : Msg) : Reachable ext a → Reachable ext (Update ext a msg).1

/-- A message that leaves an open confirm dialog open: anything but one of the keys
the dialog answers to. -/
def keepsDialog : Msg → Bool
  | .KeyMsg key => !(key = "y" ∨ key = "Y" ∨ key = "n" ∨ key = "N" ∨ key = "esc")
  | _ => true

/-- A concrete behaviour of the library widgets, for running the model on examples: a
focused text input appends a typed character, the spinner advances a frame. -/
def sampleExt : Ext where
  textinputUpdate t msg :=
    if t.focus ∧ msg.length = 1 then ({ t with value := t.value ++ msg }, none) else (t, none)
  spinnerUpdate s _ := ({ s with frame := s.frame + 1 }, some 0)
  textinputView t := t.value

/-- The App of the integration tests: a client and the repository test/repo. -/
def testApp : App :=
  New [.WithClient (some { RateLimit := 5000 }), .WithRepository { Owner := "test", Name := "repo" }]

/-- The run `RunningRun` of the integration tests. -/
def RunningRun : Run :=
  { ID := 200, Name := "CI", Status := "in_progress", Branch := "main", Event := "push",
    Actor := "user1", URL := "https://github.com/test/repo/actions/runs/200" }

/-- The run `FailedRun` of the integration tests. -/
def FailedRun : Run :=
  { ID := 201, Name := "CI", Status := "completed", Conclusion := "failure", Branch := "main",
    Event := "push", Actor := "user1", URL := "https://github.com/test/repo/actions/runs/201" }

/-- The run `SuccessRun` of the integration tests. -/
def SuccessRun : Run :=
  { ID := 202, Name := "CI", Status := "completed", Conclusion := "success", Branch := "main",
    Event := "push", Actor := "user1", URL := "https://github.com/test/repo/actions/runs/202" }

/-- The first two jobs of `DefaultTestJobs` of the integration tests, without steps. -/
def testJobs : List Job :=
  [{ ID := 1001, Name := "build", Status := "completed", Conclusion := "success" },
   { ID := 1002, Name := "test", Status := "in_progress" }]

/-- The test App with the help overlay, the fullscreen log and an error all set. -/
def overlaysState : App :=
  { testApp with showHelp := true, fullscreenLog := true, err := some { Message := "test error" } }

/-- The test App after a Runs result carrying `runs` and a move of focus to the Runs
pane (the setup of the action tests). -/
def runsPaneWith (runs : List Run) : App :=
  runMsgs sampleExt testApp [.RunsLoadedMsg runs none, .KeyMsg "l"]

/-- The part of the state that decides how keys are routed and what an accepted
confirm dialog does: the mode flags, the stored confirm closure, the client and the
repository. -/
def control (a : App) : Bool × Bool × Bool × Option ConfirmFn × Option Client × Repository :=
  (a.filtering, a.showConfirm, a.fullscreenLog, a.confirmFn, a.client, a.repo)

/-- The test App with the confirm dialog open: "c" pressed on the running run of the
tests in the Runs pane. -/
def confirmingState : App :=
  runMsgs sampleExt (runsPaneWith [RunningRun]) [.KeyMsg "c"]

/-- Four key presses from a fresh App: focus to the Logs pane, fullscreen log on, then
the filter key. -/
def fullscreenThenFilter : List Msg :=
  [.KeyMsg "l", .KeyMsg "l", .KeyMsg "L", .KeyMsg "/"]

/-- The two workflows "CI" and "Deploy" of `DefaultTestWorkflows`. -/
def testWorkflows : List Workflow :=
  [{ ID := 1, Name := "CI", Path := ".github/workflows/ci.yml", State := "active" },
   { ID := 2, Name := "Deploy", Path := ".github/workflows/deploy.yml", State := "active" }]

/-- The test App after the jobs 1001 and 1002 were loaded (job 1001 selected, its log
fetch issued), focus was moved to the Logs pane and the selection was moved down to
job 1002. -/
def secondJobSelected : App :=
  runMsgs sampleExt testApp
    [.JobsLoadedMsg testJobs none, .KeyMsg "l", .KeyMsg "l", .KeyMsg "j"]

/-- The test App after the two test workflows were loaded and the selection was moved
down to the second one. -/
def secondWorkflowSelected : App :=
  runMsgs sampleExt testApp [.WorkflowsLoadedMsg testWorkflows none, .KeyMsg "j"]

/-- The test App after the runs 200 and 201 were loaded, focus was moved to the Runs
pane and the selection was moved down to run 201. -/
def secondRunSelected : App :=
  runMsgs sampleExt (runsPaneWith [RunningRun, FailedRun]) [.KeyMsg "j"]

/-- The data the panes show: the three lists (items, filter and selection) and the
log text. -/
def data (a : App) :
    FilteredList Workflow workflowMatch × FilteredList Run runMatch ×
      FilteredList Job jobMatch × String :=
  (a.workflows, a.runs, a.jobs, a.logView.content)

/-- Whether a command is one of the four fetches. -/
def Cmd.isFetch : Cmd → Bool
  | .fetchWorkflows _ _ => true
  | .fetchRuns _ _ _ => true
  | .fetchJobs _ _ _ => true
  | .fetchLogs _ _ _ => true
  | _ => false

/-- The test App in filter mode on the Workflows pane with "ci" typed, after the two
test workflows were loaded. -/
def typingCi : App :=
  runMsgs sampleExt testApp
    [.WorkflowsLoadedMsg testWorkflows none, .KeyMsg "/", .KeyMsg "c", .KeyMsg "i"]

/-- The test App with the workflows filter "ci" applied, back in filter mode with "d"
typed. -/
def filteredThenTyping : App :=
  runMsgs sampleExt typingCi [.KeyMsg "enter", .KeyMsg "/", .KeyMsg "d"]

/-- The fields no key press changes: the stored poller, the adaptive poller, the flash
message, the log view, the key map, the client and the repository. -/
def fixed (a : App) :
    Option TaskRef × Option AdaptivePoller × String × LogViewport × KeyMap × Option Client ×
      Repository :=
  (a.logPoller, a.adaptivePoller, a.flashMsg, a.logView, a.keys, a.client, a.repo)

/-- The error carried by one of the six result messages `Update` has a case for. -/
def Msg.failure : Msg → Option Error
  | .WorkflowsLoadedMsg _ err => err
  | .RunsLoadedMsg _ err => err
  | .JobsLoadedMsg _ err => err
  | .LogsLoadedMsg _ err => err
  | .RunCancelledMsg _ err => err
  | .RunRerunMsg _ err => err
  | _ => none

/-- The test App after the two test workflows were loaded (the first is selected). -/
def workflowsLoaded : App :=
  runMsgs sampleExt testApp [.WorkflowsLoadedMsg testWorkflows none]

/-- An App built without a client, after the two test workflows were loaded. -/
def noClientWorkflows : App :=
  runMsgs sampleExt (New []) [.WorkflowsLoadedMsg testWorkflows none]

/-- The messages that follow a successful cancel of run 100 in the test App: the
action result, then the results of the Runs, Jobs and Logs fetches it sets off. -/
def cancelThenRefresh : List Msg :=
  [.RunCancelledMsg 100 none, .RunsLoadedMsg [SuccessRun] none, .JobsLoadedMsg testJobs none,
    .LogsLoadedMsg "build log" none]

/-- The test App after a successful cancel (flash set) followed by a failed Runs
fetch (error set). -/
def flashThenError : App :=
  runMsgs sampleExt testApp
    [.RunCancelledMsg 100 none, .RunsLoadedMsg [] (some { Message := "test error" })]

/-- The selection move of the Up and Down cases of the key switch: Up moves to the
previous visible row, Down to the next. -/
def moveSelection {T : Type} {matchFn : T → String → Bool} (k : KeyCase)
    (l : FilteredList T matchFn) : FilteredList T matchFn :=
  match k with
  | .Up => l.SelectPrev
  | .Down => l.SelectNext
  | _ => l

/-- The test App with the jobs 1001 and 1002 loaded, focus on the Logs pane and the
fullscreen log switched on. -/
def fullscreenJobs : App :=
  runMsgs sampleExt testApp
    [.JobsLoadedMsg testJobs none, .KeyMsg "l", .KeyMsg "l", .KeyMsg "L"]

/-- The entry of a capital letter in the Unicode character database: `l` is the
lowercase form of the capital letter `u`. For the ASCII capitals it is the letter 32
code points up; above ASCII the case table lists it. -/
def lowercaseOf (u l : Char) : Prop :=
  (65 ≤ u.toNat ∧ u.toNat ≤ 90 ∧ l = Char.ofNat (u.toNat + 32)) ∨
    (127 < u.toNat ∧
      ∃ r ∈ caseRanges, r.covers u.toNat = true ∧ l = Char.ofNat (r.lower + (u.toNat - r.lo)))

/-- The lowercase form of a character: that of its entry when it is a capital letter,
the character itself when it has no entry. -/
def lowerForm (c l : Char) : Prop :=
  lowercaseOf c l ∨ ((∀ x, ¬ lowercaseOf c x) ∧ l = c)

/-- Two characters are the same when case is ignored: they have the same lowercase
form. -/
def sameIgnoringCase (c d : Char) : Prop :=
  ∃ l, lowerForm c l ∧ lowerForm d l

/-- The filter predicate in the words of the spec: the filter text is, compared
case-insensitively, a substring of the text: some run of consecutive characters of
the text agrees with the filter text character by character when case is ignored. -/
def substringIgnoringCase (filter text : String) : Prop :=
  ∃ seg, seg <:+: text.data ∧ List.Forall₂ sameIgnoringCase filter.data seg

/-- The runs `DefaultTestRuns` of the integration tests; the creation times are kept as
seconds before the moment of the test. -/
def DefaultTestRuns : List Run :=
  [{ ID := 100, Name := "CI", Status := "completed", Conclusion := "success", Branch := "main",
     Event := "push", Actor := "user1", CreatedAt := -3600,
     URL := "https://github.com/test/repo/actions/runs/100" },
   { ID := 101, Name := "CI", Status := "in_progress", Conclusion := "",
     Branch := "feature/test", Event := "pull_request", Actor := "user2", CreatedAt := -1800,
     URL := "https://github.com/test/repo/actions/runs/101" },
   { ID := 102, Name := "CI", Status := "completed", Conclusion := "failure",
     Branch := "fix/bug", Event := "push", Actor := "user1", CreatedAt := -7200,
     URL := "https://github.com/test/repo/actions/runs/102" },
   { ID := 103, Name := "CI", Status := "queued", Conclusion := "", Branch := "main",
     Event := "push", Actor := "user3", CreatedAt := -300,
     URL := "https://github.com/test/repo/actions/runs/103" }]

/-- The test "filter by branch name": the test runs loaded, focus moved to the Runs
pane, the filter key, "main" typed, Enter. -/
def filteredByMain : App :=
  runMsgs sampleExt testApp
    [.WorkflowsLoadedMsg testWorkflows none, .RunsLoadedMsg DefaultTestRuns none, .KeyMsg "l",
      .KeyMsg "/", .KeyMsg "m", .KeyMsg "a", .KeyMsg "i", .KeyMsg "n", .KeyMsg "enter"]

/-- A call that concerns the poller, or a message handled by `Update` in between. -/
inductive PollOp where
  | start
  | stop
  | update (msg : Msg)
  deriving DecidableEq, Repr

/-- One poller call or message, on the App and the tasks created so far. -/
def stepOp (ext : Ext) (policy : Int → Nat) (op : PollOp) (s : App × Tasks) :
    Option (App × Tasks) :=
  match op with
  | .start => (StartLogPolling policy s.1 s.2).map (fun r => (r.1, r.2.1))
  | .stop => some (StopLogPolling s.1 s.2)
  | .update msg => some ((Update ext s.1 msg).1, s.2)

/-- A sequence of poller calls and messages, in order; `none` when a call fails. -/
def runOps (ext : Ext) (policy : Int → Nat) : List PollOp → App × Tasks → Option (App × Tasks)
  | [], s => some s
  | op :: ops, s => (stepOp ext policy op s).bind (runOps ext policy ops)

/-- The tasks after the first step of `StartLogPolling` and `StopLogPolling`: the
stored task, if any, is stopped. -/
def stopStored (a : App) (ts : Tasks) : Tasks :=
  match a.logPoller with
  | some r => stopTask ts r
  | none => ts

/-- Every created task that has not been stopped is the one stored in the App. -/
def onePoller (a : App) (ts : Tasks) : Prop :=
  ∀ i t, ts[i]? = some t → t.stopped = false → a.logPoller = some i

/-- An interval policy of the shape the spec describes (milliseconds by remaining
quota), for running the model on examples. -/
def samplePolicy (quota : Int) : Nat :=
  if quota > 1000 then 2000 else if quota > 100 then 10000 else 60000

/-- An answer of the client call `GetJobLogs`, for running the model on examples. -/
def sampleLogs (_client : Client) (_repo : Repository) (jobID : Int) : String × Option Error :=
  if jobID = 1001 then ("log of job 1001", none) else ("log of another job", none)

/-- The test App with the jobs 1001 and 1002 loaded and focus on the Logs pane; job
1001 is selected. -/
def firstJobSelected : App :=
  runMsgs sampleExt testApp [.JobsLoadedMsg testJobs none, .KeyMsg "l", .KeyMsg "l"]

/-- The test App in a 120 by 40 window with the jobs 1001 and 1002 loaded, after focus
was moved to the Logs pane, the fullscreen log was switched on and the help key was
pressed. -/
def helpOverFullscreen : App :=
  runMsgs sampleExt testApp
    [.WindowSizeMsg 120 40, .JobsLoadedMsg testJobs none, .KeyMsg "l", .KeyMsg "l",
      .KeyMsg "L", .KeyMsg "?"]

/-! ## Lemmas on the model -/

/-- Outside filter and confirm mode, `handleKeyPress` is the switch over `keyCase`. -/
theorem handleKeyPress_eq (ext : Ext) (a : App) (msg : KeyMsg)
    (hf : a.filtering = false) (hc : a.showConfirm = false) :
    handleKeyPress ext a msg =
      match keyCase a.keys msg with
      | .Quit => (a, some Cmd.Quit)
      | .Help => ({ a with showHelp := !a.showHelp }, none)
      | .Escape =>
        if a.showHelp then ({ a with showHelp := false }, none)
        else if a.fullscreenLog then ({ a with fullscreenLog := false }, none)
        else if a.err ≠ none then ({ a with err := none }, none)
        else (a, none)
      | .Up => navigateUp a
      | .Down => navigateDown a
      | .PrevPane => (focusPrevPane a, none)
      | .NextPane => (focusNextPane a, none)
      | .Filter => ({ a with filtering := true, filterInput := a.filterInput.Focus }, none)
      | .FullLog =>
        if a.focusedPane = Pane.LogsPane then ({ a with fullscreenLog := true }, none)
        else (a, none)
      | .Cancel => if a.focusedPane = Pane.RunsPane then confirmCancelRun a else (a, none)
      | .Rerun => if a.focusedPane = Pane.RunsPane then rerunWorkflow a else (a, none)
      | .RerunFailed => if a.focusedPane = Pane.RunsPane then rerunFailedJobs a else (a, none)
      | .unbound => (a, none) := by
  unfold handleKeyPress keyCase
  rw [if_neg (by simp [hf]), if_neg (by simp [hc])]
  by_cases h1 : Matches msg [a.keys.Quit] = true
  · rw [if_pos h1, if_pos h1]
  rw [if_neg h1, if_neg h1]
  by_cases h2 : Matches msg [a.keys.Help] = true
  · rw [if_pos h2, if_pos h2]
  rw [if_neg h2, if_neg h2]
  by_cases h3 : Matches msg [a.keys.Escape] = true
  · rw [if_pos h3, if_pos h3]
  rw [if_neg h3, if_neg h3]
  by_cases h4 : Matches msg [a.keys.Up] = true
  · rw [if_pos h4, if_pos h4]
  rw [if_neg h4, if_neg h4]
  by_cases h5 : Matches msg [a.keys.Down] = true
  · rw [if_pos h5, if_pos h5]
  rw [if_neg h5, if_neg h5]
  by_cases h6 : (Matches msg [a.keys.Left] || Matches msg [a.keys.ShiftTab]) = true
  · rw [if_pos h6, if_pos h6]
  rw [if_neg h6, if_neg h6]
  by_cases h7 : (Matches msg [a.keys.Right] || Matches msg [a.keys.Tab]) = true
  · rw [if_pos h7, if_pos h7]
  rw [if_neg h7, if_neg h7]
  by_cases h8 : Matches msg [a.keys.Filter] = true
  · rw [if_pos h8, if_pos h8]
  rw [if_neg h8, if_neg h8]
  by_cases h9 : Matches msg [a.keys.FullLog] = true
  · rw [if_pos h9, if_pos h9]
  rw [if_neg h9, if_neg h9]
  by_cases h10 : Matches msg [a.keys.Cancel] = true
  · rw [if_pos h10, if_pos h10]
  rw [if_neg h10, if_neg h10]
  by_cases h11 : Matches msg [a.keys.Rerun] = true
  · rw [if_pos h11, if_pos h11]
  rw [if_neg h11, if_neg h11]
  by_cases h12 : Matches msg [a.keys.RerunFailed] = true
  · rw [if_pos h12, if_pos h12]
  rw [if_neg h12, if_neg h12]

/-- `Update` on a key message returns the state and the command of `handleKeyPress`. -/
theorem Update_key (ext : Ext) (a : App) (msg : KeyMsg) :
    Update ext a (.KeyMsg msg) = handleKeyPress ext a msg := by
  simp only [Update]
  generalize handleKeyPress ext a msg = r
  rcases r with ⟨b, _ | c⟩ <;> rfl

/-- The Escape case of the key switch, as one step of `Update`. -/
theorem Update_escape (ext : Ext) (a : App) (msg : KeyMsg)
    (hf : a.filtering = false) (hc : a.showConfirm = false)
    (hk : keyCase a.keys msg = KeyCase.Escape) :
    Update ext a (.KeyMsg msg) =
      if a.showHelp then ({ a with showHelp := false }, none)
      else if a.fullscreenLog then ({ a with fullscreenLog := false }, none)
      else if a.err ≠ none then ({ a with err := none }, none)
      else (a, none) := by
  rw [Update_key, handleKeyPress_eq ext a msg hf hc, hk]

/-- The Cancel case of the key switch, as one step of `Update`. -/
theorem Update_cancel (ext : Ext) (a : App) (msg : KeyMsg)
    (hf : a.filtering = false) (hc : a.showConfirm = false)
    (hk : keyCase a.keys msg = KeyCase.Cancel) :
    Update ext a (.KeyMsg msg) =
      if a.focusedPane = Pane.RunsPane then confirmCancelRun a else (a, none) := by
  rw [Update_key, handleKeyPress_eq ext a msg hf hc, hk]

/-- The Rerun case of the key switch, as one step of `Update`. -/
theorem Update_rerun (ext : Ext) (a : App) (msg : KeyMsg)
    (hf : a.filtering = false) (hc : a.showConfirm = false)
    (hk : keyCase a.keys msg = KeyCase.Rerun) :
    Update ext a (.KeyMsg msg) =
      if a.focusedPane = Pane.RunsPane then rerunWorkflow a else (a, none) := by
  rw [Update_key, handleKeyPress_eq ext a msg hf hc, hk]

/-- The RerunFailed case of the key switch, as one step of `Update`. -/
theorem Update_rerunFailed (ext : Ext) (a : App) (msg : KeyMsg)
    (hf : a.filtering = false) (hc : a.showConfirm = false)
    (hk : keyCase a.keys msg = KeyCase.RerunFailed) :
    Update ext a (.KeyMsg msg) =
      if a.focusedPane = Pane.RunsPane then rerunFailedJobs a else (a, none) := by
  rw [Update_key, handleKeyPress_eq ext a msg hf hc, hk]

/-- A key in the confirm dialog is handled by `handleConfirmInput`. -/
theorem Update_confirm (ext : Ext) (a : App) (key : KeyMsg)
    (hf : a.filtering = false) (hc : a.showConfirm = true) :
    Update ext a (.KeyMsg key) = handleConfirmInput a key := by
  rw [Update_key]
  unfold handleKeyPress
  rw [if_neg (by simp [hf]), if_pos hc]

/-- What `confirmCancelRun` does on a selected running run. -/
theorem confirmCancelRun_running (a : App) (run : Run)
    (hs : a.runs.Selected = some run) (hr : run.IsRunning = true) :
    confirmCancelRun a =
      ({ a with
          showConfirm := true
          confirmMsg := "Cancel this run?"
          confirmFn := some (ConfirmFn.cancelRun run.ID) }, none) := by
  simp [confirmCancelRun, hs, hr]

/-- Without a selected running run `confirmCancelRun` does nothing. -/
theorem confirmCancelRun_idle (a : App)
    (h : ¬ ∃ run, a.runs.Selected = some run ∧ run.IsRunning = true) :
    confirmCancelRun a = (a, none) := by
  unfold confirmCancelRun
  cases hs : a.runs.Selected with
  | none => rfl
  | some run =>
    have hr : run.IsRunning = false := by
      cases hb : run.IsRunning
      · rfl
      · exact absurd ⟨run, hs, hb⟩ h
    simp [hr]

/-- A message that is not a key changes none of the control fields. -/
theorem Update_nonkey_control (ext : Ext) (a : App) (msg : Msg)
    (h : ∀ key, msg ≠ Msg.KeyMsg key) : control (Update ext a msg).1 = control a := by
  cases msg with
  | KeyMsg key => exact absurd rfl (h key)
  | WindowSizeMsg w h => rfl
  | WorkflowsLoadedMsg ws err => simp only [Update]; split_ifs <;> rfl
  | RunsLoadedMsg rs err => simp only [Update]; split_ifs <;> rfl
  | JobsLoadedMsg js err => simp only [Update]; split_ifs <;> rfl
  | LogsLoadedMsg logs err => simp only [Update]; split_ifs <;> rfl
  | RunCancelledMsg id err => simp only [Update]; split_ifs <;> rfl
  | RunRerunMsg id err => simp only [Update]; split_ifs <;> rfl
  | RerunFailedJobsMsg id err => rfl
  | WorkflowTriggeredMsg w err => rfl
  | FlashClearMsg => rfl
  | spinnerTickMsg tick => rfl
  | other tag => rfl

/-- The filter-mode handler changes no control field but `filtering`, which it can
only switch off. -/
theorem handleFilterInput_control (ext : Ext) (a : App) (msg : KeyMsg) :
    control (handleFilterInput ext a msg).1 =
        ((handleFilterInput ext a msg).1.filtering, a.showConfirm, a.fullscreenLog,
          a.confirmFn, a.client, a.repo) ∧
      ((handleFilterInput ext a msg).1.filtering = true → a.filtering = true) := by
  unfold handleFilterInput
  by_cases h1 : msg = "esc"
  · rw [if_pos h1]
    simp only [applyFilter]
    cases a.focusedPane <;> simp [control, TextInput.Blur]
  rw [if_neg h1]
  by_cases h2 : msg = "enter"
  · rw [if_pos h2]
    simp only [applyFilter]
    cases a.focusedPane <;> simp [control, TextInput.Blur]
  rw [if_neg h2]
  simp [control]

/-- The confirm-dialog handler leaves `filtering`, `fullscreenLog`, the client and the
repository alone and can only switch `showConfirm` off. -/
theorem handleConfirmInput_control (a : App) (msg : KeyMsg) :
    (handleConfirmInput a msg).1.filtering = a.filtering ∧
      (handleConfirmInput a msg).1.fullscreenLog = a.fullscreenLog ∧
      (handleConfirmInput a msg).1.client = a.client ∧
      (handleConfirmInput a msg).1.repo = a.repo ∧
      ((handleConfirmInput a msg).1.showConfirm = true → a.showConfirm = true) := by
  unfold handleConfirmInput
  by_cases h1 : msg = "y" ∨ msg = "Y"
  · rw [if_pos h1]
    cases a.confirmFn <;> simp
  rw [if_neg h1]
  by_cases h2 : msg = "n" ∨ msg = "N" ∨ msg = "esc"
  · rw [if_pos h2]
    simp
  rw [if_neg h2]
  simp

/-- Moving the selection changes no control field. -/
theorem navigate_control (a : App) :
    control (navigateUp a).1 = control a ∧ control (navigateDown a).1 = control a := by
  unfold navigateUp navigateDown onWorkflowSelectionChange onRunSelectionChange
    onJobSelectionChange
  constructor <;> cases a.focusedPane <;> simp only <;> split <;> rfl

/-- The cancel key handler changes no control field but `showConfirm` and the stored
closure. -/
theorem confirmCancelRun_control (a : App) :
    (confirmCancelRun a).1.filtering = a.filtering ∧
      (confirmCancelRun a).1.fullscreenLog = a.fullscreenLog ∧
      (confirmCancelRun a).1.client = a.client ∧
      (confirmCancelRun a).1.repo = a.repo := by
  unfold confirmCancelRun
  cases a.runs.Selected with
  | none => simp
  | some run => by_cases h : run.IsRunning = true <;> simp [h]

/-- The rerun key handlers leave the state as it is. -/
theorem rerun_state (a : App) : (rerunWorkflow a).1 = a ∧ (rerunFailedJobs a).1 = a := by
  unfold rerunWorkflow rerunFailedJobs
  cases a.runs.Selected with
  | none => simp
  | some run => by_cases h : run.IsFailed = true <;> simp [h]

/-- One key handled outside filter and confirm mode: afterwards filter and confirm
mode are not both on, the fullscreen log is switched on only into a state with
neither, and the client and the repository are untouched. -/
theorem handleKeyPress_normal_control (ext : Ext) (a : App) (msg : KeyMsg)
    (hf : a.filtering = false) (hc : a.showConfirm = false) :
    ((handleKeyPress ext a msg).1.filtering = false ∨
        (handleKeyPress ext a msg).1.showConfirm = false) ∧
      (a.fullscreenLog = false → (handleKeyPress ext a msg).1.fullscreenLog = true →
        (handleKeyPress ext a msg).1.filtering = false ∧
          (handleKeyPress ext a msg).1.showConfirm = false) ∧
      (handleKeyPress ext a msg).1.client = a.client ∧
      (handleKeyPress ext a msg).1.repo = a.repo := by
  rw [handleKeyPress_eq ext a msg hf hc]
  have hn := navigate_control a
  have hcc := confirmCancelRun_control a
  have hr := rerun_state a
  simp only [control, Prod.mk.injEq] at hn
  cases keyCase a.keys msg with
  | Quit => simp [hf, hc]
  | Help => simp [hf, hc]
  | Escape => simp only; split_ifs <;> simp_all
  | Up => simp only; simp_all
  | Down => simp only; simp_all
  | PrevPane => simp only [focusPrevPane]; cases a.focusedPane <;> simp_all
  | NextPane => simp only [focusNextPane]; cases a.focusedPane <;> simp_all
  | Filter => simp [hc]
  | FullLog => simp only; split_ifs <;> simp_all
  | Cancel => simp only; split_ifs <;> simp_all
  | Rerun => simp only; split_ifs <;> simp_all
  | RerunFailed => simp only; split_ifs <;> simp_all
  | unbound => simp [hf, hc]

/-- One step of `Update` keeps filter mode and confirm mode from being on together. -/
theorem Update_exclusive (ext : Ext) (a : App) (msg : Msg)
    (h : ¬ (a.filtering = true ∧ a.showConfirm = true)) :
    ¬ ((Update ext a msg).1.filtering = true ∧ (Update ext a msg).1.showConfirm = true) := by
  by_cases hkey : ∃ key, msg = Msg.KeyMsg key
  · obtain ⟨key, rfl⟩ := hkey
    rw [Update_key]
    by_cases hf : a.filtering = true
    · have hc : a.showConfirm = false := by
        cases hs : a.showConfirm
        · rfl
        · exact absurd ⟨hf, hs⟩ h
      have e : handleKeyPress ext a key = handleFilterInput ext a key := by
        unfold handleKeyPress
        rw [if_pos hf]
      have hcontrol := (handleFilterInput_control ext a key).1
      simp only [control, Prod.mk.injEq] at hcontrol
      rw [e]
      intro hboth
      rw [hcontrol.2.1, hc] at hboth
      exact Bool.false_ne_true hboth.2
    · have hf0 : a.filtering = false := by simpa using hf
      by_cases hc : a.showConfirm = true
      · have e : handleKeyPress ext a key = handleConfirmInput a key := by
          unfold handleKeyPress
          rw [if_neg hf, if_pos hc]
        rw [e]
        intro hboth
        rw [(handleConfirmInput_control a key).1, hf0] at hboth
        exact Bool.false_ne_true hboth.1
      · have hc0 : a.showConfirm = false := by simpa using hc
        rcases (handleKeyPress_normal_control ext a key hf0 hc0).1 with h1 | h1
        · intro hboth
          rw [h1] at hboth
          exact Bool.false_ne_true hboth.1
        · intro hboth
          rw [h1] at hboth
          exact Bool.false_ne_true hboth.2
  · have hcontrol := Update_nonkey_control ext a msg (fun key e => hkey ⟨key, e⟩)
    simp only [control, Prod.mk.injEq] at hcontrol
    rw [hcontrol.1, hcontrol.2.1]
    exact h

/-- `New` starts with every mode flag off. -/
theorem New_flags (opts : List AppOption) :
    (New opts).filtering = false ∧ (New opts).showConfirm = false ∧
      (New opts).fullscreenLog = false := by
  have key : ∀ (os : List AppOption) (a : App),
      (os.foldl AppOption.apply a).filtering = a.filtering ∧
        (os.foldl AppOption.apply a).showConfirm = a.showConfirm ∧
        (os.foldl AppOption.apply a).fullscreenLog = a.fullscreenLog := by
    intro os
    induction os with
    | nil => intro a; exact ⟨rfl, rfl, rfl⟩
    | cons o os ih =>
      intro a
      rw [List.foldl_cons]
      obtain ⟨h1, h2, h3⟩ := ih (AppOption.apply a o)
      rw [h1, h2, h3]
      cases o <;> exact ⟨rfl, rfl, rfl⟩
  unfold New
  simp only
  split_ifs
  · exact key opts _
  · exact key opts _

/-- `Init` changes no mode flag. -/
theorem Init_flags (a : App) :
    (Init a).1.filtering = a.filtering ∧ (Init a).1.showConfirm = a.showConfirm ∧
      (Init a).1.fullscreenLog = a.fullscreenLog := by
  unfold Init fetchWorkflowsCmd
  split_ifs <;> exact ⟨rfl, rfl, rfl⟩

/-- A step of `Update` that switches the fullscreen log on starts and ends with
neither filter nor confirm mode on. -/
theorem Update_fullscreen_on (ext : Ext) (a : App) (msg : Msg)
    (h0 : a.fullscreenLog = false) (h1 : (Update ext a msg).1.fullscreenLog = true) :
    a.filtering = false ∧ a.showConfirm = false ∧
      (Update ext a msg).1.filtering = false ∧ (Update ext a msg).1.showConfirm = false := by
  by_cases hkey : ∃ key, msg = Msg.KeyMsg key
  · obtain ⟨key, rfl⟩ := hkey
    rw [Update_key] at h1 ⊢
    by_cases hf : a.filtering = true
    · have e : handleKeyPress ext a key = handleFilterInput ext a key := by
        unfold handleKeyPress
        rw [if_pos hf]
      have hcontrol := (handleFilterInput_control ext a key).1
      simp only [control, Prod.mk.injEq] at hcontrol
      rw [e, hcontrol.2.2.1, h0] at h1
      exact absurd h1 Bool.false_ne_true
    · have hf0 : a.filtering = false := by simpa using hf
      by_cases hc : a.showConfirm = true
      · have e : handleKeyPress ext a key = handleConfirmInput a key := by
          unfold handleKeyPress
          rw [if_neg hf, if_pos hc]
        rw [e, (handleConfirmInput_control a key).2.1, h0] at h1
        exact absurd h1 Bool.false_ne_true
      · have hc0 : a.showConfirm = false := by simpa using hc
        obtain ⟨h2, h3⟩ := (handleKeyPress_normal_control ext a key hf0 hc0).2.1 h0 h1
        exact ⟨hf0, hc0, h2, h3⟩
  · have hcontrol := Update_nonkey_control ext a msg (fun key e => hkey ⟨key, e⟩)
    simp only [control, Prod.mk.injEq] at hcontrol
    rw [hcontrol.2.2.1, h0] at h1
    exact absurd h1 Bool.false_ne_true

/-- Handling further messages keeps a reachable state reachable. -/
theorem Reachable_runMsgs (ext : Ext) (ms : List Msg) :
    ∀ a : App, Reachable ext a → Reachable ext (runMsgs ext a ms) := by
  induction ms with
  | nil => intro a h; exact h
  | cons m ms ih =>
    intro a h
    exact ih _ (Reachable.update m h)

/-- While a confirm dialog is open, a message that is none of its keys changes no
control field. -/
theorem Update_keepsDialog_control (ext : Ext) (a : App) (m : Msg)
    (hf : a.filtering = false) (hc : a.showConfirm = true) (hm : keepsDialog m = true) :
    control (Update ext a m).1 = control a := by
  by_cases hkey : ∃ key, m = Msg.KeyMsg key
  · obtain ⟨key, rfl⟩ := hkey
    rw [Update_confirm ext a key hf hc]
    simp only [keepsDialog, Bool.not_eq_true', decide_eq_false_iff_not, not_or] at hm
    unfold handleConfirmInput
    rw [if_neg (by tauto), if_neg (by tauto)]
  · exact Update_nonkey_control ext a m (fun key e => hkey ⟨key, e⟩)

/-- An open confirm dialog stays as it is, with its recorded action, its client and
its repository, over any messages that are none of its keys. -/
theorem runMsgs_keepsDialog_control (ext : Ext) (ms : List Msg) :
    ∀ a : App, a.filtering = false → a.showConfirm = true →
      (∀ m ∈ ms, keepsDialog m = true) → control (runMsgs ext a ms) = control a := by
  induction ms with
  | nil => intro a _ _ _; rfl
  | cons m ms ih =>
    intro a hf hc hms
    have hstep := Update_keepsDialog_control ext a m hf hc (hms m (List.mem_cons_self m ms))
    have hstep2 := hstep
    simp only [control, Prod.mk.injEq] at hstep2
    have := ih (Update ext a m).1 (by rw [hstep2.1, hf]) (by rw [hstep2.2.1, hc])
      (fun x hx => hms x (List.mem_cons_of_mem m hx))
    show control (runMsgs ext (Update ext a m).1 ms) = control a
    rw [this, hstep]

/-- A list with a selected item has a visible item. -/
theorem FilteredList.Selected_some_Len {T : Type} {matchFn : T → String → Bool}
    (l : FilteredList T matchFn) (x : T) (h : l.Selected = some x) : 0 < l.Len := by
  by_contra hlen
  have h0 : l.Items = [] := List.length_eq_zero.mp (by unfold FilteredList.Len at hlen; omega)
  unfold FilteredList.Selected at h
  rw [h0] at h
  split_ifs at h
  simp at h

/-- The commands collected after a load: the fetch for the selected item, if any. -/
theorem cascade_eq {T : Type} {matchFn : T → String → Bool} (l : FilteredList T matchFn)
    (fetch : T → Option Cmd) :
    cascade l fetch =
      match l.Selected with
      | some x => [fetch x]
      | none => [] := by
  unfold cascade
  cases hs : l.Selected with
  | none => simp
  | some x => simp [FilteredList.Selected_some_Len l x hs]

/-- Loading a non-empty list into a list without filter text whose selection was the
first row or none selects the first item. -/
theorem FilteredList.SetItems_first {T : Type} {matchFn : T → String → Bool}
    (l : FilteredList T matchFn) (x : T) (rest : List T)
    (hfilter : l.filter = "") (hsel : l.selectedIdx ≤ 0) :
    (l.SetItems (x :: rest)).Selected = some x := by
  have hitems : (l.SetItems (x :: rest)).Items = x :: rest := by
    simp [FilteredList.SetItems, FilteredList.Items, hfilter]
  have hidx : (l.SetItems (x :: rest)).selectedIdx = 0 := by
    simp only [FilteredList.SetItems, FilteredList.Len, FilteredList.Items, hfilter, if_true,
      FilteredList.rederive, List.length_cons]
    rw [if_neg (by omega)]
    split_ifs <;> omega
  unfold FilteredList.Selected
  rw [hidx, hitems]
  simp

/-- No key press changes the stored poller, the flash message, the log view, the key
map, the client or the repository. -/
theorem handleKeyPress_fixed (ext : Ext) (a : App) (msg : KeyMsg) :
    fixed (handleKeyPress ext a msg).1 = fixed a := by
  by_cases hf : a.filtering = true
  · unfold handleKeyPress
    rw [if_pos hf]
    unfold handleFilterInput
    by_cases h1 : msg = "esc"
    · rw [if_pos h1]
      simp only [applyFilter]
      cases a.focusedPane <;> rfl
    rw [if_neg h1]
    by_cases h2 : msg = "enter"
    · rw [if_pos h2]
      simp only [applyFilter]
      cases a.focusedPane <;> rfl
    rw [if_neg h2]
    rfl
  · by_cases hc : a.showConfirm = true
    · unfold handleKeyPress
      rw [if_neg hf, if_pos hc]
      unfold handleConfirmInput
      by_cases h1 : msg = "y" ∨ msg = "Y"
      · rw [if_pos h1]
        cases a.confirmFn <;> rfl
      rw [if_neg h1]
      by_cases h2 : msg = "n" ∨ msg = "N" ∨ msg = "esc"
      · rw [if_pos h2]
        rfl
      rw [if_neg h2]
    · rw [handleKeyPress_eq ext a msg (by simpa using hf) (by simpa using hc)]
      cases keyCase a.keys msg with
      | Quit => rfl
      | Help => rfl
      | Escape => simp only; split_ifs <;> rfl
      | Up =>
        simp only [navigateUp, onWorkflowSelectionChange, onRunSelectionChange,
          onJobSelectionChange]
        cases a.focusedPane <;> simp only <;> split <;> rfl
      | Down =>
        simp only [navigateDown, onWorkflowSelectionChange, onRunSelectionChange,
          onJobSelectionChange]
        cases a.focusedPane <;> simp only <;> split <;> rfl
      | PrevPane => simp only [focusPrevPane]; cases a.focusedPane <;> rfl
      | NextPane => simp only [focusNextPane]; cases a.focusedPane <;> rfl
      | Filter => rfl
      | FullLog => simp only; split_ifs <;> rfl
      | Cancel =>
        simp only [confirmCancelRun]
        split_ifs
        · cases a.runs.Selected with
          | none => rfl
          | some run => simp only; split_ifs <;> rfl
        · rfl
      | Rerun =>
        simp only [rerunWorkflow]
        split_ifs
        · cases a.runs.Selected <;> rfl
        · rfl
      | RerunFailed =>
        simp only [rerunFailedJobs]
        split_ifs
        · cases a.runs.Selected with
          | none => rfl
          | some run => simp only; split_ifs <;> rfl
        · rfl
      | unbound => rfl

/-- No step of `Update` changes the stored poller. -/
theorem Update_logPoller (ext : Ext) (a : App) (msg : Msg) :
    (Update ext a msg).1.logPoller = a.logPoller := by
  cases msg with
  | KeyMsg key =>
    rw [Update_key]
    exact congrArg Prod.fst (handleKeyPress_fixed ext a key)
  | WindowSizeMsg w h => rfl
  | WorkflowsLoadedMsg ws err => simp only [Update]; split_ifs <;> rfl
  | RunsLoadedMsg rs err => simp only [Update]; split_ifs <;> rfl
  | JobsLoadedMsg js err => simp only [Update]; split_ifs <;> rfl
  | LogsLoadedMsg logs err => simp only [Update]; split_ifs <;> rfl
  | RunCancelledMsg id err => simp only [Update]; split_ifs <;> rfl
  | RunRerunMsg id err => simp only [Update]; split_ifs <;> rfl
  | RerunFailedJobsMsg id err => rfl
  | WorkflowTriggeredMsg w err => rfl
  | FlashClearMsg => rfl
  | spinnerTickMsg tick => rfl
  | other tag => rfl

/-- A flash message that is set stays set under every message but `FlashClearMsg`. -/
theorem Update_flash_stays (ext : Ext) (a : App) (msg : Msg)
    (hmsg : msg ≠ Msg.FlashClearMsg) (hflash : a.flashMsg ≠ "") :
    (Update ext a msg).1.flashMsg ≠ "" := by
  cases msg with
  | KeyMsg key =>
    rw [Update_key]
    have h := handleKeyPress_fixed ext a key
    simp only [fixed, Prod.mk.injEq] at h
    rw [h.2.2.1]
    exact hflash
  | WindowSizeMsg w h => exact hflash
  | WorkflowsLoadedMsg ws err => simp only [Update]; split_ifs <;> exact hflash
  | RunsLoadedMsg rs err => simp only [Update]; split_ifs <;> exact hflash
  | JobsLoadedMsg js err => simp only [Update]; split_ifs <;> exact hflash
  | LogsLoadedMsg logs err => simp only [Update]; split_ifs <;> exact hflash
  | RunCancelledMsg id err =>
    simp only [Update]
    split_ifs
    · exact hflash
    · show "Run cancelled" ≠ ""
      decide
  | RunRerunMsg id err =>
    simp only [Update]
    split_ifs
    · exact hflash
    · show "Rerun triggered" ≠ ""
      decide
  | RerunFailedJobsMsg id err => exact hflash
  | WorkflowTriggeredMsg w err => exact hflash
  | FlashClearMsg => exact absurd rfl hmsg
  | spinnerTickMsg tick => exact hflash
  | other tag => exact hflash

/-- The Up and Down cases of the key switch, as one step of `Update`. -/
theorem Update_navigate (ext : Ext) (a : App) (msg : KeyMsg)
    (hf : a.filtering = false) (hc : a.showConfirm = false) :
    (keyCase a.keys msg = KeyCase.Up → Update ext a (.KeyMsg msg) = navigateUp a) ∧
      (keyCase a.keys msg = KeyCase.Down → Update ext a (.KeyMsg msg) = navigateDown a) := by
  constructor <;> intro hk <;> rw [Update_key, handleKeyPress_eq ext a msg hf hc, hk]

/-- A selection move changes neither the items nor the filter of a list. -/
theorem moveSelection_items {T : Type} {matchFn : T → String → Bool} (k : KeyCase)
    (l : FilteredList T matchFn) :
    (moveSelection k l).items = l.items ∧ (moveSelection k l).filter = l.filter := by
  cases k with
  | Up => simp only [moveSelection, FilteredList.SelectPrev]; split_ifs <;> exact ⟨rfl, rfl⟩
  | Down => simp only [moveSelection, FilteredList.SelectNext]; split_ifs <;> exact ⟨rfl, rfl⟩
  | _ => exact ⟨rfl, rfl⟩

/-- On a list that satisfies the selection invariant and has no selected item, a
selection move does nothing. -/
theorem moveSelection_empty {T : Type} {matchFn : T → String → Bool} (k : KeyCase)
    (l : FilteredList T matchFn) (hwf : l.WF) (hs : l.Selected = none) :
    moveSelection k l = l := by
  have hsel : l.Len = 0 ∧ l.selectedIdx = -1 := by
    rcases hwf with h | ⟨h1, h2⟩
    · exact h
    · exfalso
      unfold FilteredList.Selected at hs
      rw [if_neg (by omega)] at hs
      have hlt : l.selectedIdx.toNat < l.Items.length := by
        unfold FilteredList.Len at h2
        omega
      rw [List.getElem?_eq_getElem hlt] at hs
      exact Option.noConfusion hs
  cases k with
  | Up => simp only [moveSelection, FilteredList.SelectPrev]; rw [if_neg (by omega)]
  | Down => simp only [moveSelection, FilteredList.SelectNext]; rw [if_neg (by omega)]
  | _ => rfl

/-- A key that selects no case of the key switch does nothing. -/
theorem Update_unbound (ext : Ext) (a : App) (msg : KeyMsg)
    (hf : a.filtering = false) (hc : a.showConfirm = false)
    (hk : keyCase a.keys msg = KeyCase.unbound) :
    Update ext a (.KeyMsg msg) = (a, none) := by
  rw [Update_key, handleKeyPress_eq ext a msg hf hc, hk]

/-- `tea.Batch` of a single command is that command. -/
theorem Batch_single (c : Option Cmd) : Batch [c] = c := by
  cases c <;> rfl

/-- The guarded fetch commands are never the quit command. -/
theorem fetchCmd_ne_quit (a : App) (id : Int) :
    fetchRunsCmd a id ≠ some Cmd.Quit ∧ fetchJobsCmd a id ≠ some Cmd.Quit ∧
      fetchLogsCmd a id ≠ some Cmd.Quit := by
  unfold fetchRunsCmd fetchJobsCmd fetchLogsCmd
  refine ⟨?_, ?_, ?_⟩ <;> split_ifs <;> simp

/-- The commands collected after a load never hold the quit command. -/
theorem Batch_cascade_ne_quit {T : Type} {matchFn : T → String → Bool}
    (l : FilteredList T matchFn) (fetch : T → Option Cmd)
    (h : ∀ x, fetch x ≠ some Cmd.Quit) : Batch (cascade l fetch) ≠ some Cmd.Quit := by
  rw [cascade_eq]
  cases l.Selected with
  | none => simp [Batch, List.reduceOption]
  | some x =>
    simp only
    rw [Batch_single]
    exact h x

/-- Moving the selection never returns the quit command. -/
theorem navigate_ne_quit (a : App) :
    (navigateUp a).2 ≠ some Cmd.Quit ∧ (navigateDown a).2 ≠ some Cmd.Quit := by
  unfold navigateUp navigateDown onWorkflowSelectionChange onRunSelectionChange
    onJobSelectionChange
  constructor <;> cases a.focusedPane <;> simp only <;> split <;>
    first
      | exact (fetchCmd_ne_quit _ _).1
      | exact (fetchCmd_ne_quit _ _).2.1
      | exact (fetchCmd_ne_quit _ _).2.2
      | simp

/-- The only key press that returns the quit command is one that selects the Quit case
of the key switch outside filter and confirm mode. -/
theorem handleKeyPress_quit (ext : Ext) (a : App) (msg : KeyMsg) :
    (handleKeyPress ext a msg).2 = some Cmd.Quit ↔
      a.filtering = false ∧ a.showConfirm = false ∧ keyCase a.keys msg = KeyCase.Quit := by
  constructor
  · intro h
    by_cases hf : a.filtering = true
    · exfalso
      unfold handleKeyPress at h
      rw [if_pos hf] at h
      unfold handleFilterInput at h
      by_cases h1 : msg = "esc"
      · rw [if_pos h1] at h
        exact Option.noConfusion h
      rw [if_neg h1] at h
      by_cases h2 : msg = "enter"
      · rw [if_pos h2] at h
        exact Option.noConfusion h
      rw [if_neg h2] at h
      cases hw : (ext.textinputUpdate a.filterInput msg).2 with
      | none => simp [hw] at h
      | some n => simp [hw] at h
    · have hf0 : a.filtering = false := by simpa using hf
      by_cases hc : a.showConfirm = true
      · exfalso
        unfold handleKeyPress at h
        rw [if_neg hf, if_pos hc] at h
        unfold handleConfirmInput at h
        by_cases h1 : msg = "y" ∨ msg = "Y"
        · rw [if_pos h1] at h
          cases hfn : a.confirmFn with
          | none => simp [hfn] at h
          | some fn => cases fn; simp [hfn, ConfirmFn.call] at h
        rw [if_neg h1] at h
        by_cases h2 : msg = "n" ∨ msg = "N" ∨ msg = "esc"
        · rw [if_pos h2] at h
          exact Option.noConfusion h
        rw [if_neg h2] at h
        exact Option.noConfusion h
      · have hc0 : a.showConfirm = false := by simpa using hc
        refine ⟨hf0, hc0, ?_⟩
        rw [handleKeyPress_eq ext a msg hf0 hc0] at h
        cases hk : keyCase a.keys msg with
        | Quit => rfl
        | Help => rw [hk] at h; exact Option.noConfusion h
        | Escape => rw [hk] at h; simp only at h; split_ifs at h
        | Up => rw [hk] at h; exact absurd h (navigate_ne_quit a).1
        | Down => rw [hk] at h; exact absurd h (navigate_ne_quit a).2
        | PrevPane => rw [hk] at h; exact Option.noConfusion h
        | NextPane => rw [hk] at h; exact Option.noConfusion h
        | Filter => rw [hk] at h; exact Option.noConfusion h
        | FullLog => rw [hk] at h; simp only at h; split_ifs at h
        | Cancel =>
          rw [hk] at h
          simp only [confirmCancelRun] at h
          split_ifs at h
          cases hs : a.runs.Selected with
          | none => simp [hs] at h
          | some run => simp only [hs] at h; split_ifs at h
        | Rerun =>
          rw [hk] at h
          simp only [rerunWorkflow] at h
          split_ifs at h
          cases hs : a.runs.Selected <;> simp [hs] at h
        | RerunFailed =>
          rw [hk] at h
          simp only [rerunFailedJobs] at h
          split_ifs at h
          cases hs : a.runs.Selected with
          | none => simp [hs] at h
          | some run => simp only [hs] at h; split_ifs at h; simp at h
        | unbound => rw [hk] at h; exact Option.noConfusion h
  · rintro ⟨hf, hc, hk⟩
    rw [handleKeyPress_eq ext a msg hf hc, hk]

/-- The refresh after a successful action is never the quit command. -/
theorem refresh_ne_quit (b : App) : Batch [refreshCurrentWorkflow b] ≠ some Cmd.Quit := by
  rw [Batch_single]
  unfold refreshCurrentWorkflow
  cases b.workflows.Selected with
  | none => simp
  | some wf => exact (fetchCmd_ne_quit b wf.ID).1

/-- A list result never returns the quit command. -/
theorem Update_loaded_ne_quit (ext : Ext) (a : App) (err : Option Error) :
    (∀ ws, (Update ext a (.WorkflowsLoadedMsg ws err)).2 ≠ some Cmd.Quit) ∧
      (∀ rs, (Update ext a (.RunsLoadedMsg rs err)).2 ≠ some Cmd.Quit) ∧
      (∀ js, (Update ext a (.JobsLoadedMsg js err)).2 ≠ some Cmd.Quit) := by
  refine ⟨?_, ?_, ?_⟩
  · intro ws h
    simp only [Update] at h
    split_ifs at h
    · exact Option.noConfusion h
    · exact Batch_cascade_ne_quit _ _ (fun (x : Workflow) => (fetchCmd_ne_quit _ x.ID).1) h
  · intro rs h
    simp only [Update] at h
    split_ifs at h
    · exact Option.noConfusion h
    · exact Batch_cascade_ne_quit _ _ (fun (x : Run) => (fetchCmd_ne_quit _ x.ID).2.1) h
  · intro js h
    simp only [Update] at h
    split_ifs at h
    · exact Option.noConfusion h
    · exact Batch_cascade_ne_quit _ _ (fun (x : Job) => (fetchCmd_ne_quit _ x.ID).2.2) h

/-- A message that is not a key never returns the quit command. -/
theorem Update_nonkey_ne_quit (ext : Ext) (a : App) (msg : Msg)
    (hmsg : ∀ key, msg ≠ Msg.KeyMsg key) : (Update ext a msg).2 ≠ some Cmd.Quit := by
  cases msg with
  | KeyMsg key => exact absurd rfl (hmsg key)
  | WindowSizeMsg w h => intro h; cases h
  | WorkflowsLoadedMsg ws err => exact (Update_loaded_ne_quit ext a err).1 ws
  | RunsLoadedMsg rs err => exact (Update_loaded_ne_quit ext a err).2.1 rs
  | JobsLoadedMsg js err => exact (Update_loaded_ne_quit ext a err).2.2 js
  | LogsLoadedMsg logs err =>
    intro h
    simp only [Update] at h
    split_ifs at h <;> exact Option.noConfusion h
  | RunCancelledMsg id err =>
    intro h
    simp only [Update] at h
    split_ifs at h
    · exact Option.noConfusion h
    · exact refresh_ne_quit _ h
  | RunRerunMsg id err =>
    intro h
    simp only [Update] at h
    split_ifs at h
    · exact Option.noConfusion h
    · exact refresh_ne_quit _ h
  | RerunFailedJobsMsg id err => intro h; cases h
  | WorkflowTriggeredMsg w err => intro h; cases h
  | FlashClearMsg => intro h; cases h
  | spinnerTickMsg tick =>
    intro h
    simp only [Update, Batch_single] at h
    cases hw : (ext.spinnerUpdate a.spinner tick).2 with
    | none => simp [hw] at h
    | some n => simp [hw] at h
  | other tag => intro h; cases h

/-- The substring test of the model agrees with the infix relation on lists. -/
theorem containsChars_iff (s sub : List Char) : containsChars s sub = true ↔ sub <:+: s := by
  unfold containsChars
  rw [List.any_eq_true, List.infix_iff_prefix_suffix]
  constructor
  · rintro ⟨t, ht, hp⟩
    exact ⟨t, List.isPrefixOf_iff_prefix.mp hp, (List.mem_tails t s).mp ht⟩
  · rintro ⟨t, hp, ht⟩
    exact ⟨t, (List.mem_tails t s).mpr ht, List.isPrefixOf_iff_prefix.mpr hp⟩

/-- No step of `Update` changes the stored poller, the adaptive poller, the client or
the repository. -/
theorem Update_poller_fields (ext : Ext) (a : App) (msg : Msg) :
    (Update ext a msg).1.logPoller = a.logPoller ∧
      (Update ext a msg).1.adaptivePoller = a.adaptivePoller ∧
      (Update ext a msg).1.client = a.client ∧ (Update ext a msg).1.repo = a.repo := by
  cases msg with
  | KeyMsg key =>
    rw [Update_key]
    have h := handleKeyPress_fixed ext a key
    simp only [fixed, Prod.mk.injEq] at h
    exact ⟨h.1, h.2.1, h.2.2.2.2.2.1, h.2.2.2.2.2.2⟩
  | WindowSizeMsg w h => exact ⟨rfl, rfl, rfl, rfl⟩
  | WorkflowsLoadedMsg ws err => simp only [Update]; split_ifs <;> exact ⟨rfl, rfl, rfl, rfl⟩
  | RunsLoadedMsg rs err => simp only [Update]; split_ifs <;> exact ⟨rfl, rfl, rfl, rfl⟩
  | JobsLoadedMsg js err => simp only [Update]; split_ifs <;> exact ⟨rfl, rfl, rfl, rfl⟩
  | LogsLoadedMsg logs err => simp only [Update]; split_ifs <;> exact ⟨rfl, rfl, rfl, rfl⟩
  | RunCancelledMsg id err => simp only [Update]; split_ifs <;> exact ⟨rfl, rfl, rfl, rfl⟩
  | RunRerunMsg id err => simp only [Update]; split_ifs <;> exact ⟨rfl, rfl, rfl, rfl⟩
  | RerunFailedJobsMsg id err => exact ⟨rfl, rfl, rfl, rfl⟩
  | WorkflowTriggeredMsg w err => exact ⟨rfl, rfl, rfl, rfl⟩
  | FlashClearMsg => exact ⟨rfl, rfl, rfl, rfl⟩
  | spinnerTickMsg tick => exact ⟨rfl, rfl, rfl, rfl⟩
  | other tag => exact ⟨rfl, rfl, rfl, rfl⟩

/-- Stopping a task changes that task only, and only its stopped flag. -/
theorem stopTask_getElem (ts : Tasks) (r i : Nat) :
    (stopTask ts r)[i]? =
      if i = r then (ts[i]?).map (fun t => { t with stopped := true }) else ts[i]? := by
  unfold stopTask
  cases h : ts[r]? with
  | none =>
    by_cases hir : i = r
    · subst hir
      simp [h]
    · simp [hir]
  | some t =>
    have hlt : r < ts.length := (List.getElem?_eq_some.mp h).1
    by_cases hir : i = r
    · subst hir
      simp [List.getElem?_set, hlt, h]
    · have hne : r ≠ i := fun e => hir e.symm
      simp [List.getElem?_set, hir, hne]

/-- Stopping a task keeps the number of tasks. -/
theorem stopTask_length (ts : Tasks) (r : Nat) : (stopTask ts r).length = ts.length := by
  unfold stopTask
  cases ts[r]? <;> simp

/-- After the stored task is stopped, every created task is stopped. -/
theorem stopStored_all_stopped (a : App) (ts : Tasks) (hinv : onePoller a ts) :
    ∀ (i : Nat) (t : TickerTask), (stopStored a ts)[i]? = some t → t.stopped = true := by
  intro i t h
  unfold stopStored at h
  cases hl : a.logPoller with
  | none =>
    rw [hl] at h
    simp only at h
    cases hs : t.stopped with
    | true => rfl
    | false =>
      have := hinv i t h hs
      rw [hl] at this
      cases this
  | some r =>
    rw [hl] at h
    simp only at h
    rw [stopTask_getElem] at h
    by_cases hir : i = r
    · rw [if_pos hir] at h
      cases h0 : ts[i]? with
      | none => simp [h0] at h
      | some t0 =>
        simp only [h0, Option.map_some', Option.some.injEq] at h
        rw [← h]
    · rw [if_neg hir] at h
      cases hs : t.stopped with
      | true => rfl
      | false =>
        have := hinv i t h hs
        rw [hl] at this
        exact absurd (Option.some.inj this).symm hir

/-- Stopping the stored task keeps the number of tasks. -/
theorem stopStored_length (a : App) (ts : Tasks) : (stopStored a ts).length = ts.length := by
  unfold stopStored
  cases a.logPoller with
  | none => rfl
  | some r => exact stopTask_length ts r

/-- With an adaptive poller and a client, `StartLogPolling` returns: the stored task is
stopped, a new started task is appended and stored, and its start command returned. -/
theorem StartLogPolling_eq (policy : Int → Nat) (a : App) (ts : Tasks) (p : AdaptivePoller)
    (c : Client) (hp : a.adaptivePoller = some p) (hcl : a.client = some c) :
    StartLogPolling policy a ts =
      some ({ a with logPoller := some (stopStored a ts).length },
        stopStored a ts ++ [(NewTickerTask (policy c.RateLimit)).Start],
        some (Cmd.tickerStart (stopStored a ts).length)) := by
  unfold StartLogPolling stopStored
  simp only [hp, hcl]

/-- `StopLogPolling` stops the stored task and forgets it. -/
theorem StopLogPolling_eq (a : App) (ts : Tasks) :
    (StopLogPolling a ts).2 = stopStored a ts ∧ (StopLogPolling a ts).1.logPoller = none ∧
      (StopLogPolling a ts).1.adaptivePoller = a.adaptivePoller ∧
      (StopLogPolling a ts).1.client = a.client := by
  unfold StopLogPolling stopStored
  cases h : a.logPoller with
  | none => exact ⟨rfl, h, rfl, rfl⟩
  | some r => exact ⟨rfl, rfl, rfl, rfl⟩

/-- After `StartLogPolling` the only task not stopped is the new one, which is stored. -/
theorem onePoller_start (a : App) (ts : Tasks) (t0 : TickerTask) (hinv : onePoller a ts) :
    onePoller { a with logPoller := some (stopStored a ts).length } (stopStored a ts ++ [t0]) := by
  intro i t h hs
  by_cases hlt : i < (stopStored a ts).length
  · rw [List.getElem?_append_left hlt] at h
    have := stopStored_all_stopped a ts hinv i t h
    rw [hs] at this
    cases this
  · have hge : (stopStored a ts).length ≤ i := Nat.le_of_not_lt hlt
    rw [List.getElem?_append_right hge] at h
    have hi : i - (stopStored a ts).length = 0 := by
      by_contra hne
      have h1 : 1 ≤ i - (stopStored a ts).length := Nat.pos_of_ne_zero hne
      rw [List.getElem?_eq_none (by simpa using h1)] at h
      cases h
    show some (stopStored a ts).length = some i
    congr 1
    exact Nat.le_antisymm hge (Nat.sub_eq_zero_iff_le.mp hi)

/-- After `StopLogPolling` no task is left that is not stopped. -/
theorem onePoller_stop (a : App) (ts : Tasks) (hinv : onePoller a ts) :
    onePoller (StopLogPolling a ts).1 (StopLogPolling a ts).2 := by
  intro i t h hs
  rw [(StopLogPolling_eq a ts).1] at h
  have := stopStored_all_stopped a ts hinv i t h
  rw [hs] at this
  cases this

/-- A poller call or message, with an adaptive poller and a client, succeeds and keeps
both, and keeps the invariant that only the stored task can be unstopped. -/
theorem stepOp_onePoller (ext : Ext) (policy : Int → Nat) (op : PollOp) (a : App) (ts : Tasks)
    (hp : a.adaptivePoller ≠ none) (hcl : a.client ≠ none) (hinv : onePoller a ts) :
    ∃ a2 ts2, stepOp ext policy op (a, ts) = some (a2, ts2) ∧ a2.adaptivePoller ≠ none ∧
      a2.client ≠ none ∧ onePoller a2 ts2 := by
  cases op with
  | start =>
    obtain ⟨p, hp1⟩ := Option.ne_none_iff_exists'.mp hp
    obtain ⟨c, hc1⟩ := Option.ne_none_iff_exists'.mp hcl
    refine ⟨{ a with logPoller := some (stopStored a ts).length },
      stopStored a ts ++ [(NewTickerTask (policy c.RateLimit)).Start], ?_, hp, hcl,
      onePoller_start a ts _ hinv⟩
    simp only [stepOp, StartLogPolling_eq policy a ts p c hp1 hc1, Option.map_some']
  | stop =>
    refine ⟨(StopLogPolling a ts).1, (StopLogPolling a ts).2, rfl, ?_, ?_,
      onePoller_stop a ts hinv⟩
    · rw [(StopLogPolling_eq a ts).2.2.1]
      exact hp
    · rw [(StopLogPolling_eq a ts).2.2.2]
      exact hcl
  | update msg =>
    have hfields := Update_poller_fields ext a msg
    refine ⟨(Update ext a msg).1, ts, rfl, ?_, ?_, ?_⟩
    · rw [hfields.2.1]
      exact hp
    · rw [hfields.2.2.1]
      exact hcl
    · intro i t h hs
      rw [hfields.1]
      exact hinv i t h hs

/-- Any sequence of poller calls and messages, with an adaptive poller and a client,
succeeds and keeps the invariant. -/
theorem runOps_onePoller (ext : Ext) (policy : Int → Nat) (ops : List PollOp) :
    ∀ (a : App) (ts : Tasks), a.adaptivePoller ≠ none → a.client ≠ none → onePoller a ts →
      ∃ a2 ts2, runOps ext policy ops (a, ts) = some (a2, ts2) ∧ onePoller a2 ts2 := by
  induction ops with
  | nil =>
    intro a ts _ _ hinv
    exact ⟨a, ts, rfl, hinv⟩
  | cons op ops ih =>
    intro a ts hp hcl hinv
    obtain ⟨a1, ts1, hstep, hp1, hcl1, hinv1⟩ := stepOp_onePoller ext policy op a ts hp hcl hinv
    obtain ⟨a2, ts2, hrun, hinv2⟩ := ih a1 ts1 hp1 hcl1 hinv1
    refine ⟨a2, ts2, ?_, hinv2⟩
    simp only [runOps, hstep, Option.some_bind, hrun]

/-- Handling messages changes neither the client nor the repository. -/
theorem runMsgs_client (ext : Ext) (ms : List Msg) :
    ∀ a : App, (runMsgs ext a ms).client = a.client ∧ (runMsgs ext a ms).repo = a.repo := by
  induction ms with
  | nil => intro a; exact ⟨rfl, rfl⟩
  | cons m ms ih =>
    intro a
    have h := Update_poller_fields ext a m
    have h2 := ih (Update ext a m).1
    exact ⟨h2.1.trans h.2.2.1, h2.2.trans h.2.2.2⟩

/-- With a client, one execution of the unit of work asks for the logs of the job that
is selected when it runs. -/
theorem pollWork_requested (getJobLogs : Client → Repository → Int → String × Option Error)
    (cancelled : Bool) (a : App) (c : Client) (hcl : a.client = some c) :
    ∃ run, pollWork getJobLogs cancelled a = some run ∧
      run.requested = a.jobs.Selected.map Job.ID := by
  unfold pollWork
  cases a.jobs.Selected with
  | none => exact ⟨_, rfl, rfl⟩
  | some job =>
    simp only [hcl]
    cases cancelled
    · exact ⟨_, rfl, rfl⟩
    · exact ⟨_, rfl, rfl⟩

/-- An up or down key outside filter and confirm mode: the selection of the focused
list is moved, then the selection-change handler of that pane runs. -/
theorem Update_moveSelection (ext : Ext) (a : App) (msg : KeyMsg)
    (hf : a.filtering = false) (hc : a.showConfirm = false)
    (hk : keyCase a.keys msg = KeyCase.Up ∨ keyCase a.keys msg = KeyCase.Down) :
    Update ext a (.KeyMsg msg) =
      match a.focusedPane with
      | .WorkflowsPane =>
        onWorkflowSelectionChange
          { a with workflows := moveSelection (keyCase a.keys msg) a.workflows }
      | .RunsPane =>
        onRunSelectionChange { a with runs := moveSelection (keyCase a.keys msg) a.runs }
      | .LogsPane =>
        onJobSelectionChange { a with jobs := moveSelection (keyCase a.keys msg) a.jobs } := by
  rcases hk with hk | hk
  · rw [(Update_navigate ext a msg hf hc).1 hk, hk]
    rfl
  · rw [(Update_navigate ext a msg hf hc).2 hk, hk]
    rfl

/-- A key in filter mode other than Enter and Escape is handed to the text-entry
widget: its next state is stored and its command returned. -/
theorem Update_filter_typing (ext : Ext) (a : App) (msg : KeyMsg)
    (hf : a.filtering = true) (h1 : msg ≠ "enter") (h2 : msg ≠ "esc") :
    Update ext a (.KeyMsg msg) =
      ({ a with filterInput := (ext.textinputUpdate a.filterInput msg).1 },
        (ext.textinputUpdate a.filterInput msg).2.map Cmd.widget) := by
  rw [Update_key]
  unfold handleKeyPress
  rw [if_pos hf]
  unfold handleFilterInput
  rw [if_neg h2, if_neg h1]

/-- With a window size set, `View` renders the fullscreen log when its flag is on, and
the help overlay when the help flag is on and the fullscreen log is off. -/
theorem View_overlay (a : App) (hw : a.width ≠ 0) (hh : a.height ≠ 0) :
    (a.fullscreenLog = true → View a = Screen.renderFullscreenLog) ∧
      (a.fullscreenLog = false → a.showHelp = true → View a = Screen.renderHelp) := by
  have hsize : ¬ (a.width = 0 ∨ a.height = 0) := fun h => h.elim hw hh
  constructor
  · intro hfull
    unfold View
    rw [if_neg hsize, if_pos hfull]
  · intro hfull hhelp
    unfold View
    rw [if_neg hsize, if_neg (by simp [hfull]), if_pos hhelp]

/-- The runs of the case table are in code point order and do not overlap. -/
theorem caseRanges_sorted : caseRanges.Pairwise (fun r s => r.hi < s.lo) := by
  decide!

/-- What it means for a run to cover a code point. -/
theorem covers_iff (r : CaseRange) (n : Nat) :
    r.covers n = true ↔ r.lo ≤ n ∧ n ≤ r.hi ∧ (n - r.lo) % r.stride = 0 := by
  simp [CaseRange.covers, and_assoc]

/-- A code point is covered by at most one run of the case table. -/
theorem covers_unique (r s : CaseRange) (n : Nat) (hr : r ∈ caseRanges) (hs : s ∈ caseRanges)
    (hrn : r.covers n = true) (hsn : s.covers n = true) : r = s := by
  have hsym : Symmetric (fun a b : CaseRange => a = b ∨ a.hi < b.lo ∨ b.hi < a.lo) := by
    intro a b h
    rcases h with h | h | h
    · exact Or.inl h.symm
    · exact Or.inr (Or.inr h)
    · exact Or.inr (Or.inl h)
  have hpw : caseRanges.Pairwise (fun a b : CaseRange => a = b ∨ a.hi < b.lo ∨ b.hi < a.lo) :=
    caseRanges_sorted.imp (fun h => Or.inr (Or.inl h))
  have h := List.Pairwise.forall_of_forall hsym (fun x _ => Or.inl rfl) hpw hr hs
  rw [covers_iff] at hrn hsn
  rcases h with h | h | h
  · exact h
  · omega
  · omega

/-- The lowercase form of a character is what `unicode.ToLower` returns for it. -/
theorem lowerForm_iff (c l : Char) : lowerForm c l ↔ unicodeToLower c = l := by
  unfold lowerForm lowercaseOf unicodeToLower
  by_cases h1 : c.toNat ≤ 127
  · rw [if_pos h1]
    by_cases h2 : 65 ≤ c.toNat ∧ c.toNat ≤ 90
    · rw [if_pos h2]
      constructor
      · rintro (h | ⟨h, _⟩)
        · rcases h with ⟨_, _, h⟩ | ⟨h, _⟩
          · exact h.symm
          · omega
        · exact absurd (Or.inl ⟨h2.1, h2.2, rfl⟩) (h (Char.ofNat (c.toNat + 32)))
      · intro h
        exact Or.inl (Or.inl ⟨h2.1, h2.2, h.symm⟩)
    · rw [if_neg h2]
      constructor
      · rintro (h | ⟨_, h⟩)
        · rcases h with ⟨ha, hb, _⟩ | ⟨h, _⟩
          · exact absurd ⟨ha, hb⟩ h2
          · omega
        · exact h.symm
      · intro h
        refine Or.inr ⟨?_, h.symm⟩
        intro x hx
        rcases hx with ⟨ha, hb, _⟩ | ⟨h, _⟩
        · exact h2 ⟨ha, hb⟩
        · omega
  · rw [if_neg h1]
    cases hf : caseRanges.find? (fun r => r.covers c.toNat) with
    | none =>
      simp only
      have hno : ∀ r ∈ caseRanges, ¬ r.covers c.toNat = true := by
        intro r hr
        have := List.find?_eq_none.mp hf r hr
        simpa using this
      constructor
      · rintro (h | ⟨_, h⟩)
        · rcases h with ⟨_, hb, _⟩ | ⟨_, r, hr, hcov, _⟩
          · omega
          · exact absurd hcov (hno r hr)
        · exact h.symm
      · intro h
        refine Or.inr ⟨?_, h.symm⟩
        intro x hx
        rcases hx with ⟨_, hb, _⟩ | ⟨_, r, hr, hcov, _⟩
        · omega
        · exact hno r hr hcov
    | some r0 =>
      simp only
      have hmem : r0 ∈ caseRanges := List.mem_of_find?_eq_some hf
      have hcov0 : r0.covers c.toNat = true := by
        have := List.find?_some hf
        simpa using this
      constructor
      · rintro (h | ⟨h, _⟩)
        · rcases h with ⟨_, hb, _⟩ | ⟨_, r, hr, hcov, hl⟩
          · omega
          · rw [covers_unique r r0 c.toNat hr hmem hcov hcov0] at hl
            exact hl.symm
        · exact absurd (Or.inr ⟨by omega, r0, hmem, hcov0, rfl⟩) (h _)
      · intro h
        exact Or.inl (Or.inr ⟨by omega, r0, hmem, hcov0, h.symm⟩)

/-- Two characters are the same ignoring case exactly when `unicode.ToLower` maps them
to the same character. -/
theorem sameIgnoringCase_iff (c d : Char) :
    sameIgnoringCase c d ↔ unicodeToLower c = unicodeToLower d := by
  unfold sameIgnoringCase
  constructor
  · rintro ⟨l, hc, hd⟩
    rw [(lowerForm_iff c l).mp hc, (lowerForm_iff d l).mp hd]
  · intro h
    exact ⟨unicodeToLower c, (lowerForm_iff c _).mpr rfl, (lowerForm_iff d _).mpr h.symm⟩

/-- Two texts have the same lower-cased characters exactly when they agree character by
character ignoring case. -/
theorem map_eq_map_iff_forall₂ (f t : List Char) :
    t.map unicodeToLower = f.map unicodeToLower ↔ List.Forall₂ sameIgnoringCase f t := by
  induction f generalizing t with
  | nil =>
    cases t with
    | nil => simp
    | cons b t => simp
  | cons a f ih =>
    cases t with
    | nil => simp
    | cons b t =>
      simp only [List.map_cons, List.cons.injEq, List.forall₂_cons, ih t, sameIgnoringCase_iff]
      constructor
      · rintro ⟨h1, h2⟩
        exact ⟨h1.symm, h2⟩
      · rintro ⟨h1, h2⟩
        exact ⟨h1.symm, h2⟩

/-- The predicate shape built by `New` is the case-insensitive substring test. -/
theorem containsFold_iff (text filter : String) :
    containsFold text filter = true ↔ substringIgnoringCase filter text := by
  unfold containsFold substringIgnoringCase toLower
  rw [containsChars_iff]
  constructor
  · rintro ⟨s1, s2, h⟩
    obtain ⟨l1, l2, hl, h1, h2⟩ := List.map_eq_append_iff.mp h.symm
    obtain ⟨l3, seg, hl1, h3, h4⟩ := List.map_eq_append_iff.mp h1
    refine ⟨seg, ⟨l3, l2, ?_⟩, (map_eq_map_iff_forall₂ _ _).mp h4⟩
    rw [hl, hl1]
  · rintro ⟨seg, hseg, hf⟩
    rw [← (map_eq_map_iff_forall₂ _ _).mpr hf]
    exact hseg.map _

/-! ## Escape priority -/

/-- C3: outside filter and confirm mode one Escape press clears exactly one thing, in
the order help, fullscreen log, error, and returns no command; from a state with all
three set, three presses clear help, then fullscreen, then the error, every other
field staying as it was. -/
theorem escape_priority (ext : Ext) (a : App) (msg : KeyMsg)
    (hf : a.filtering = false) (hc : a.showConfirm = false)
    (hk : keyCase a.keys msg = KeyCase.Escape) :
    (a.showHelp = true →
      Update ext a (.KeyMsg msg) = ({ a with showHelp := false }, none)) ∧
    (a.showHelp = false → a.fullscreenLog = true →
      Update ext a (.KeyMsg msg) = ({ a with fullscreenLog := false }, none)) ∧
    (a.showHelp = false → a.fullscreenLog = false → a.err ≠ none →
      Update ext a (.KeyMsg msg) = ({ a with err := none }, none)) ∧
    (a.showHelp = true → a.fullscreenLog = true → a.err ≠ none →
      runMsgs ext a [.KeyMsg msg] = { a with showHelp := false } ∧
      runMsgs ext a [.KeyMsg msg, .KeyMsg msg] =
        { a with showHelp := false, fullscreenLog := false } ∧
      runMsgs ext a [.KeyMsg msg, .KeyMsg msg, .KeyMsg msg] =
        { a with showHelp := false, fullscreenLog := false, err := none }) := by
  refine ⟨?_, ?_, ?_, ?_⟩
  · intro h
    rw [Update_escape ext a msg hf hc hk, if_pos h]
  · intro h1 h2
    rw [Update_escape ext a msg hf hc hk, if_neg (by simp [h1]), if_pos h2]
  · intro h1 h2 h3
    rw [Update_escape ext a msg hf hc hk, if_neg (by simp [h1]), if_neg (by simp [h2]),
      if_pos h3]
  · intro h1 h2 h3
    have e1 : Update ext a (.KeyMsg msg) = ({ a with showHelp := false }, none) := by
      rw [Update_escape ext a msg hf hc hk, if_pos h1]
    have e2 : Update ext { a with showHelp := false } (.KeyMsg msg) =
        ({ a with showHelp := false, fullscreenLog := false }, none) := by
      rw [Update_escape ext { a with showHelp := false } msg hf hc hk,
        if_neg (by simp), if_pos h2]
    have e3 : Update ext { a with showHelp := false, fullscreenLog := false } (.KeyMsg msg) =
        ({ a with showHelp := false, fullscreenLog := false, err := none }, none) := by
      rw [Update_escape ext { a with showHelp := false, fullscreenLog := false } msg hf hc hk,
        if_neg (by simp), if_neg (by simp), if_pos h3]
    simp only [runMsgs, List.foldl, e1, e2, e3, and_self]

/-- C3 at the test App with help, fullscreen log and an error set: three presses of
"esc" clear the three, one after the other. -/
theorem escape_priority_witness :
    (overlaysState.filtering = false ∧ overlaysState.showConfirm = false ∧
      keyCase overlaysState.keys "esc" = KeyCase.Escape) ∧
    (runMsgs sampleExt overlaysState [.KeyMsg "esc"] =
        { overlaysState with showHelp := false } ∧
      runMsgs sampleExt overlaysState [.KeyMsg "esc", .KeyMsg "esc"] =
        { overlaysState with showHelp := false, fullscreenLog := false } ∧
      runMsgs sampleExt overlaysState [.KeyMsg "esc", .KeyMsg "esc", .KeyMsg "esc"] =
        { overlaysState with showHelp := false, fullscreenLog := false, err := none }) :=
  ⟨⟨by decide, by decide, by decide⟩,
    (escape_priority sampleExt overlaysState "esc" (by decide) (by decide) (by decide)).2.2.2
      (by decide) (by decide) (by decide)⟩

/-! ## The cancel key and the confirm dialog -/

/-- C6: outside filter and confirm mode the cancel key opens the confirm dialog,
recording the cancel action for the selected run, exactly when the Runs pane is
focused and the selected run is running; in every other case the state is unchanged
and no command is returned. -/
theorem cancel_key_confirms (ext : Ext) (a : App) (msg : KeyMsg)
    (hf : a.filtering = false) (hc : a.showConfirm = false)
    (hk : keyCase a.keys msg = KeyCase.Cancel) :
    (∀ run, a.focusedPane = Pane.RunsPane → a.runs.Selected = some run →
      run.IsRunning = true →
      Update ext a (.KeyMsg msg) =
        ({ a with
            showConfirm := true
            confirmMsg := "Cancel this run?"
            confirmFn := some (ConfirmFn.cancelRun run.ID) }, none)) ∧
    (¬ (a.focusedPane = Pane.RunsPane ∧
        ∃ run, a.runs.Selected = some run ∧ run.IsRunning = true) →
      Update ext a (.KeyMsg msg) = (a, none)) ∧
    ((Update ext a (.KeyMsg msg)).1.showConfirm = true ↔
      (a.focusedPane = Pane.RunsPane ∧
        ∃ run, a.runs.Selected = some run ∧ run.IsRunning = true)) := by
  have yes : ∀ run, a.focusedPane = Pane.RunsPane → a.runs.Selected = some run →
      run.IsRunning = true →
      Update ext a (.KeyMsg msg) =
        ({ a with
            showConfirm := true
            confirmMsg := "Cancel this run?"
            confirmFn := some (ConfirmFn.cancelRun run.ID) }, none) := by
    intro run hp hs hr
    rw [Update_cancel ext a msg hf hc hk, if_pos hp, confirmCancelRun_running a run hs hr]
  have no : ¬ (a.focusedPane = Pane.RunsPane ∧
        ∃ run, a.runs.Selected = some run ∧ run.IsRunning = true) →
      Update ext a (.KeyMsg msg) = (a, none) := by
    intro h
    rw [Update_cancel ext a msg hf hc hk]
    by_cases hp : a.focusedPane = Pane.RunsPane
    · rw [if_pos hp]
      exact confirmCancelRun_idle a (fun hx => h ⟨hp, hx⟩)
    · rw [if_neg hp]
  refine ⟨yes, no, ?_⟩
  constructor
  · intro h
    by_contra hn
    rw [no hn] at h
    simp [hc] at h
  · rintro ⟨hp, run, hs, hr⟩
    rw [yes run hp hs hr]

/-- C6 at the test App with the running run of the tests selected in the Runs pane:
"c" opens the dialog and records the cancel of run 200. -/
theorem cancel_key_confirms_witness :
    ((runsPaneWith [RunningRun]).filtering = false ∧
      (runsPaneWith [RunningRun]).showConfirm = false ∧
      keyCase (runsPaneWith [RunningRun]).keys "c" = KeyCase.Cancel ∧
      (runsPaneWith [RunningRun]).focusedPane = Pane.RunsPane ∧
      (runsPaneWith [RunningRun]).runs.Selected = some RunningRun ∧
      RunningRun.IsRunning = true) ∧
    Update sampleExt (runsPaneWith [RunningRun]) (.KeyMsg "c") =
      ({ runsPaneWith [RunningRun] with
          showConfirm := true
          confirmMsg := "Cancel this run?"
          confirmFn := some (ConfirmFn.cancelRun 200) }, none) :=
  ⟨⟨by decide, by decide, by decide, by decide, by decide, by decide⟩,
    (cancel_key_confirms sampleExt (runsPaneWith [RunningRun]) "c" (by decide) (by decide)
      (by decide)).1 RunningRun (by decide) (by decide) (by decide)⟩

/-- C8: in the confirm dialog the keys n, N and esc close the dialog and discard the
recorded action; no command is returned and every other field (lists, focus, error,
flash) stays as it was. -/
theorem confirm_reject (ext : Ext) (a : App) (key : KeyMsg)
    (hf : a.filtering = false) (hc : a.showConfirm = true)
    (hkey : key = "n" ∨ key = "N" ∨ key = "esc") :
    Update ext a (.KeyMsg key) = ({ a with showConfirm := false, confirmFn := none }, none) := by
  rw [Update_confirm ext a key hf hc]
  unfold handleConfirmInput
  have hny : ¬ (key = "y" ∨ key = "Y") := by
    rcases hkey with h | h | h <;> subst h <;> decide
  rw [if_neg hny, if_pos hkey]

/-- C8 at the dialog opened by "c" on the running run of the tests: "n" closes it
without a command. -/
theorem confirm_reject_witness :
    ((runMsgs sampleExt (runsPaneWith [RunningRun]) [.KeyMsg "c"]).filtering = false ∧
      (runMsgs sampleExt (runsPaneWith [RunningRun]) [.KeyMsg "c"]).showConfirm = true ∧
      (("n" : KeyMsg) = "n" ∨ ("n" : KeyMsg) = "N" ∨ ("n" : KeyMsg) = "esc")) ∧
    Update sampleExt (runMsgs sampleExt (runsPaneWith [RunningRun]) [.KeyMsg "c"])
        (.KeyMsg "n") =
      ({ runMsgs sampleExt (runsPaneWith [RunningRun]) [.KeyMsg "c"] with
          showConfirm := false, confirmFn := none }, none) :=
  ⟨⟨by decide, by decide, Or.inl rfl⟩,
    confirm_reject sampleExt (runMsgs sampleExt (runsPaneWith [RunningRun]) [.KeyMsg "c"]) "n"
      (by decide) (by decide) (Or.inl rfl)⟩

/-! ## The rerun keys -/

/-- C9: outside filter and confirm mode, with the Runs pane focused and a run
selected, whatever its status, the rerun key returns the RerunWorkflow command for
that run at once and opens no dialog (the state is unchanged); with no selected run
or another pane focused it returns no command and leaves the state unchanged. -/
theorem rerun_key_immediate (ext : Ext) (a : App) (msg : KeyMsg)
    (hf : a.filtering = false) (hc : a.showConfirm = false)
    (hk : keyCase a.keys msg = KeyCase.Rerun) :
    (∀ run, a.focusedPane = Pane.RunsPane → a.runs.Selected = some run →
      Update ext a (.KeyMsg msg) = (a, some (Cmd.rerunWorkflow a.client a.repo run.ID))) ∧
    (a.focusedPane ≠ Pane.RunsPane ∨ a.runs.Selected = none →
      Update ext a (.KeyMsg msg) = (a, none)) := by
  constructor
  · intro run hp hs
    rw [Update_rerun ext a msg hf hc hk, if_pos hp]
    simp [rerunWorkflow, hs]
  · intro h
    rw [Update_rerun ext a msg hf hc hk]
    by_cases hp : a.focusedPane = Pane.RunsPane
    · rcases h with h | h
      · exact absurd hp h
      · rw [if_pos hp]
        simp [rerunWorkflow, h]
    · rw [if_neg hp]

/-- C9 at the test App with the successfully completed run of the tests selected in
the Runs pane: "r" returns the rerun of run 202. -/
theorem rerun_key_immediate_witness :
    ((runsPaneWith [SuccessRun]).filtering = false ∧
      (runsPaneWith [SuccessRun]).showConfirm = false ∧
      keyCase (runsPaneWith [SuccessRun]).keys "r" = KeyCase.Rerun ∧
      (runsPaneWith [SuccessRun]).focusedPane = Pane.RunsPane ∧
      (runsPaneWith [SuccessRun]).runs.Selected = some SuccessRun) ∧
    Update sampleExt (runsPaneWith [SuccessRun]) (.KeyMsg "r") =
      (runsPaneWith [SuccessRun],
        some (Cmd.rerunWorkflow (some { RateLimit := 5000 })
          { Owner := "test", Name := "repo" } 202)) :=
  ⟨⟨by decide, by decide, by decide, by decide, by decide⟩,
    (rerun_key_immediate sampleExt (runsPaneWith [SuccessRun]) "r" (by decide) (by decide)
      (by decide)).1 SuccessRun (by decide) (by decide)⟩

/-- C10: outside filter and confirm mode the rerun-failed key returns the
RerunFailedJobs command for the selected run exactly when the Runs pane is focused
and the selected run has failed; otherwise it returns no command; the state is
unchanged in both cases. -/
theorem rerun_failed_key (ext : Ext) (a : App) (msg : KeyMsg)
    (hf : a.filtering = false) (hc : a.showConfirm = false)
    (hk : keyCase a.keys msg = KeyCase.RerunFailed) :
    (∀ run, a.focusedPane = Pane.RunsPane → a.runs.Selected = some run →
      run.IsFailed = true →
      Update ext a (.KeyMsg msg) = (a, some (Cmd.rerunFailedJobs a.client a.repo run.ID))) ∧
    (¬ (a.focusedPane = Pane.RunsPane ∧
        ∃ run, a.runs.Selected = some run ∧ run.IsFailed = true) →
      Update ext a (.KeyMsg msg) = (a, none)) ∧
    ((Update ext a (.KeyMsg msg)).2 ≠ none ↔
      (a.focusedPane = Pane.RunsPane ∧
        ∃ run, a.runs.Selected = some run ∧ run.IsFailed = true)) := by
  have yes : ∀ run, a.focusedPane = Pane.RunsPane → a.runs.Selected = some run →
      run.IsFailed = true →
      Update ext a (.KeyMsg msg) =
        (a, some (Cmd.rerunFailedJobs a.client a.repo run.ID)) := by
    intro run hp hs hr
    rw [Update_rerunFailed ext a msg hf hc hk, if_pos hp]
    simp [rerunFailedJobs, hs, hr]
  have no : ¬ (a.focusedPane = Pane.RunsPane ∧
        ∃ run, a.runs.Selected = some run ∧ run.IsFailed = true) →
      Update ext a (.KeyMsg msg) = (a, none) := by
    intro h
    rw [Update_rerunFailed ext a msg hf hc hk]
    by_cases hp : a.focusedPane = Pane.RunsPane
    · rw [if_pos hp]
      unfold rerunFailedJobs
      cases hs : a.runs.Selected with
      | none => rfl
      | some run =>
        have hr : run.IsFailed = false := by
          cases hb : run.IsFailed
          · rfl
          · exact absurd ⟨hp, run, hs, hb⟩ h
        simp [hr]
    · rw [if_neg hp]
  refine ⟨yes, no, ?_⟩
  constructor
  · intro h
    by_contra hn
    rw [no hn] at h
    exact h rfl
  · rintro ⟨hp, run, hs, hr⟩
    rw [yes run hp hs hr]
    simp

/-- C10 at the test App with the failed run of the tests selected in the Runs pane:
"R" returns the rerun of the failed jobs of run 201. -/
theorem rerun_failed_key_witness :
    ((runsPaneWith [FailedRun]).filtering = false ∧
      (runsPaneWith [FailedRun]).showConfirm = false ∧
      keyCase (runsPaneWith [FailedRun]).keys "R" = KeyCase.RerunFailed ∧
      (runsPaneWith [FailedRun]).focusedPane = Pane.RunsPane ∧
      (runsPaneWith [FailedRun]).runs.Selected = some FailedRun ∧
      FailedRun.IsFailed = true) ∧
    Update sampleExt (runsPaneWith [FailedRun]) (.KeyMsg "R") =
      (runsPaneWith [FailedRun],
        some (Cmd.rerunFailedJobs (some { RateLimit := 5000 })
          { Owner := "test", Name := "repo" } 201)) :=
  ⟨⟨by decide, by decide, by decide, by decide, by decide, by decide⟩,
    (rerun_failed_key sampleExt (runsPaneWith [FailedRun]) "R" (by decide) (by decide)
      (by decide)).1 FailedRun (by decide) (by decide) (by decide)⟩

/-- C7: when the cancel key has opened the confirm dialog on the running run `run`,
then after any messages that are none of the dialog keys (fetch results that replace
the Runs list among them) the dialog is still open, and y or Y closes it and returns
exactly the CancelRun command for the ID of `run`; filter mode is off afterwards. -/
theorem confirm_accept (ext : Ext) (a : App) (msg : KeyMsg) (run : Run) (ms : List Msg)
    (key : KeyMsg)
    (hf : a.filtering = false) (hc : a.showConfirm = false)
    (hk : keyCase a.keys msg = KeyCase.Cancel)
    (hp : a.focusedPane = Pane.RunsPane) (hs : a.runs.Selected = some run)
    (hr : run.IsRunning = true)
    (hms : ∀ m ∈ ms, keepsDialog m = true)
    (hkey : key = "y" ∨ key = "Y") :
    (runMsgs ext (Update ext a (.KeyMsg msg)).1 ms).showConfirm = true ∧
    (runMsgs ext (Update ext a (.KeyMsg msg)).1 ms).filtering = false ∧
    Update ext (runMsgs ext (Update ext a (.KeyMsg msg)).1 ms) (.KeyMsg key) =
      ({ runMsgs ext (Update ext a (.KeyMsg msg)).1 ms with showConfirm := false },
        some (Cmd.cancelRun a.client a.repo run.ID)) := by
  have e1 : Update ext a (.KeyMsg msg) =
      ({ a with
          showConfirm := true
          confirmMsg := "Cancel this run?"
          confirmFn := some (ConfirmFn.cancelRun run.ID) }, none) := by
    rw [Update_cancel ext a msg hf hc hk, if_pos hp, confirmCancelRun_running a run hs hr]
  rw [e1]
  have hcontrol := runMsgs_keepsDialog_control ext ms
    { a with
        showConfirm := true
        confirmMsg := "Cancel this run?"
        confirmFn := some (ConfirmFn.cancelRun run.ID) } hf rfl hms
  simp only [control, Prod.mk.injEq] at hcontrol
  obtain ⟨h1, h2, _, h4, h5, h6⟩ := hcontrol
  refine ⟨h2, h1.trans hf, ?_⟩
  rw [Update_confirm ext _ key (h1.trans hf) h2]
  unfold handleConfirmInput
  rw [if_pos hkey]
  simp only [h4, ConfirmFn.call, h5, h6]

/-- C7 at the test App: "c" on the running run 200, then a Runs result that replaces
the list by another run, then "y": the command is the cancel of run 200. -/
theorem confirm_accept_witness :
    ((runsPaneWith [RunningRun]).filtering = false ∧
      (runsPaneWith [RunningRun]).showConfirm = false ∧
      keyCase (runsPaneWith [RunningRun]).keys "c" = KeyCase.Cancel ∧
      (runsPaneWith [RunningRun]).focusedPane = Pane.RunsPane ∧
      (runsPaneWith [RunningRun]).runs.Selected = some RunningRun ∧
      RunningRun.IsRunning = true ∧
      (∀ m ∈ [Msg.RunsLoadedMsg [SuccessRun] none], keepsDialog m = true) ∧
      (("y" : KeyMsg) = "y" ∨ ("y" : KeyMsg) = "Y")) ∧
    (runMsgs sampleExt (Update sampleExt (runsPaneWith [RunningRun]) (.KeyMsg "c")).1
        [Msg.RunsLoadedMsg [SuccessRun] none]).runs.Selected = some SuccessRun ∧
    (Update sampleExt
        (runMsgs sampleExt (Update sampleExt (runsPaneWith [RunningRun]) (.KeyMsg "c")).1
          [Msg.RunsLoadedMsg [SuccessRun] none]) (.KeyMsg "y")).2 =
      some (Cmd.cancelRun (some { RateLimit := 5000 }) { Owner := "test", Name := "repo" } 200) :=
  ⟨⟨by decide, by decide, by decide, by decide, by decide, by decide, by decide, Or.inl rfl⟩,
    by decide,
    congrArg Prod.snd
      (confirm_accept sampleExt (runsPaneWith [RunningRun]) "c" RunningRun
        [Msg.RunsLoadedMsg [SuccessRun] none] "y" (by decide) (by decide) (by decide)
        (by decide) (by decide) (by decide) (by decide) (Or.inl rfl)).2.2⟩

/-! ## Mode exclusivity -/

/-- C4: in every state reachable from `New` by `Init` and any sequence of `Update`
messages, `filtering` and `showConfirm` are never both true. -/
theorem filtering_confirming_exclusive (ext : Ext) (a : App) (h : Reachable ext a) :
    ¬ (a.filtering = true ∧ a.showConfirm = true) := by
  induction h with
  | new opts =>
    intro hboth
    rw [(New_flags opts).1] at hboth
    exact Bool.false_ne_true hboth.1
  | init _ ih =>
    rw [(Init_flags _).1, (Init_flags _).2.1]
    exact ih
  | update msg _ ih => exact Update_exclusive ext _ msg ih

/-- C4 at the test App with the confirm dialog open, a reachable state. -/
theorem filtering_confirming_exclusive_witness :
    Reachable sampleExt confirmingState ∧
      ¬ (confirmingState.filtering = true ∧ confirmingState.showConfirm = true) :=
  ⟨Reachable_runMsgs sampleExt _ _ (Reachable_runMsgs sampleExt _ _ (Reachable.new _)),
    filtering_confirming_exclusive sampleExt confirmingState
      (Reachable_runMsgs sampleExt _ _ (Reachable_runMsgs sampleExt _ _ (Reachable.new _)))⟩

/-- C5, as the code has it: in every reachable state `filtering` and `showConfirm`
are never both true, and a step of `Update` that switches `fullscreenLog` on starts
and ends in a state with neither of them; the flag is not cleared when filter or
confirm mode is entered later. -/
theorem fullscreen_entered_from_normal (ext : Ext) (a : App) (h : Reachable ext a) :
    ¬ (a.filtering = true ∧ a.showConfirm = true) ∧
    ∀ msg, a.fullscreenLog = false → (Update ext a msg).1.fullscreenLog = true →
      a.filtering = false ∧ a.showConfirm = false ∧
        (Update ext a msg).1.filtering = false ∧ (Update ext a msg).1.showConfirm = false := by
  constructor
  · induction h with
    | new opts =>
      intro hboth
      rw [(New_flags opts).2.1] at hboth
      exact Bool.false_ne_true hboth.2
    | init _ ih =>
      rw [(Init_flags _).1, (Init_flags _).2.1]
      exact ih
    | update msg _ ih => exact Update_exclusive ext _ msg ih
  · intro msg h0 h1
    exact Update_fullscreen_on ext a msg h0 h1

/-- C5 as amended, at the fresh App with focus moved to the Logs pane: the key "L"
switches the fullscreen log on, from and into a state with neither filter nor confirm
mode. -/
theorem fullscreen_entered_from_normal_witness :
    (Reachable sampleExt (runMsgs sampleExt (New []) [.KeyMsg "l", .KeyMsg "l"]) ∧
      (runMsgs sampleExt (New []) [.KeyMsg "l", .KeyMsg "l"]).fullscreenLog = false ∧
      (Update sampleExt (runMsgs sampleExt (New []) [.KeyMsg "l", .KeyMsg "l"])
        (.KeyMsg "L")).1.fullscreenLog = true) ∧
    ((runMsgs sampleExt (New []) [.KeyMsg "l", .KeyMsg "l"]).filtering = false ∧
      (runMsgs sampleExt (New []) [.KeyMsg "l", .KeyMsg "l"]).showConfirm = false ∧
      (Update sampleExt (runMsgs sampleExt (New []) [.KeyMsg "l", .KeyMsg "l"])
        (.KeyMsg "L")).1.filtering = false ∧
      (Update sampleExt (runMsgs sampleExt (New []) [.KeyMsg "l", .KeyMsg "l"])
        (.KeyMsg "L")).1.showConfirm = false) :=
  ⟨⟨Reachable_runMsgs sampleExt _ _ (Reachable.new _), by decide, by decide⟩,
    (fullscreen_entered_from_normal sampleExt _
      (Reachable_runMsgs sampleExt _ _ (Reachable.new _))).2 (.KeyMsg "L")
      (by decide) (by decide)⟩

/-- C5 fails as stated: from a fresh App the keys l, l, L and / lead to a reachable
state in which `filtering` and `fullscreenLog` are both true. -/
theorem fullscreen_and_filtering_reachable :
    Reachable sampleExt (runMsgs sampleExt (New []) fullscreenThenFilter) ∧
      (runMsgs sampleExt (New []) fullscreenThenFilter).filtering = true ∧
      (runMsgs sampleExt (New []) fullscreenThenFilter).fullscreenLog = true ∧
      (runMsgs sampleExt (New []) fullscreenThenFilter).showConfirm = false :=
  ⟨Reachable_runMsgs sampleExt _ _ (Reachable.new _), by decide, by decide, by decide⟩

/-! ## Fetch results -/

/-- C1, as the code has it: `Update` does not compare a fetch result with the current
selection; every Logs result without error replaces the log view content by its text,
and every Runs or Jobs result without error replaces the items of the Runs or Jobs
list, whatever is selected. -/
theorem fetch_results_always_applied (ext : Ext) (a : App) :
    (∀ logs, (Update ext a (.LogsLoadedMsg logs none)).1.logView.content = logs) ∧
    (∀ runs, (Update ext a (.RunsLoadedMsg runs none)).1.runs.items = runs) ∧
    (∀ jobs, (Update ext a (.JobsLoadedMsg jobs none)).1.jobs.items = jobs) :=
  ⟨fun _ => rfl, fun _ => rfl, fun _ => rfl⟩

/-- C1 fails as stated: with job 1002 selected after job 1001, the result of the log
fetch issued for job 1001 replaces the log view content; with the second workflow
selected a Runs result of the first replaces the Runs list; with run 201 selected a
Jobs result of run 200 replaces the Jobs list. -/
theorem stale_results_applied :
    ((Update sampleExt testApp (.JobsLoadedMsg testJobs none)).2 =
        some (Cmd.fetchLogs testApp.client testApp.repo 1001) ∧
      (secondJobSelected.jobs.Selected.map Job.ID = some 1002 ∧
        secondJobSelected.logView.content = "") ∧
      (Update sampleExt secondJobSelected
        (.LogsLoadedMsg "log of job 1001" none)).1.logView.content = "log of job 1001") ∧
    ((Update sampleExt testApp (.WorkflowsLoadedMsg testWorkflows none)).2 =
        some (Cmd.fetchRuns testApp.client testApp.repo 1) ∧
      (secondWorkflowSelected.workflows.Selected.map Workflow.ID = some 2 ∧
        secondWorkflowSelected.runs.Items = []) ∧
      (Update sampleExt secondWorkflowSelected
        (.RunsLoadedMsg [RunningRun] none)).1.runs.Items = [RunningRun]) ∧
    ((Update sampleExt testApp (.RunsLoadedMsg [RunningRun, FailedRun] none)).2 =
        some (Cmd.fetchJobs testApp.client testApp.repo 200) ∧
      (secondRunSelected.runs.Selected.map Run.ID = some 201 ∧
        secondRunSelected.jobs.Items = []) ∧
      (Update sampleExt secondRunSelected
        (.JobsLoadedMsg testJobs none)).1.jobs.Items = testJobs) :=
  ⟨⟨rfl, by decide, by decide⟩, ⟨rfl, by decide, by decide⟩, ⟨rfl, by decide, by decide⟩⟩

/-- C2, as the code has it: for every state, a Runs result without error carrying a
non-empty list replaces the items of the Runs list. With a client configured the
command returned is the Jobs fetch keyed to the run selected afterwards and to no
other; without a client, and when no run is selected afterwards, no command is
returned. The selected run is the first entry when the Runs list has no filter text
and its selection was the first row or none before. -/
theorem runs_loaded_cascade (ext : Ext) (a : App) (r1 : Run) (rest : List Run) :
    (Update ext a (.RunsLoadedMsg (r1 :: rest) none)).1.runs.items = r1 :: rest ∧
    (∀ run, (Update ext a (.RunsLoadedMsg (r1 :: rest) none)).1.runs.Selected = some run →
      (Update ext a (.RunsLoadedMsg (r1 :: rest) none)).2 =
        if a.client = none then none
        else some (Cmd.fetchJobs a.client a.repo run.ID)) ∧
    ((Update ext a (.RunsLoadedMsg (r1 :: rest) none)).1.runs.Selected = none →
      (Update ext a (.RunsLoadedMsg (r1 :: rest) none)).2 = none) ∧
    (a.client = none → (Update ext a (.RunsLoadedMsg (r1 :: rest) none)).2 = none) ∧
    (a.runs.filter = "" → a.runs.selectedIdx ≤ 0 →
      (Update ext a (.RunsLoadedMsg (r1 :: rest) none)).1.runs.Selected = some r1 ∧
      (Update ext a (.RunsLoadedMsg (r1 :: rest) none)).2 =
        if a.client = none then none
        else some (Cmd.fetchJobs a.client a.repo r1.ID)) := by
  have hstate : (Update ext a (.RunsLoadedMsg (r1 :: rest) none)).1 =
      { a with loading := false, runs := a.runs.SetItems (r1 :: rest) } := rfl
  have hsome : ∀ run, (a.runs.SetItems (r1 :: rest)).Selected = some run →
      (Update ext a (.RunsLoadedMsg (r1 :: rest) none)).2 =
        if a.client = none then none
        else some (Cmd.fetchJobs a.client a.repo run.ID) := by
    intro run hs
    by_cases hcl : a.client = none
    · simp [Update, cascade_eq, hs, fetchJobsCmd, hcl, Batch, List.reduceOption]
    · simp [Update, cascade_eq, hs, fetchJobsCmd, hcl, Batch, List.reduceOption]
  have hnone : (a.runs.SetItems (r1 :: rest)).Selected = none →
      (Update ext a (.RunsLoadedMsg (r1 :: rest) none)).2 = none := by
    intro hs
    simp [Update, cascade_eq, hs, Batch, List.reduceOption]
  rw [hstate]
  refine ⟨rfl, hsome, hnone, ?_, ?_⟩
  · intro hcl
    cases hs : (a.runs.SetItems (r1 :: rest)).Selected with
    | none => exact hnone hs
    | some run => rw [hsome run hs, if_pos hcl]
  · intro hfilter hsel
    have hs := FilteredList.SetItems_first a.runs r1 rest hfilter hsel
    exact ⟨hs, hsome r1 hs⟩

/-- C2 as amended, at the test App loading the runs 200 and 201: run 200 is selected
and the Jobs fetch is keyed to it; at an App built without a client the same result
returns no command. -/
theorem runs_loaded_cascade_witness :
    (testApp.runs.filter = "" ∧ testApp.runs.selectedIdx ≤ 0 ∧ (New []).client = none) ∧
    (Update sampleExt testApp (.RunsLoadedMsg [RunningRun, FailedRun] none)).1.runs.items =
      [RunningRun, FailedRun] ∧
    ((Update sampleExt testApp (.RunsLoadedMsg [RunningRun, FailedRun] none)).1.runs.Selected =
        some RunningRun ∧
      (Update sampleExt testApp (.RunsLoadedMsg [RunningRun, FailedRun] none)).2 =
        if testApp.client = none then none
        else some (Cmd.fetchJobs testApp.client testApp.repo 200)) ∧
    (Update sampleExt (New []) (.RunsLoadedMsg [RunningRun, FailedRun] none)).2 = none :=
  ⟨⟨by decide, by decide, by decide⟩,
    (runs_loaded_cascade sampleExt testApp RunningRun [FailedRun]).1,
    (runs_loaded_cascade sampleExt testApp RunningRun [FailedRun]).2.2.2.2
      (by decide) (by decide),
    (runs_loaded_cascade sampleExt (New []) RunningRun [FailedRun]).2.2.2.1 (by decide)⟩

/-- C2 fails as stated: without a client the Runs result returns no command at all;
and with a client, when the second row was selected before, the reloaded list keeps
the second row selected and the Jobs fetch is keyed to the second run, 201. -/
theorem runs_loaded_not_first :
    ((New []).client = none ∧
      (Update sampleExt (New []) (.RunsLoadedMsg [RunningRun, FailedRun] none)).2 = none) ∧
    (secondRunSelected.client ≠ none ∧
      (Update sampleExt secondRunSelected
        (.RunsLoadedMsg [RunningRun, FailedRun] none)).1.runs.Selected = some FailedRun ∧
      (Update sampleExt secondRunSelected
        (.RunsLoadedMsg [RunningRun, FailedRun] none)).2 =
        some (Cmd.fetchJobs secondRunSelected.client secondRunSelected.repo 201)) :=
  ⟨⟨rfl, rfl⟩, ⟨by decide, by decide, rfl⟩⟩

/-! ## Filter mode -/

/-- C11: in filter mode Enter leaves filter mode, returns no command and sets the
filter of the list of the focused pane to the current value of the text input; that
list keeps its items, and the other two lists are unchanged. -/
theorem filter_commit (ext : Ext) (a : App) (hf : a.filtering = true) :
    (a.focusedPane = Pane.WorkflowsPane →
      Update ext a (.KeyMsg "enter") =
        ({ a with
            filtering := false
            filterInput := a.filterInput.Blur
            workflows := a.workflows.SetFilter a.filterInput.Value }, none)) ∧
    (a.focusedPane = Pane.RunsPane →
      Update ext a (.KeyMsg "enter") =
        ({ a with
            filtering := false
            filterInput := a.filterInput.Blur
            runs := a.runs.SetFilter a.filterInput.Value }, none)) ∧
    (a.focusedPane = Pane.LogsPane →
      Update ext a (.KeyMsg "enter") =
        ({ a with
            filtering := false
            filterInput := a.filterInput.Blur
            jobs := a.jobs.SetFilter a.filterInput.Value }, none)) ∧
    ((a.workflows.SetFilter a.filterInput.Value).filter = a.filterInput.Value ∧
      (a.workflows.SetFilter a.filterInput.Value).items = a.workflows.items) ∧
    ((a.runs.SetFilter a.filterInput.Value).filter = a.filterInput.Value ∧
      (a.runs.SetFilter a.filterInput.Value).items = a.runs.items) ∧
    ((a.jobs.SetFilter a.filterInput.Value).filter = a.filterInput.Value ∧
      (a.jobs.SetFilter a.filterInput.Value).items = a.jobs.items) := by
  have hU : Update ext a (.KeyMsg "enter") =
      (applyFilter { a with filtering := false, filterInput := a.filterInput.Blur }
        a.filterInput.Value, none) := by
    rw [Update_key]
    unfold handleKeyPress
    rw [if_pos hf]
    rfl
  refine ⟨?_, ?_, ?_, ⟨rfl, rfl⟩, ⟨rfl, rfl⟩, ⟨rfl, rfl⟩⟩
  · intro hp
    rw [hU]
    simp only [applyFilter, hp]
  · intro hp
    rw [hU]
    simp only [applyFilter, hp]
  · intro hp
    rw [hU]
    simp only [applyFilter, hp]

/-- C11 at the test App with "ci" typed in filter mode on the Workflows pane: Enter
sets the workflows filter to "ci". -/
theorem filter_commit_witness :
    (typingCi.filtering = true ∧ typingCi.focusedPane = Pane.WorkflowsPane ∧
      typingCi.filterInput.Value = "ci") ∧
    Update sampleExt typingCi (.KeyMsg "enter") =
      ({ typingCi with
          filtering := false
          filterInput := typingCi.filterInput.Blur
          workflows := typingCi.workflows.SetFilter typingCi.filterInput.Value }, none) :=
  ⟨⟨by decide, by decide, by decide⟩,
    (filter_commit sampleExt typingCi (by decide)).1 (by decide)⟩

/-- C12: in filter mode Escape leaves filter mode, returns no command and sets the
filter of the list of the focused pane to the empty text, whatever was typed or
applied before; afterwards the visible items of that list are all its items. -/
theorem filter_cancel (ext : Ext) (a : App) (hf : a.filtering = true) :
    (a.focusedPane = Pane.WorkflowsPane →
      Update ext a (.KeyMsg "esc") =
        ({ a with
            filtering := false
            filterInput := a.filterInput.Blur
            workflows := a.workflows.SetFilter "" }, none)) ∧
    (a.focusedPane = Pane.RunsPane →
      Update ext a (.KeyMsg "esc") =
        ({ a with
            filtering := false
            filterInput := a.filterInput.Blur
            runs := a.runs.SetFilter "" }, none)) ∧
    (a.focusedPane = Pane.LogsPane →
      Update ext a (.KeyMsg "esc") =
        ({ a with
            filtering := false
            filterInput := a.filterInput.Blur
            jobs := a.jobs.SetFilter "" }, none)) ∧
    ((a.workflows.SetFilter "").filter = "" ∧
      (a.workflows.SetFilter "").Items = a.workflows.items) ∧
    ((a.runs.SetFilter "").filter = "" ∧ (a.runs.SetFilter "").Items = a.runs.items) ∧
    ((a.jobs.SetFilter "").filter = "" ∧ (a.jobs.SetFilter "").Items = a.jobs.items) := by
  have hU : Update ext a (.KeyMsg "esc") =
      (applyFilter { a with filtering := false, filterInput := a.filterInput.Blur } "",
        none) := by
    rw [Update_key]
    unfold handleKeyPress
    rw [if_pos hf]
    rfl
  refine ⟨?_, ?_, ?_, ⟨rfl, rfl⟩, ⟨rfl, rfl⟩, ⟨rfl, rfl⟩⟩
  · intro hp
    rw [hU]
    simp only [applyFilter, hp]
  · intro hp
    rw [hU]
    simp only [applyFilter, hp]
  · intro hp
    rw [hU]
    simp only [applyFilter, hp]

/-- C12 at the test App with the workflows filter "ci" applied and "d" typed: Escape
clears the filter and both workflows are visible again. -/
theorem filter_cancel_witness :
    (filteredThenTyping.filtering = true ∧
      filteredThenTyping.focusedPane = Pane.WorkflowsPane ∧
      filteredThenTyping.workflows.filter = "ci" ∧
      filteredThenTyping.workflows.Items.map Workflow.Name = ["CI"]) ∧
    (Update sampleExt filteredThenTyping (.KeyMsg "esc") =
      ({ filteredThenTyping with
          filtering := false
          filterInput := filteredThenTyping.filterInput.Blur
          workflows := filteredThenTyping.workflows.SetFilter "" }, none) ∧
      (filteredThenTyping.workflows.SetFilter "").Items = testWorkflows) :=
  ⟨⟨by decide, by decide, by decide, by decide⟩,
    (filter_cancel sampleExt filteredThenTyping (by decide)).1 (by decide), by decide⟩

/-! ## Failures -/

/-- C13: each of the six result messages carrying an error `e` leaves the error slot
equal to `e`, whatever it held before, and leaves the flash message as it was. -/
theorem error_slot_overwritten (ext : Ext) (a : App) (e : Error) :
    (∀ ws, (Update ext a (.WorkflowsLoadedMsg ws (some e))).1.err = some e ∧
      (Update ext a (.WorkflowsLoadedMsg ws (some e))).1.flashMsg = a.flashMsg) ∧
    (∀ rs, (Update ext a (.RunsLoadedMsg rs (some e))).1.err = some e ∧
      (Update ext a (.RunsLoadedMsg rs (some e))).1.flashMsg = a.flashMsg) ∧
    (∀ js, (Update ext a (.JobsLoadedMsg js (some e))).1.err = some e ∧
      (Update ext a (.JobsLoadedMsg js (some e))).1.flashMsg = a.flashMsg) ∧
    (∀ logs, (Update ext a (.LogsLoadedMsg logs (some e))).1.err = some e ∧
      (Update ext a (.LogsLoadedMsg logs (some e))).1.flashMsg = a.flashMsg) ∧
    (∀ id, (Update ext a (.RunCancelledMsg id (some e))).1.err = some e ∧
      (Update ext a (.RunCancelledMsg id (some e))).1.flashMsg = a.flashMsg) ∧
    (∀ id, (Update ext a (.RunRerunMsg id (some e))).1.err = some e ∧
      (Update ext a (.RunRerunMsg id (some e))).1.flashMsg = a.flashMsg) :=
  ⟨fun _ => ⟨rfl, rfl⟩, fun _ => ⟨rfl, rfl⟩, fun _ => ⟨rfl, rfl⟩, fun _ => ⟨rfl, rfl⟩,
    fun _ => ⟨rfl, rfl⟩, fun _ => ⟨rfl, rfl⟩⟩

/-- C14: a fetch result (Workflows, Runs, Jobs or Logs) carrying an error changes
nothing but the error slot and, for the three list results, the loading flag: the
three lists and the log text are unchanged, and no command is returned. -/
theorem failed_fetch_keeps_data (ext : Ext) (a : App) (e : Error) :
    (∀ ws, Update ext a (.WorkflowsLoadedMsg ws (some e)) =
        ({ a with loading := false, err := some e }, none) ∧
      data (Update ext a (.WorkflowsLoadedMsg ws (some e))).1 = data a) ∧
    (∀ rs, Update ext a (.RunsLoadedMsg rs (some e)) =
        ({ a with loading := false, err := some e }, none) ∧
      data (Update ext a (.RunsLoadedMsg rs (some e))).1 = data a) ∧
    (∀ js, Update ext a (.JobsLoadedMsg js (some e)) =
        ({ a with loading := false, err := some e }, none) ∧
      data (Update ext a (.JobsLoadedMsg js (some e))).1 = data a) ∧
    (∀ logs, Update ext a (.LogsLoadedMsg logs (some e)) = ({ a with err := some e }, none) ∧
      data (Update ext a (.LogsLoadedMsg logs (some e))).1 = data a) :=
  ⟨fun _ => ⟨rfl, rfl⟩, fun _ => ⟨rfl, rfl⟩, fun _ => ⟨rfl, rfl⟩, fun _ => ⟨rfl, rfl⟩⟩

/-! ## Successful actions and the flash message -/

/-- C15, as the code has it: a RunCancelledMsg or RunRerunMsg without error changes
only the flash message, which it sets to a non-empty text, so the Runs list is not
modified; with a client configured and a workflow selected the command returned is
exactly the Runs fetch keyed to the selected workflow, and without a client or
without a selected workflow no command is returned. -/
theorem action_success_refresh (ext : Ext) (a : App) (id : Int) :
    ((Update ext a (.RunCancelledMsg id none)).1 = { a with flashMsg := "Run cancelled" } ∧
      (Update ext a (.RunCancelledMsg id none)).1.flashMsg ≠ "") ∧
    ((Update ext a (.RunRerunMsg id none)).1 = { a with flashMsg := "Rerun triggered" } ∧
      (Update ext a (.RunRerunMsg id none)).1.flashMsg ≠ "") ∧
    (∀ wf, a.workflows.Selected = some wf → a.client ≠ none →
      (Update ext a (.RunCancelledMsg id none)).2 =
          some (Cmd.fetchRuns a.client a.repo wf.ID) ∧
        (Update ext a (.RunRerunMsg id none)).2 =
          some (Cmd.fetchRuns a.client a.repo wf.ID)) ∧
    (a.workflows.Selected = none ∨ a.client = none →
      (Update ext a (.RunCancelledMsg id none)).2 = none ∧
        (Update ext a (.RunRerunMsg id none)).2 = none) := by
  refine ⟨⟨rfl, ?_⟩, ⟨rfl, ?_⟩, ?_, ?_⟩
  · show "Run cancelled" ≠ ""
    decide
  · show "Rerun triggered" ≠ ""
    decide
  · intro wf hs hcl
    constructor <;>
      simp [Update, refreshCurrentWorkflow, hs, fetchRunsCmd, hcl, Batch, List.reduceOption]
  · intro h
    rcases h with h | h
    · constructor <;> simp [Update, refreshCurrentWorkflow, h, Batch, List.reduceOption]
    · constructor <;>
        cases hs : a.workflows.Selected <;>
          simp [Update, refreshCurrentWorkflow, hs, fetchRunsCmd, h, Batch, List.reduceOption]

/-- C15 as amended, at the test App with the first test workflow selected: a successful
cancel of run 100 returns the Runs fetch of workflow 1. -/
theorem action_success_refresh_witness :
    (workflowsLoaded.workflows.Selected.map Workflow.ID = some 1 ∧
      workflowsLoaded.client ≠ none) ∧
    (Update sampleExt workflowsLoaded (.RunCancelledMsg 100 none)).2 =
      some (Cmd.fetchRuns workflowsLoaded.client workflowsLoaded.repo 1) :=
  ⟨⟨by decide, by decide⟩,
    ((action_success_refresh sampleExt workflowsLoaded 100).2.2.1
      { ID := 1, Name := "CI", Path := ".github/workflows/ci.yml", State := "active" }
      (by decide) (by decide)).1⟩

/-- C15 fails as stated: in an App built without a client, with the first test workflow
selected, a successful cancel or rerun result returns no command. -/
theorem action_success_without_client :
    noClientWorkflows.workflows.Selected.map Workflow.ID = some 1 ∧
      (Update sampleExt noClientWorkflows (.RunCancelledMsg 100 none)).2 = none ∧
      (Update sampleExt noClientWorkflows (.RunRerunMsg 100 none)).2 = none :=
  ⟨by decide, rfl, rfl⟩

/-- C16, the code at the failing input: a successful cancel or rerun result sets the
flash and returns nothing but the Runs refresh (or no command), so no command that
would deliver `FlashClearMsg` is returned; in the test App the flash is still set
after the action result and the whole chain of fetch results it sets off. -/
theorem flash_clear_not_scheduled (ext : Ext) (a : App) (id : Int) :
    ((Update ext a (.RunCancelledMsg id none)).1.flashMsg = "Run cancelled" ∧
      ((Update ext a (.RunCancelledMsg id none)).2 = none ∨
        ∃ wf : Workflow, (Update ext a (.RunCancelledMsg id none)).2 =
          some (Cmd.fetchRuns a.client a.repo wf.ID))) ∧
    ((Update ext a (.RunRerunMsg id none)).1.flashMsg = "Rerun triggered" ∧
      ((Update ext a (.RunRerunMsg id none)).2 = none ∨
        ∃ wf : Workflow, (Update ext a (.RunRerunMsg id none)).2 =
          some (Cmd.fetchRuns a.client a.repo wf.ID))) ∧
    ((Update sampleExt workflowsLoaded (.RunCancelledMsg 100 none)).2 =
        some (Cmd.fetchRuns workflowsLoaded.client workflowsLoaded.repo 1) ∧
      (runMsgs sampleExt workflowsLoaded cancelThenRefresh).flashMsg = "Run cancelled") := by
  have hcmd : ∀ b : App, b.client = a.client → b.repo = a.repo →
      b.workflows = a.workflows →
      (Batch [refreshCurrentWorkflow b] = none ∨
        ∃ wf : Workflow, Batch [refreshCurrentWorkflow b] =
          some (Cmd.fetchRuns a.client a.repo wf.ID)) := by
    intro b h1 h2 h3
    unfold refreshCurrentWorkflow fetchRunsCmd
    rw [h1, h2, h3]
    cases a.workflows.Selected with
    | none => left; rfl
    | some wf =>
      by_cases hcl : a.client = none
      · left
        simp [hcl, Batch, List.reduceOption]
      · right
        exact ⟨wf, by simp [hcl, Batch, List.reduceOption]⟩
  refine ⟨⟨rfl, ?_⟩, ⟨rfl, ?_⟩, rfl, by decide⟩
  · exact hcmd { a with flashMsg := "Run cancelled" } rfl rfl rfl
  · exact hcmd { a with flashMsg := "Rerun triggered" } rfl rfl rfl

/-- C17, as the code has it: outside filter mode the status bar shows the flash
message whenever one is set and the error only when no flash is set. So a flash set
after an error takes the line, an error arriving while a flash is set is not shown,
and an error arriving with no flash set is shown. -/
theorem status_bar_flash_first (ext : Ext) (a : App) (e : Error) (m : Msg)
    (hf : a.filtering = false) (hm : m.failure = some e) :
    (∀ id, renderStatusBar ext (Update ext a (.RunCancelledMsg id none)).1 = "Run cancelled" ∧
      renderStatusBar ext (Update ext a (.RunRerunMsg id none)).1 = "Rerun triggered") ∧
    (a.flashMsg ≠ "" → renderStatusBar ext (Update ext a m).1 = a.flashMsg) ∧
    (a.flashMsg = "" → renderStatusBar ext (Update ext a m).1 = "Error: " ++ e.Message) := by
  have hstate : (Update ext a m).1.filtering = false ∧ (Update ext a m).1.flashMsg = a.flashMsg ∧
      (Update ext a m).1.err = some e := by
    cases m with
    | WorkflowsLoadedMsg ws err => cases hm; exact ⟨hf, rfl, rfl⟩
    | RunsLoadedMsg rs err => cases hm; exact ⟨hf, rfl, rfl⟩
    | JobsLoadedMsg js err => cases hm; exact ⟨hf, rfl, rfl⟩
    | LogsLoadedMsg logs err => cases hm; exact ⟨hf, rfl, rfl⟩
    | RunCancelledMsg id err => cases hm; exact ⟨hf, rfl, rfl⟩
    | RunRerunMsg id err => cases hm; exact ⟨hf, rfl, rfl⟩
    | KeyMsg key => cases hm
    | WindowSizeMsg w h => cases hm
    | RerunFailedJobsMsg id err => cases hm
    | WorkflowTriggeredMsg w err => cases hm
    | FlashClearMsg => cases hm
    | spinnerTickMsg tick => cases hm
    | other tag => cases hm
  obtain ⟨h1, h2, h3⟩ := hstate
  refine ⟨?_, ?_, ?_⟩
  · intro id
    constructor
    · simp only [renderStatusBar, Update, ne_eq, not_true_eq_false, if_false, hf,
        Bool.false_eq_true]
      rw [if_pos (by decide)]
    · simp only [renderStatusBar, Update, ne_eq, not_true_eq_false, if_false, hf,
        Bool.false_eq_true]
      rw [if_pos (by decide)]
  · intro hflash
    unfold renderStatusBar
    simp only [h1, h2, Bool.false_eq_true, if_false]
    rw [if_pos hflash]
  · intro hflash
    unfold renderStatusBar
    simp only [h1, h2, h3, Bool.false_eq_true, if_false]
    rw [if_neg (by simp [hflash])]

/-- C17 as amended, at the test App after a successful cancel: the failed Runs fetch
that follows does not take the status line from the flash. -/
theorem status_bar_flash_first_witness :
    ((runMsgs sampleExt testApp [.RunCancelledMsg 100 none]).filtering = false ∧
      (Msg.RunsLoadedMsg [] (some { Message := "test error" })).failure =
        some { Message := "test error" } ∧
      (runMsgs sampleExt testApp [.RunCancelledMsg 100 none]).flashMsg ≠ "") ∧
    renderStatusBar sampleExt
        (Update sampleExt (runMsgs sampleExt testApp [.RunCancelledMsg 100 none])
          (.RunsLoadedMsg [] (some { Message := "test error" }))).1 =
      (runMsgs sampleExt testApp [.RunCancelledMsg 100 none]).flashMsg :=
  ⟨⟨by decide, by decide, by decide⟩,
    (status_bar_flash_first sampleExt (runMsgs sampleExt testApp [.RunCancelledMsg 100 none])
      { Message := "test error" } (.RunsLoadedMsg [] (some { Message := "test error" }))
      (by decide) (by decide)).2.1 (by decide)⟩

/-- C17 fails as stated: in the test App a successful cancel sets the flash, then a
Runs fetch fails; the error is the more recent of the two, yet the status bar shows
the flash and not the error. -/
theorem error_after_flash_not_shown :
    flashThenError.filtering = false ∧
      flashThenError.flashMsg = "Run cancelled" ∧
      flashThenError.err = some { Message := "test error" } ∧
      renderStatusBar sampleExt flashThenError = "Run cancelled" ∧
      renderStatusBar sampleExt flashThenError ≠ "Error: test error" :=
  ⟨by decide, by decide, by decide, by decide, by decide⟩

/-! ## Jobs results and the poller -/

/-- C18, as the code has it: with a client configured, a Jobs result without error
carrying a non-empty list replaces the items of the Jobs list and returns the Logs
fetch keyed to the job selected afterwards (the first job when the list has no filter
text and its selection was the first row or none before), no command when none is
selected; the step neither stops nor starts a poller: the stored poller is left as it
was. -/
theorem jobs_loaded_cascade (ext : Ext) (a : App) (j1 : Job) (rest : List Job)
    (hcl : a.client ≠ none) :
    (Update ext a (.JobsLoadedMsg (j1 :: rest) none)).1.jobs.items = j1 :: rest ∧
    (∀ job, (Update ext a (.JobsLoadedMsg (j1 :: rest) none)).1.jobs.Selected = some job →
      (Update ext a (.JobsLoadedMsg (j1 :: rest) none)).2 =
        some (Cmd.fetchLogs a.client a.repo job.ID)) ∧
    ((Update ext a (.JobsLoadedMsg (j1 :: rest) none)).1.jobs.Selected = none →
      (Update ext a (.JobsLoadedMsg (j1 :: rest) none)).2 = none) ∧
    (a.jobs.filter = "" → a.jobs.selectedIdx ≤ 0 →
      (Update ext a (.JobsLoadedMsg (j1 :: rest) none)).1.jobs.Selected = some j1 ∧
      (Update ext a (.JobsLoadedMsg (j1 :: rest) none)).2 =
        some (Cmd.fetchLogs a.client a.repo j1.ID)) ∧
    (Update ext a (.JobsLoadedMsg (j1 :: rest) none)).1.logPoller = a.logPoller := by
  have hstate : (Update ext a (.JobsLoadedMsg (j1 :: rest) none)).1 =
      { a with loading := false, jobs := a.jobs.SetItems (j1 :: rest) } := rfl
  have hsome : ∀ job, (a.jobs.SetItems (j1 :: rest)).Selected = some job →
      (Update ext a (.JobsLoadedMsg (j1 :: rest) none)).2 =
        some (Cmd.fetchLogs a.client a.repo job.ID) := by
    intro job hs
    simp [Update, cascade_eq, hs, fetchLogsCmd, hcl, Batch, List.reduceOption]
  have hnone : (a.jobs.SetItems (j1 :: rest)).Selected = none →
      (Update ext a (.JobsLoadedMsg (j1 :: rest) none)).2 = none := by
    intro hs
    simp [Update, cascade_eq, hs, Batch, List.reduceOption]
  rw [hstate]
  refine ⟨rfl, hsome, hnone, ?_, rfl⟩
  intro hfilter hsel
  have hs := FilteredList.SetItems_first a.jobs j1 rest hfilter hsel
  exact ⟨hs, hsome j1 hs⟩

/-- C18 as amended, at the test App loading the jobs 1001 and 1002: job 1001 is
selected, the Logs fetch is keyed to it, and no poller is stored. -/
theorem jobs_loaded_cascade_witness :
    testApp.client ≠ none ∧
    (Update sampleExt testApp (.JobsLoadedMsg testJobs none)).1.jobs.Selected.map Job.ID =
      some 1001 ∧
    (Update sampleExt testApp (.JobsLoadedMsg testJobs none)).2 =
      some (Cmd.fetchLogs testApp.client testApp.repo 1001) ∧
    (Update sampleExt testApp (.JobsLoadedMsg testJobs none)).1.logPoller = testApp.logPoller :=
  ⟨by decide, by decide,
    ((jobs_loaded_cascade sampleExt testApp
      { ID := 1001, Name := "build", Status := "completed", Conclusion := "success" }
      [{ ID := 1002, Name := "test", Status := "in_progress" }] (by decide)).2.2.2.1
      (by decide) (by decide)).2,
    (jobs_loaded_cascade sampleExt testApp
      { ID := 1001, Name := "build", Status := "completed", Conclusion := "success" }
      [{ ID := 1002, Name := "test", Status := "in_progress" }] (by decide)).2.2.2.2⟩

/-- C18 fails as stated: in the test App, which has no poller, handling the Jobs result
with the jobs 1001 and 1002 returns the Logs fetch of job 1001 and leaves the App
without a stored poller. -/
theorem jobs_loaded_no_poller :
    testApp.logPoller = none ∧
      (Update sampleExt testApp (.JobsLoadedMsg testJobs none)).2 =
        some (Cmd.fetchLogs testApp.client testApp.repo 1001) ∧
      (Update sampleExt testApp (.JobsLoadedMsg testJobs none)).1.logPoller = none :=
  ⟨rfl, rfl, rfl⟩

/-! ## Selection-move keys -/

/-- C19, as the code has it: outside filter and confirm mode an up or down key moves
the selection of the list of the focused pane only (its items and filter, and the
other two lists, are unchanged). When that list has a selected item afterwards, the
command is the next-level fetch keyed to that item when a client is configured and
no command without a client, and the loading flag is set for the Workflows and Runs
panes. When the list has no selected item the key returns no command and sets no
error, and on a list satisfying the selection invariant the state is unchanged. -/
theorem selection_move (ext : Ext) (a : App) (msg : KeyMsg)
    (hf : a.filtering = false) (hc : a.showConfirm = false)
    (hk : keyCase a.keys msg = KeyCase.Up ∨ keyCase a.keys msg = KeyCase.Down) :
    (a.focusedPane = Pane.WorkflowsPane →
      (∀ wf, (moveSelection (keyCase a.keys msg) a.workflows).Selected = some wf →
        Update ext a (.KeyMsg msg) =
          ({ a with
              workflows := moveSelection (keyCase a.keys msg) a.workflows
              loading := true },
            if a.client = none then none
            else some (Cmd.fetchRuns a.client a.repo wf.ID))) ∧
      ((moveSelection (keyCase a.keys msg) a.workflows).Selected = none →
        Update ext a (.KeyMsg msg) =
          ({ a with workflows := moveSelection (keyCase a.keys msg) a.workflows }, none)) ∧
      (a.workflows.WF → a.workflows.Selected = none →
        Update ext a (.KeyMsg msg) = (a, none))) ∧
    (a.focusedPane = Pane.RunsPane →
      (∀ run, (moveSelection (keyCase a.keys msg) a.runs).Selected = some run →
        Update ext a (.KeyMsg msg) =
          ({ a with runs := moveSelection (keyCase a.keys msg) a.runs, loading := true },
            if a.client = none then none
            else some (Cmd.fetchJobs a.client a.repo run.ID))) ∧
      ((moveSelection (keyCase a.keys msg) a.runs).Selected = none →
        Update ext a (.KeyMsg msg) =
          ({ a with runs := moveSelection (keyCase a.keys msg) a.runs }, none)) ∧
      (a.runs.WF → a.runs.Selected = none → Update ext a (.KeyMsg msg) = (a, none))) ∧
    (a.focusedPane = Pane.LogsPane →
      (∀ job, (moveSelection (keyCase a.keys msg) a.jobs).Selected = some job →
        Update ext a (.KeyMsg msg) =
          ({ a with jobs := moveSelection (keyCase a.keys msg) a.jobs },
            if a.client = none then none
            else some (Cmd.fetchLogs a.client a.repo job.ID))) ∧
      ((moveSelection (keyCase a.keys msg) a.jobs).Selected = none →
        Update ext a (.KeyMsg msg) =
          ({ a with jobs := moveSelection (keyCase a.keys msg) a.jobs }, none)) ∧
      (a.jobs.WF → a.jobs.Selected = none → Update ext a (.KeyMsg msg) = (a, none))) ∧
    ((moveSelection (keyCase a.keys msg) a.workflows).items = a.workflows.items ∧
      (moveSelection (keyCase a.keys msg) a.workflows).filter = a.workflows.filter) ∧
    ((moveSelection (keyCase a.keys msg) a.runs).items = a.runs.items ∧
      (moveSelection (keyCase a.keys msg) a.runs).filter = a.runs.filter) ∧
    ((moveSelection (keyCase a.keys msg) a.jobs).items = a.jobs.items ∧
      (moveSelection (keyCase a.keys msg) a.jobs).filter = a.jobs.filter) := by
  have hU : Update ext a (.KeyMsg msg) =
      match a.focusedPane with
      | .WorkflowsPane =>
        onWorkflowSelectionChange
          { a with workflows := moveSelection (keyCase a.keys msg) a.workflows }
      | .RunsPane =>
        onRunSelectionChange { a with runs := moveSelection (keyCase a.keys msg) a.runs }
      | .LogsPane =>
        onJobSelectionChange { a with jobs := moveSelection (keyCase a.keys msg) a.jobs } := by
    rcases hk with hk | hk
    · rw [(Update_navigate ext a msg hf hc).1 hk, hk]
      rfl
    · rw [(Update_navigate ext a msg hf hc).2 hk, hk]
      rfl
  refine ⟨?_, ?_, ?_, moveSelection_items _ _, moveSelection_items _ _,
    moveSelection_items _ _⟩
  · intro hp
    have hsome : ∀ wf, (moveSelection (keyCase a.keys msg) a.workflows).Selected = some wf →
        Update ext a (.KeyMsg msg) =
          ({ a with
              workflows := moveSelection (keyCase a.keys msg) a.workflows
              loading := true },
            if a.client = none then none
            else some (Cmd.fetchRuns a.client a.repo wf.ID)) := by
      intro wf hs
      rw [hU, hp]
      simp only [onWorkflowSelectionChange, hs, fetchRunsCmd]
    have hnone : (moveSelection (keyCase a.keys msg) a.workflows).Selected = none →
        Update ext a (.KeyMsg msg) =
          ({ a with workflows := moveSelection (keyCase a.keys msg) a.workflows }, none) := by
      intro hs
      rw [hU, hp]
      simp only [onWorkflowSelectionChange, hs]
    refine ⟨hsome, hnone, ?_⟩
    intro hwf hs
    have hmove := moveSelection_empty (keyCase a.keys msg) a.workflows hwf hs
    rw [hnone (by rw [hmove]; exact hs), hmove]
  · intro hp
    have hsome : ∀ run, (moveSelection (keyCase a.keys msg) a.runs).Selected = some run →
        Update ext a (.KeyMsg msg) =
          ({ a with runs := moveSelection (keyCase a.keys msg) a.runs, loading := true },
            if a.client = none then none
            else some (Cmd.fetchJobs a.client a.repo run.ID)) := by
      intro run hs
      rw [hU, hp]
      simp only [onRunSelectionChange, hs, fetchJobsCmd]
    have hnone : (moveSelection (keyCase a.keys msg) a.runs).Selected = none →
        Update ext a (.KeyMsg msg) =
          ({ a with runs := moveSelection (keyCase a.keys msg) a.runs }, none) := by
      intro hs
      rw [hU, hp]
      simp only [onRunSelectionChange, hs]
    refine ⟨hsome, hnone, ?_⟩
    intro hwf hs
    have hmove := moveSelection_empty (keyCase a.keys msg) a.runs hwf hs
    rw [hnone (by rw [hmove]; exact hs), hmove]
  · intro hp
    have hsome : ∀ job, (moveSelection (keyCase a.keys msg) a.jobs).Selected = some job →
        Update ext a (.KeyMsg msg) =
          ({ a with jobs := moveSelection (keyCase a.keys msg) a.jobs },
            if a.client = none then none
            else some (Cmd.fetchLogs a.client a.repo job.ID)) := by
      intro job hs
      rw [hU, hp]
      simp only [onJobSelectionChange, hs, fetchLogsCmd]
    have hnone : (moveSelection (keyCase a.keys msg) a.jobs).Selected = none →
        Update ext a (.KeyMsg msg) =
          ({ a with jobs := moveSelection (keyCase a.keys msg) a.jobs }, none) := by
      intro hs
      rw [hU, hp]
      simp only [onJobSelectionChange, hs]
    refine ⟨hsome, hnone, ?_⟩
    intro hwf hs
    have hmove := moveSelection_empty (keyCase a.keys msg) a.jobs hwf hs
    rw [hnone (by rw [hmove]; exact hs), hmove]

/-- C19 as amended, at the test App with the two test workflows loaded: "j" selects
the second workflow and returns the Runs fetch keyed to it. -/
theorem selection_move_witness :
    (workflowsLoaded.filtering = false ∧ workflowsLoaded.showConfirm = false ∧
      keyCase workflowsLoaded.keys "j" = KeyCase.Down ∧
      workflowsLoaded.focusedPane = Pane.WorkflowsPane ∧
      (moveSelection (keyCase workflowsLoaded.keys "j") workflowsLoaded.workflows).Selected =
        some { ID := 2, Name := "Deploy", Path := ".github/workflows/deploy.yml",
               State := "active" }) ∧
    (Update sampleExt workflowsLoaded (.KeyMsg "j")).2 =
      some (Cmd.fetchRuns workflowsLoaded.client workflowsLoaded.repo 2) :=
  ⟨⟨by decide, by decide, by decide, by decide, by decide⟩,
    congrArg Prod.snd
      (((selection_move sampleExt workflowsLoaded "j" (by decide) (by decide)
        (Or.inr (by decide))).1 (by decide)).1
        { ID := 2, Name := "Deploy", Path := ".github/workflows/deploy.yml", State := "active" }
        (by decide))⟩

/-- C19 fails as stated: in an App built without a client, in Normal mode with the
Workflows pane focused, "j" selects the second workflow and returns no command. -/
theorem selection_move_without_client :
    (noClientWorkflows.filtering = false ∧ noClientWorkflows.showConfirm = false ∧
      noClientWorkflows.fullscreenLog = false ∧
      keyCase noClientWorkflows.keys "j" = KeyCase.Down ∧
      noClientWorkflows.focusedPane = Pane.WorkflowsPane) ∧
    (Update sampleExt noClientWorkflows (.KeyMsg "j")).1.workflows.Selected.map Workflow.ID =
      some 2 ∧
    (Update sampleExt noClientWorkflows (.KeyMsg "j")).2 = none :=
  ⟨⟨by decide, by decide, by decide, by decide, by decide⟩, by decide, rfl⟩

/-- C20, as the code has it: in filter mode every key other than Enter and Escape, and
in the confirm dialog every key, leaves the three lists and the log text unchanged
and returns no fetch command; under the default key map the up and down keys are
such keys. The fullscreen log does not block the keys: outside filter and confirm
mode an up or down key is handled by `navigateUp` or `navigateDown` whether or not
the fullscreen log is on. -/
theorem selection_keys_gated (ext : Ext) (a : App) (msg : KeyMsg) :
    (a.filtering = true → msg ≠ "esc" → msg ≠ "enter" →
      data (Update ext a (.KeyMsg msg)).1 = data a ∧
        ∀ c, (Update ext a (.KeyMsg msg)).2 = some c → c.isFetch = false) ∧
    (a.filtering = false → a.showConfirm = true →
      data (Update ext a (.KeyMsg msg)).1 = data a ∧
        ∀ c, (Update ext a (.KeyMsg msg)).2 = some c → c.isFetch = false) ∧
    (a.filtering = false → a.showConfirm = false →
      (keyCase a.keys msg = KeyCase.Up → Update ext a (.KeyMsg msg) = navigateUp a) ∧
        (keyCase a.keys msg = KeyCase.Down → Update ext a (.KeyMsg msg) = navigateDown a)) ∧
    (keyCase DefaultKeyMap msg = KeyCase.Up ∨ keyCase DefaultKeyMap msg = KeyCase.Down →
      msg ≠ "esc" ∧ msg ≠ "enter") := by
  refine ⟨?_, ?_, ?_, ?_⟩
  · intro hf h1 h2
    have hU : Update ext a (.KeyMsg msg) =
        ({ a with filterInput := (ext.textinputUpdate a.filterInput msg).1 },
          (ext.textinputUpdate a.filterInput msg).2.map Cmd.widget) := by
      rw [Update_key]
      unfold handleKeyPress
      rw [if_pos hf]
      unfold handleFilterInput
      rw [if_neg h1, if_neg h2]
    rw [hU]
    refine ⟨rfl, ?_⟩
    intro c hcmd
    cases hw : (ext.textinputUpdate a.filterInput msg).2 with
    | none => simp [hw] at hcmd
    | some n =>
      simp only [hw, Option.map_some', Option.some.injEq] at hcmd
      rw [← hcmd]
      rfl
  · intro hf hc
    rw [Update_confirm ext a msg hf hc]
    unfold handleConfirmInput
    by_cases h1 : msg = "y" ∨ msg = "Y"
    · rw [if_pos h1]
      cases hfn : a.confirmFn with
      | none =>
        refine ⟨rfl, ?_⟩
        intro c hcmd
        simp at hcmd
      | some fn =>
        refine ⟨rfl, ?_⟩
        intro c hcmd
        cases fn with
        | cancelRun id =>
          simp only [ConfirmFn.call, Option.some.injEq] at hcmd
          rw [← hcmd]
          rfl
    rw [if_neg h1]
    by_cases h2 : msg = "n" ∨ msg = "N" ∨ msg = "esc"
    · rw [if_pos h2]
      refine ⟨rfl, ?_⟩
      intro c hcmd
      simp at hcmd
    rw [if_neg h2]
    refine ⟨rfl, ?_⟩
    intro c hcmd
    simp at hcmd
  · intro hf hc
    exact Update_navigate ext a msg hf hc
  · intro h
    constructor
    · rintro rfl
      revert h
      decide
    · rintro rfl
      revert h
      decide

/-- C20 as amended, at the test App in filter mode and at the test App with the
fullscreen log on: in filter mode "j" goes to the text input and leaves the lists
alone; with the fullscreen log on "j" is handled by `navigateDown`, moves the
selection from job 1001 to job 1002 and returns its Logs fetch. -/
theorem selection_keys_gated_witness :
    ((typingCi.filtering = true ∧ ("j" : KeyMsg) ≠ "esc" ∧ ("j" : KeyMsg) ≠ "enter") ∧
      data (Update sampleExt typingCi (.KeyMsg "j")).1 = data typingCi) ∧
    ((fullscreenJobs.fullscreenLog = true ∧ fullscreenJobs.filtering = false ∧
        fullscreenJobs.showConfirm = false ∧
        keyCase fullscreenJobs.keys "j" = KeyCase.Down) ∧
      Update sampleExt fullscreenJobs (.KeyMsg "j") = navigateDown fullscreenJobs) :=
  ⟨⟨⟨by decide, by decide, by decide⟩,
      ((selection_keys_gated sampleExt typingCi "j").1 (by decide) (by decide)
        (by decide)).1⟩,
    ⟨⟨by decide, by decide, by decide, by decide⟩,
      ((selection_keys_gated sampleExt fullscreenJobs "j").2.2.1 (by decide) (by decide)).2
        (by decide)⟩⟩

/-- C20 fails as stated: with the fullscreen log on (and neither filter nor confirm
mode), "j" moves the jobs selection from job 1001 to job 1002 and returns the Logs
fetch of job 1002. -/
theorem fullscreen_does_not_block_navigation :
    (fullscreenJobs.fullscreenLog = true ∧ fullscreenJobs.filtering = false ∧
      fullscreenJobs.showConfirm = false ∧
      keyCase fullscreenJobs.keys "j" = KeyCase.Down) ∧
    fullscreenJobs.jobs.Selected.map Job.ID = some 1001 ∧
    (Update sampleExt fullscreenJobs (.KeyMsg "j")).1.jobs.Selected.map Job.ID = some 1002 ∧
    (Update sampleExt fullscreenJobs (.KeyMsg "j")).2 =
      some (Cmd.fetchLogs fullscreenJobs.client fullscreenJobs.repo 1002) :=
  ⟨⟨by decide, by decide, by decide, by decide⟩, by decide, by decide, rfl⟩

/-! ## Keys and results without a case -/

/-- C21, the code at the failing input: `handleKeyPress` has no case for the trigger
key. Under the default key map, outside filter and confirm mode, "t" leaves every
state unchanged and returns no command; so it does in the test App with the Workflows
pane focused and the workflow "CI" selected, where the test expects a command. -/
theorem trigger_key_unhandled (ext : Ext) (a : App) :
    Update ext { a with keys := DefaultKeyMap, filtering := false, showConfirm := false }
        (.KeyMsg "t") =
      ({ a with keys := DefaultKeyMap, filtering := false, showConfirm := false }, none) ∧
    ((workflowsLoaded.filtering = false ∧ workflowsLoaded.showConfirm = false ∧
        workflowsLoaded.fullscreenLog = false ∧
        workflowsLoaded.focusedPane = Pane.WorkflowsPane ∧
        workflowsLoaded.workflows.Selected.map Workflow.Name = some "CI") ∧
      Update sampleExt workflowsLoaded (.KeyMsg "t") = (workflowsLoaded, none)) := by
  refine ⟨?_, ⟨by decide, by decide, by decide, by decide, by decide⟩, ?_⟩
  · apply Update_unbound ext _ "t" rfl rfl
    show keyCase DefaultKeyMap "t" = KeyCase.unbound
    decide
  · exact Update_unbound sampleExt workflowsLoaded "t" (by decide) (by decide) (by decide)

/-- C22, the code at the failing input: `Update` has no case for RerunFailedJobsMsg
and WorkflowTriggeredMsg. Whatever they carry, the state is unchanged and no command
is returned: with an error the error slot is not set, without one no flash is set. -/
theorem action_results_without_case (ext : Ext) (a : App) (id : Int) (workflow : String)
    (err : Option Error) :
    Update ext a (.RerunFailedJobsMsg id err) = (a, none) ∧
    Update ext a (.WorkflowTriggeredMsg workflow err) = (a, none) ∧
    ((Update sampleExt testApp
        (.RerunFailedJobsMsg 100 (some { Message := "rerun failed jobs failed" }))).1.err =
        none ∧
      (Update sampleExt testApp (.RerunFailedJobsMsg 100 none)).1.flashMsg = "" ∧
      (Update sampleExt testApp
        (.WorkflowTriggeredMsg "ci.yml" (some { Message := "workflow dispatch failed" }))).1.err =
        none ∧
      (Update sampleExt testApp (.WorkflowTriggeredMsg "ci.yml" none)).1.flashMsg = "") :=
  ⟨rfl, rfl, by decide, by decide, by decide, by decide⟩

/-- C29, the code at the failing input: `handleKeyPress` has no case for the yank key.
Under the default key map, outside filter and confirm mode, "y" leaves every state
unchanged and returns no command; so it does in the test App with the Runs pane
focused and a run with a URL selected, where the test expects a command. -/
theorem yank_key_unhandled (ext : Ext) (a : App) :
    Update ext { a with keys := DefaultKeyMap, filtering := false, showConfirm := false }
        (.KeyMsg "y") =
      ({ a with keys := DefaultKeyMap, filtering := false, showConfirm := false }, none) ∧
    (((runsPaneWith [RunningRun]).filtering = false ∧
        (runsPaneWith [RunningRun]).showConfirm = false ∧
        (runsPaneWith [RunningRun]).fullscreenLog = false ∧
        (runsPaneWith [RunningRun]).focusedPane = Pane.RunsPane ∧
        (runsPaneWith [RunningRun]).runs.Selected.map Run.URL =
          some "https://github.com/test/repo/actions/runs/200") ∧
      Update sampleExt (runsPaneWith [RunningRun]) (.KeyMsg "y") =
        (runsPaneWith [RunningRun], none)) := by
  refine ⟨?_, ⟨by decide, by decide, by decide, by decide, by decide⟩, ?_⟩
  · apply Update_unbound ext _ "y" rfl rfl
    show keyCase DefaultKeyMap "y" = KeyCase.unbound
    decide
  · exact Update_unbound sampleExt (runsPaneWith [RunningRun]) "y" (by decide) (by decide)
      (by decide)

/-! ## Pane focus -/

/-- C27, as the code has it: the focus keys move along the order Workflows, Runs, Logs
without wrapping. Next goes from Workflows to Runs and from Runs to Logs and stays on
Logs; prev goes from Logs to Runs and from Runs to Workflows and stays on Workflows.
So prev undoes next except from Logs, next undoes prev except from Workflows, and
three presses of the same key end on Logs (next) or on Workflows (prev). -/
theorem focus_moves_without_wrap (a : App) :
    ((focusNextPane a).focusedPane =
      match a.focusedPane with
      | .WorkflowsPane => Pane.RunsPane
      | .RunsPane => Pane.LogsPane
      | .LogsPane => Pane.LogsPane) ∧
    ((focusPrevPane a).focusedPane =
      match a.focusedPane with
      | .WorkflowsPane => Pane.WorkflowsPane
      | .RunsPane => Pane.WorkflowsPane
      | .LogsPane => Pane.RunsPane) ∧
    (a.focusedPane ≠ Pane.LogsPane → focusPrevPane (focusNextPane a) = a) ∧
    (a.focusedPane ≠ Pane.WorkflowsPane → focusNextPane (focusPrevPane a) = a) ∧
    (focusNextPane (focusNextPane (focusNextPane a))).focusedPane = Pane.LogsPane ∧
    (focusPrevPane (focusPrevPane (focusPrevPane a))).focusedPane = Pane.WorkflowsPane := by
  cases hp : a.focusedPane <;>
    simp [focusNextPane, focusPrevPane, hp] <;>
    (cases a; simp_all)

/-- C27 as amended, at the test App with focus on the Runs pane: prev undoes next. -/
theorem focus_moves_without_wrap_witness :
    (runsPaneWith [RunningRun]).focusedPane ≠ Pane.LogsPane ∧
      focusPrevPane (focusNextPane (runsPaneWith [RunningRun])) = runsPaneWith [RunningRun] :=
  ⟨by decide, (focus_moves_without_wrap (runsPaneWith [RunningRun])).2.2.1 (by decide)⟩

/-- C27 fails as stated: next on the Logs pane stays on Logs and prev on the Workflows
pane stays on Workflows; from a fresh App three presses of "l" end on Logs, not on
the starting pane, and prev after next from Logs ends on Runs. -/
theorem focus_does_not_cycle :
    (focusNextPane { testApp with focusedPane := Pane.LogsPane }).focusedPane = Pane.LogsPane ∧
      (focusPrevPane testApp).focusedPane = Pane.WorkflowsPane ∧
      testApp.focusedPane = Pane.WorkflowsPane ∧
      (runMsgs sampleExt testApp [.KeyMsg "l", .KeyMsg "l", .KeyMsg "l"]).focusedPane =
        Pane.LogsPane ∧
      (focusPrevPane (focusNextPane { testApp with focusedPane := Pane.LogsPane })).focusedPane =
        Pane.RunsPane :=
  ⟨by decide, by decide, by decide, by decide, by decide⟩

/-- C28: outside filter and confirm mode a pane-focus-next or pane-focus-prev key
changes at most the focused pane: every other field of the state (lists, log text,
error, flash, mode flags) is unchanged and no command is returned. -/
theorem focus_change_frame (ext : Ext) (a : App) (msg : KeyMsg)
    (hf : a.filtering = false) (hc : a.showConfirm = false) :
    (keyCase a.keys msg = KeyCase.NextPane →
      Update ext a (.KeyMsg msg) =
        ({ a with focusedPane := (focusNextPane a).focusedPane }, none)) ∧
    (keyCase a.keys msg = KeyCase.PrevPane →
      Update ext a (.KeyMsg msg) =
        ({ a with focusedPane := (focusPrevPane a).focusedPane }, none)) := by
  constructor
  · intro hk
    rw [Update_key, handleKeyPress_eq ext a msg hf hc, hk]
    simp only [focusNextPane]
    cases a.focusedPane <;> rfl
  · intro hk
    rw [Update_key, handleKeyPress_eq ext a msg hf hc, hk]
    simp only [focusPrevPane]
    cases a.focusedPane <;> rfl

/-- C28 at the test App with a run loaded: "tab" moves focus from the Runs pane to the
Logs pane and changes nothing else. -/
theorem focus_change_frame_witness :
    ((runsPaneWith [RunningRun]).filtering = false ∧
      (runsPaneWith [RunningRun]).showConfirm = false ∧
      keyCase (runsPaneWith [RunningRun]).keys "tab" = KeyCase.NextPane) ∧
    Update sampleExt (runsPaneWith [RunningRun]) (.KeyMsg "tab") =
      ({ runsPaneWith [RunningRun] with focusedPane := Pane.LogsPane }, none) :=
  ⟨⟨by decide, by decide, by decide⟩,
    (focus_change_frame sampleExt (runsPaneWith [RunningRun]) "tab" (by decide)
      (by decide)).1 (by decide)⟩

/-! ## Quit -/

/-- C23: `Update` returns the quit command exactly for a key message whose key selects
the Quit case of the key switch while neither filter nor confirm mode is on; no other
key and no other message, a failed fetch or action result included, returns it. -/
theorem quit_only_by_quit_key (ext : Ext) (a : App) (msg : Msg) :
    (Update ext a msg).2 = some Cmd.Quit ↔
      ∃ key, msg = Msg.KeyMsg key ∧ a.filtering = false ∧ a.showConfirm = false ∧
        keyCase a.keys key = KeyCase.Quit := by
  by_cases hkey : ∃ key, msg = Msg.KeyMsg key
  · obtain ⟨key, rfl⟩ := hkey
    rw [Update_key, handleKeyPress_quit]
    constructor
    · intro h
      exact ⟨key, rfl, h⟩
    · rintro ⟨key2, hkey, h⟩
      cases hkey
      exact h
  · constructor
    · intro h
      exact absurd h (Update_nonkey_ne_quit ext a msg (fun key e => hkey ⟨key, e⟩))
    · rintro ⟨key, hk, _⟩
      exact absurd ⟨key, hk⟩ hkey

/-! ## The Runs filter -/

/-- C30: the filter predicate of the Runs list passes a run exactly when the filter
text is, compared case-insensitively, a substring of the branch or of the actor of
the run, where two characters are the same when their lowercase forms in the Unicode
character database are; so "a" and "A" are the same, "é" and "É" are, "a" and "b" are
not, and the text "MAIN" passes the branch "main" and "ÉTÉ" the branch "été". The
empty text passes every run; on the test runs (branches main, feature/test, fix/bug,
main) the text "main" passes the first and the fourth run, in that order, and after
the filter is applied in the Runs pane these two are the visible runs, with the
first selected. -/
theorem runs_filter_branch_or_actor :
    (∀ (r : Run) (filter : String), runMatch r filter = true ↔
      (substringIgnoringCase filter r.Branch ∨ substringIgnoringCase filter r.Actor)) ∧
    (sameIgnoringCase 'a' 'A' ∧ sameIgnoringCase 'é' 'É' ∧ ¬ sameIgnoringCase 'a' 'b') ∧
    (runMatch { RunningRun with Branch := "main" } "MAIN" = true ∧
      runMatch { RunningRun with Branch := "été", Actor := "user1" } "ÉTÉ" = true ∧
      runMatch { RunningRun with Branch := "main", Actor := "user1" } "mian" = false) ∧
    (∀ r : Run, runMatch r "" = true) ∧
    (DefaultTestRuns.map Run.Branch = ["main", "feature/test", "fix/bug", "main"] ∧
      DefaultTestRuns.map Run.Actor = ["user1", "user2", "user1", "user3"] ∧
      (DefaultTestRuns.filter (fun r => runMatch r "main")).map Run.ID = [100, 103]) ∧
    (filteredByMain.filtering = false ∧ filteredByMain.runs.filter = "main" ∧
      filteredByMain.runs.Items.map Run.ID = [100, 103] ∧
      filteredByMain.runs.SelectedIndex = 0) := by
  refine ⟨?_, ⟨?_, ?_, ?_⟩, ⟨by decide, by decide, by decide⟩, ?_,
    ⟨by decide, by decide, by decide⟩, ⟨by decide, by decide, by decide, by decide⟩⟩
  · intro r filter
    unfold runMatch
    rw [Bool.or_eq_true, containsFold_iff, containsFold_iff]
  · rw [sameIgnoringCase_iff]
    decide
  · rw [sameIgnoringCase_iff]
    decide
  · rw [sameIgnoringCase_iff]
    decide
  · intro r
    unfold runMatch containsFold
    rw [Bool.or_eq_true, containsChars_iff]
    left
    exact List.nil_infix

/-! ## Log polling -/

/-- C25: one execution of the unit of work delivers at most one message. With no job
selected it delivers none; with a job selected and the context found cancelled after
the log fetch returned it delivers none; otherwise it delivers one LogsLoadedMsg
carrying the fetched text and the fetch error, so a failed fetch is delivered with its
error. -/
theorem poll_execution_result
    (getJobLogs : Client → Repository → Int → String × Option Error) (cancelled : Bool)
    (a : App) (c : Client) (hcl : a.client = some c) :
    (a.jobs.Selected = none →
      pollWork getJobLogs cancelled a = some { requested := none, delivered := none }) ∧
    (∀ job, a.jobs.Selected = some job →
      pollWork getJobLogs true a = some { requested := some job.ID, delivered := none }) ∧
    (∀ job, a.jobs.Selected = some job →
      pollWork getJobLogs false a =
        some { requested := some job.ID,
               delivered := some (.LogsLoadedMsg (getJobLogs c a.repo job.ID).1
                 (getJobLogs c a.repo job.ID).2) }) ∧
    (∀ job logs e, a.jobs.Selected = some job →
      getJobLogs c a.repo job.ID = (logs, some e) →
      pollWork getJobLogs false a =
        some { requested := some job.ID, delivered := some (.LogsLoadedMsg logs (some e)) }) := by
  refine ⟨?_, ?_, ?_, ?_⟩
  · intro hs
    simp only [pollWork, hs]
  · intro job hs
    simp only [pollWork, hs, hcl, if_true]
  · intro job hs
    simp only [pollWork, hs, hcl, Bool.false_eq_true, if_false]
  · intro job logs e hs hg
    simp only [pollWork, hs, hcl, Bool.false_eq_true, if_false, hg]

/-- C25 at the test App with job 1001 selected: an execution that is not cancelled
delivers the one result with the fetched log. -/
theorem poll_execution_result_witness :
    (firstJobSelected.client = some { RateLimit := 5000 } ∧
      firstJobSelected.jobs.Selected =
        some { ID := 1001, Name := "build", Status := "completed", Conclusion := "success" }) ∧
    pollWork sampleLogs false firstJobSelected =
      some { requested := some 1001,
             delivered := some (.LogsLoadedMsg "log of job 1001" none) } :=
  ⟨⟨by decide, by decide⟩,
    (poll_execution_result sampleLogs false firstJobSelected { RateLimit := 5000 }
      (by decide)).2.2.1
      { ID := 1001, Name := "build", Status := "completed", Conclusion := "success" }
      (by decide)⟩

/-- C24, as the code has it: the unit of work of the task created by `StartLogPolling`
holds the App by reference and reads the selection when it runs. After a successful
`StartLogPolling`, which leaves the Jobs list as it is, and after any further
messages, an execution asks for the logs of the job selected at that moment. -/
theorem poll_reads_selection_at_tick (policy : Int → Nat)
    (getJobLogs : Client → Repository → Int → String × Option Error) (cancelled : Bool)
    (ext : Ext) (a : App) (ts : Tasks) (ms : List Msg) (p : AdaptivePoller) (c : Client)
    (hp : a.adaptivePoller = some p) (hcl : a.client = some c) :
    ∃ a1 ts1 cmd, StartLogPolling policy a ts = some (a1, ts1, cmd) ∧ a1.jobs = a.jobs ∧
      ∃ run, pollWork getJobLogs cancelled (runMsgs ext a1 ms) = some run ∧
        run.requested = (runMsgs ext a1 ms).jobs.Selected.map Job.ID := by
  refine ⟨_, _, _, StartLogPolling_eq policy a ts p c hp hcl, rfl, ?_⟩
  apply pollWork_requested getJobLogs cancelled _ c
  rw [(runMsgs_client ext ms _).1]
  exact hcl

/-- C24 as amended, at the test App with job 1001 selected: polling is started, then
"j" selects job 1002, and the execution that follows asks for job 1002. -/
theorem poll_reads_selection_at_tick_witness :
    (firstJobSelected.adaptivePoller = some AdaptivePoller.ofClient ∧
      firstJobSelected.client = some { RateLimit := 5000 }) ∧
    ∃ a1 ts1 cmd, StartLogPolling samplePolicy firstJobSelected [] = some (a1, ts1, cmd) ∧
      a1.jobs = firstJobSelected.jobs ∧
      ∃ run, pollWork sampleLogs false (runMsgs sampleExt a1 [.KeyMsg "j"]) = some run ∧
        run.requested = (runMsgs sampleExt a1 [.KeyMsg "j"]).jobs.Selected.map Job.ID :=
  ⟨⟨by decide, by decide⟩,
    poll_reads_selection_at_tick samplePolicy sampleLogs false sampleExt firstJobSelected []
      [.KeyMsg "j"] AdaptivePoller.ofClient { RateLimit := 5000 } (by decide) (by decide)⟩

/-- C24 fails as stated: polling is started in the test App while job 1001 is
selected; the selection is then moved to job 1002, the task stays stored and is not
stopped, and its next execution asks for the logs of job 1002, not of job 1001. -/
theorem poll_follows_new_selection :
    firstJobSelected.jobs.Selected.map Job.ID = some 1001 ∧
    StartLogPolling samplePolicy firstJobSelected [] =
      some ({ firstJobSelected with logPoller := some 0 },
        [{ interval := 2000, started := true, stopped := false }],
        some (Cmd.tickerStart 0)) ∧
    ((Update sampleExt { firstJobSelected with logPoller := some 0 }
        (.KeyMsg "j")).1.jobs.Selected.map Job.ID = some 1002 ∧
      (Update sampleExt { firstJobSelected with logPoller := some 0 }
        (.KeyMsg "j")).1.logPoller = some 0) ∧
    pollWork sampleLogs false
        (Update sampleExt { firstJobSelected with logPoller := some 0 } (.KeyMsg "j")).1 =
      some { requested := some 1002,
             delivered := some (.LogsLoadedMsg "log of another job" none) } :=
  ⟨by decide, rfl, ⟨by decide, by decide⟩, by decide⟩

/-- C26: at most one active poller. From an App with an adaptive poller and a client in
which only the stored task can be unstopped, (1) every sequence of `StartLogPolling`
and `StopLogPolling` calls, with any messages handled in between, succeeds and ends in
a state where every unstopped task is the stored one, so two unstopped tasks are the
same task; (2) `StartLogPolling` stops the stored task, appends a new started task and
stores it; (3) `StopLogPolling` stops the stored task and forgets it. -/
theorem at_most_one_poller (ext : Ext) (policy : Int → Nat) (ops : List PollOp) (a : App)
    (ts : Tasks) (hp : a.adaptivePoller ≠ none) (hcl : a.client ≠ none)
    (hinv : onePoller a ts) :
    (∃ a2 ts2, runOps ext policy ops (a, ts) = some (a2, ts2) ∧ onePoller a2 ts2 ∧
      ∀ (i j : Nat) (ti tj : TickerTask), ts2[i]? = some ti → ts2[j]? = some tj →
        ti.stopped = false → tj.stopped = false → i = j) ∧
    (∃ a1 ts1 cmd, StartLogPolling policy a ts = some (a1, ts1, cmd) ∧
      a1.logPoller = some ts.length ∧ cmd = some (Cmd.tickerStart ts.length) ∧
      ts1.length = ts.length + 1 ∧
      (ts1[ts.length]?).map (fun t => (t.started, t.stopped)) = some (true, false) ∧
      ∀ (r : Nat) (t : TickerTask), a.logPoller = some r → ts[r]? = some t →
        ts1[r]? = some { t with stopped := true }) ∧
    ((StopLogPolling a ts).1.logPoller = none ∧
      (StopLogPolling a ts).2.length = ts.length ∧
      ∀ (r : Nat) (t : TickerTask), a.logPoller = some r → ts[r]? = some t →
        (StopLogPolling a ts).2[r]? = some { t with stopped := true }) := by
  have hstored : ∀ (r : Nat) (t : TickerTask), a.logPoller = some r → ts[r]? = some t →
      (stopStored a ts)[r]? = some { t with stopped := true } := by
    intro r t hr ht
    unfold stopStored
    rw [hr]
    show (stopTask ts r)[r]? = _
    rw [stopTask_getElem, if_pos rfl, ht]
    rfl
  refine ⟨?_, ?_, ?_⟩
  · obtain ⟨a2, ts2, hrun, hinv2⟩ := runOps_onePoller ext policy ops a ts hp hcl hinv
    refine ⟨a2, ts2, hrun, hinv2, ?_⟩
    intro i j ti tj hi hj hsi hsj
    have h1 := hinv2 i ti hi hsi
    have h2 := hinv2 j tj hj hsj
    rw [h1] at h2
    exact Option.some.inj h2
  · obtain ⟨p, hp1⟩ := Option.ne_none_iff_exists'.mp hp
    obtain ⟨c, hc1⟩ := Option.ne_none_iff_exists'.mp hcl
    have hlen := stopStored_length a ts
    refine ⟨_, _, _, StartLogPolling_eq policy a ts p c hp1 hc1, ?_, ?_, ?_, ?_, ?_⟩
    · show some (stopStored a ts).length = some ts.length
      rw [hlen]
    · rw [hlen]
    · rw [List.length_append, hlen]
      rfl
    · rw [← hlen, List.getElem?_append_right (Nat.le_refl _), Nat.sub_self]
      rfl
    · intro r t hr ht
      have hlt : r < (stopStored a ts).length := by
        rw [hlen]
        exact (List.getElem?_eq_some.mp ht).1
      rw [List.getElem?_append_left hlt]
      exact hstored r t hr ht
  · refine ⟨(StopLogPolling_eq a ts).2.1, ?_, ?_⟩
    · rw [(StopLogPolling_eq a ts).1]
      exact stopStored_length a ts
    · intro r t hr ht
      rw [(StopLogPolling_eq a ts).1]
      exact hstored r t hr ht

/-- C26 at the test App with no task yet: polling is started, a key is handled, polling
is started again, stopped, and started a third time; three tasks were created and only
the last one, which is stored, is not stopped. -/
theorem at_most_one_poller_witness :
    (testApp.adaptivePoller ≠ none ∧ testApp.client ≠ none ∧ onePoller testApp []) ∧
    runOps sampleExt samplePolicy [.start, .update (.KeyMsg "j"), .start, .stop, .start]
        (testApp, []) =
      some ({ testApp with logPoller := some 2 },
        [{ interval := 2000, started := true, stopped := true },
         { interval := 2000, started := true, stopped := true },
         { interval := 2000, started := true, stopped := false }]) ∧
    ∃ a2 ts2,
      runOps sampleExt samplePolicy [.start, .update (.KeyMsg "j"), .start, .stop, .start]
          (testApp, []) = some (a2, ts2) ∧ onePoller a2 ts2 ∧
        ∀ (i j : Nat) (ti tj : TickerTask), ts2[i]? = some ti → ts2[j]? = some tj →
          ti.stopped = false → tj.stopped = false → i = j :=
  ⟨⟨by decide, by decide, fun i t h _ => by simp at h⟩, by decide,
    (at_most_one_poller sampleExt samplePolicy
      [.start, .update (.KeyMsg "j"), .start, .stop, .start] testApp []
      (by decide) (by decide) (fun i t h _ => by simp at h)).1⟩

/-! ## Selection moves at a boundary -/

/-- C31, as the code has it: outside filter and confirm mode, an up or down key that
leaves the selection of the focused list unchanged still runs the selection-change
handler of the pane. With an item selected, the Workflows and Runs panes set the
loading flag and return the fetch keyed to the still-selected item when a client is
configured; the Logs pane leaves the state as it is and returns the Logs fetch. Only
with no item selected is the key a no-op. Up on the first visible row and Down on the
last are such keys. -/
theorem boundary_move_refetches (ext : Ext) (a : App) (msg : KeyMsg)
    (hf : a.filtering = false) (hc : a.showConfirm = false)
    (hk : keyCase a.keys msg = KeyCase.Up ∨ keyCase a.keys msg = KeyCase.Down) :
    (a.focusedPane = Pane.WorkflowsPane →
      moveSelection (keyCase a.keys msg) a.workflows = a.workflows →
      (∀ wf, a.workflows.Selected = some wf →
        Update ext a (.KeyMsg msg) =
          ({ a with loading := true },
            if a.client = none then none
            else some (Cmd.fetchRuns a.client a.repo wf.ID))) ∧
      (a.workflows.Selected = none → Update ext a (.KeyMsg msg) = (a, none))) ∧
    (a.focusedPane = Pane.RunsPane →
      moveSelection (keyCase a.keys msg) a.runs = a.runs →
      (∀ run, a.runs.Selected = some run →
        Update ext a (.KeyMsg msg) =
          ({ a with loading := true },
            if a.client = none then none
            else some (Cmd.fetchJobs a.client a.repo run.ID))) ∧
      (a.runs.Selected = none → Update ext a (.KeyMsg msg) = (a, none))) ∧
    (a.focusedPane = Pane.LogsPane →
      moveSelection (keyCase a.keys msg) a.jobs = a.jobs →
      (∀ job, a.jobs.Selected = some job →
        Update ext a (.KeyMsg msg) =
          (a, if a.client = none then none
            else some (Cmd.fetchLogs a.client a.repo job.ID))) ∧
      (a.jobs.Selected = none → Update ext a (.KeyMsg msg) = (a, none))) ∧
    (∀ (T : Type) (matchFn : T → String → Bool) (l : FilteredList T matchFn),
      (l.selectedIdx ≤ 0 → moveSelection KeyCase.Up l = l) ∧
      ((l.Len : Int) ≤ l.selectedIdx + 1 → moveSelection KeyCase.Down l = l)) := by
  have hU := Update_moveSelection ext a msg hf hc hk
  refine ⟨?_, ?_, ?_, ?_⟩
  · intro hp hmv
    rw [hp, hmv] at hU
    constructor
    · intro wf hs
      rw [hU]
      simp only [hp, onWorkflowSelectionChange, hs, fetchRunsCmd]
    · intro hs
      rw [hU]
      simp only [onWorkflowSelectionChange, hs]
      rw [← hp]
  · intro hp hmv
    rw [hp, hmv] at hU
    constructor
    · intro run hs
      rw [hU]
      simp only [hp, onRunSelectionChange, hs, fetchJobsCmd]
    · intro hs
      rw [hU]
      simp only [onRunSelectionChange, hs]
      rw [← hp]
  · intro hp hmv
    rw [hp, hmv] at hU
    constructor
    · intro job hs
      rw [hU]
      simp only [onJobSelectionChange, hs, fetchLogsCmd]
      rw [← hp]
    · intro hs
      rw [hU]
      simp only [onJobSelectionChange, hs]
      rw [← hp]
  · intro T matchFn l
    constructor
    · intro h
      simp only [moveSelection, FilteredList.SelectPrev]
      rw [if_neg (by omega)]
    · intro h
      simp only [moveSelection, FilteredList.SelectNext]
      rw [if_neg (by omega)]

/-- C31 as amended, at the test App with the two test workflows loaded and the first
one selected: "k" leaves the selection where it is, sets the loading flag and returns
the Runs fetch of workflow 1. -/
theorem boundary_move_refetches_witness :
    (workflowsLoaded.filtering = false ∧ workflowsLoaded.showConfirm = false ∧
      keyCase workflowsLoaded.keys "k" = KeyCase.Up ∧
      workflowsLoaded.focusedPane = Pane.WorkflowsPane ∧
      moveSelection (keyCase workflowsLoaded.keys "k") workflowsLoaded.workflows =
        workflowsLoaded.workflows ∧
      workflowsLoaded.workflows.Selected =
        some { ID := 1, Name := "CI", Path := ".github/workflows/ci.yml", State := "active" }) ∧
    Update sampleExt workflowsLoaded (.KeyMsg "k") =
      ({ workflowsLoaded with loading := true },
        if workflowsLoaded.client = none then none
        else some (Cmd.fetchRuns workflowsLoaded.client workflowsLoaded.repo 1)) :=
  ⟨⟨by decide, by decide, by decide, by decide, by decide, by decide⟩,
    ((boundary_move_refetches sampleExt workflowsLoaded "k" (by decide) (by decide)
      (Or.inl (by decide))).1 (by decide) (by decide)).1
      { ID := 1, Name := "CI", Path := ".github/workflows/ci.yml", State := "active" }
      (by decide)⟩

/-- C31 fails as stated: in the test App with the two test workflows loaded, "k" on the
first workflow leaves the selection on row 0 and the list as it is, yet the loading
flag goes from off to on and the Runs fetch of workflow 1 is returned; "j" on the last
workflow does the same with the Runs fetch of workflow 2. -/
theorem boundary_key_returns_fetch :
    (workflowsLoaded.filtering = false ∧ workflowsLoaded.showConfirm = false ∧
      keyCase workflowsLoaded.keys "k" = KeyCase.Up ∧
      workflowsLoaded.focusedPane = Pane.WorkflowsPane ∧
      workflowsLoaded.workflows.SelectedIndex = 0 ∧ workflowsLoaded.loading = false) ∧
    ((Update sampleExt workflowsLoaded (.KeyMsg "k")).1.workflows = workflowsLoaded.workflows ∧
      (Update sampleExt workflowsLoaded (.KeyMsg "k")).1.loading = true ∧
      (Update sampleExt workflowsLoaded (.KeyMsg "k")).2 =
        some (Cmd.fetchRuns workflowsLoaded.client workflowsLoaded.repo 1)) ∧
    (keyCase secondWorkflowSelected.keys "j" = KeyCase.Down ∧
      secondWorkflowSelected.workflows.SelectedIndex = 1 ∧
      secondWorkflowSelected.workflows.Len = 2) ∧
    ((Update sampleExt secondWorkflowSelected (.KeyMsg "j")).1.workflows =
        secondWorkflowSelected.workflows ∧
      (Update sampleExt secondWorkflowSelected (.KeyMsg "j")).2 =
        some (Cmd.fetchRuns secondWorkflowSelected.client secondWorkflowSelected.repo 2)) :=
  ⟨⟨by decide, by decide, by decide, by decide, by decide, by decide⟩,
    ⟨by decide, by decide, rfl⟩, ⟨by decide, by decide, by decide⟩, ⟨by decide, rfl⟩⟩

/-! ## Keys in the wrong mode -/

/-- C32: in the confirm dialog every key other than y, Y, n, N and Escape leaves the
whole state unchanged and returns no command. In filter mode every key other than
Enter and Escape changes the text-entry widget only: the lists, the pane focus, the
overlay and mode flags, the error and every other field stay as they are, and the
command, if any, is the one of the widget, so neither quit, nor a fetch, nor a
mutating action. -/
theorem wrong_mode_key_noop (ext : Ext) (a : App) (msg : KeyMsg) :
    (a.filtering = false → a.showConfirm = true →
      msg ≠ "y" → msg ≠ "Y" → msg ≠ "n" → msg ≠ "N" → msg ≠ "esc" →
      Update ext a (.KeyMsg msg) = (a, none)) ∧
    (a.filtering = true → msg ≠ "enter" → msg ≠ "esc" →
      (Update ext a (.KeyMsg msg)).1 =
          { a with filterInput := (ext.textinputUpdate a.filterInput msg).1 } ∧
        (data (Update ext a (.KeyMsg msg)).1 = data a ∧
          (Update ext a (.KeyMsg msg)).1.focusedPane = a.focusedPane ∧
          (Update ext a (.KeyMsg msg)).1.showHelp = a.showHelp ∧
          (Update ext a (.KeyMsg msg)).1.fullscreenLog = a.fullscreenLog ∧
          (Update ext a (.KeyMsg msg)).1.showConfirm = a.showConfirm ∧
          (Update ext a (.KeyMsg msg)).1.filtering = true ∧
          (Update ext a (.KeyMsg msg)).1.err = a.err) ∧
        (Update ext a (.KeyMsg msg)).2 =
          (ext.textinputUpdate a.filterInput msg).2.map Cmd.widget ∧
        ∀ c, (Update ext a (.KeyMsg msg)).2 = some c → ∃ n, c = Cmd.widget n) := by
  constructor
  · intro hf hc hy hY hn hN hesc
    rw [Update_confirm ext a msg hf hc]
    unfold handleConfirmInput
    rw [if_neg (fun h => h.elim hy hY),
      if_neg (fun h => h.elim hn (fun h2 => h2.elim hN hesc))]
  · intro hf h1 h2
    rw [Update_filter_typing ext a msg hf h1 h2]
    refine ⟨rfl, ⟨rfl, rfl, rfl, rfl, rfl, hf, rfl⟩, rfl, ?_⟩
    intro c hcmd
    cases hw : (ext.textinputUpdate a.filterInput msg).2 with
    | none => simp [hw] at hcmd
    | some n =>
      simp only [hw, Option.map_some', Option.some.injEq] at hcmd
      exact ⟨n, hcmd.symm⟩

/-- C32 at the test App: with the confirm dialog open "j" changes nothing and returns
no command; in filter mode with "ci" typed, "q" is appended to the filter text and
nothing else changes. -/
theorem wrong_mode_key_noop_witness :
    ((confirmingState.filtering = false ∧ confirmingState.showConfirm = true) ∧
      Update sampleExt confirmingState (.KeyMsg "j") = (confirmingState, none)) ∧
    (typingCi.filtering = true ∧
      (Update sampleExt typingCi (.KeyMsg "q")).1 =
        { typingCi with
            filterInput := (sampleExt.textinputUpdate typingCi.filterInput "q").1 } ∧
      (sampleExt.textinputUpdate typingCi.filterInput "q").1.value = "ciq" ∧
      (Update sampleExt typingCi (.KeyMsg "q")).2 = none) :=
  ⟨⟨⟨by decide, by decide⟩,
      (wrong_mode_key_noop sampleExt confirmingState "j").1 (by decide) (by decide)
        (by decide) (by decide) (by decide) (by decide) (by decide)⟩,
    by decide,
    ((wrong_mode_key_noop sampleExt typingCi "q").2 (by decide) (by decide) (by decide)).1,
    by decide,
    ((wrong_mode_key_noop sampleExt typingCi "q").2 (by decide) (by decide)
      (by decide)).2.2.1⟩

/-! ## Escape and the screen -/

/-- C33, as the code has it: in a state with a window size that is neither filtering
nor confirming, an Escape press that turns the fullscreen log off turns off the
overlay `View` was rendering, and so does one that turns the help overlay off while
the fullscreen log is off. With both overlays on the two orders disagree: `View`
renders the fullscreen log, Escape turns off the help overlay, which was not on
screen, and `View` renders the fullscreen log again. -/
theorem escape_and_view_order (ext : Ext) (a : App) (msg : KeyMsg)
    (hw : a.width ≠ 0) (hh : a.height ≠ 0)
    (hf : a.filtering = false) (hc : a.showConfirm = false)
    (hk : keyCase a.keys msg = KeyCase.Escape) :
    (a.fullscreenLog = true → (Update ext a (.KeyMsg msg)).1.fullscreenLog = false →
      View a = Screen.renderFullscreenLog) ∧
    (a.showHelp = true → a.fullscreenLog = false →
      Update ext a (.KeyMsg msg) = ({ a with showHelp := false }, none) ∧
        View a = Screen.renderHelp) ∧
    (a.showHelp = true → a.fullscreenLog = true →
      View a = Screen.renderFullscreenLog ∧
        Update ext a (.KeyMsg msg) = ({ a with showHelp := false }, none) ∧
        (Update ext a (.KeyMsg msg)).1.fullscreenLog = true ∧
        View (Update ext a (.KeyMsg msg)).1 = Screen.renderFullscreenLog) := by
  have hU := Update_escape ext a msg hf hc hk
  have hV := View_overlay a hw hh
  refine ⟨?_, ?_, ?_⟩
  · intro hfull _
    exact hV.1 hfull
  · intro hhelp hfull
    rw [hU, if_pos hhelp]
    exact ⟨rfl, hV.2 hfull hhelp⟩
  · intro hhelp hfull
    rw [hU, if_pos hhelp]
    exact ⟨hV.1 hfull, rfl, hfull,
      (View_overlay { a with showHelp := false } hw hh).1 hfull⟩

/-- C33 at the test App in a 120 by 40 window, with the fullscreen log switched on and
the help key pressed after it: Escape turns off the help overlay while the screen is
the fullscreen log before and after the press. -/
theorem escape_and_view_order_witness :
    (helpOverFullscreen.width ≠ 0 ∧ helpOverFullscreen.height ≠ 0 ∧
      helpOverFullscreen.filtering = false ∧ helpOverFullscreen.showConfirm = false ∧
      keyCase helpOverFullscreen.keys "esc" = KeyCase.Escape ∧
      helpOverFullscreen.showHelp = true ∧ helpOverFullscreen.fullscreenLog = true) ∧
    (View helpOverFullscreen = Screen.renderFullscreenLog ∧
      Update sampleExt helpOverFullscreen (.KeyMsg "esc") =
        ({ helpOverFullscreen with showHelp := false }, none) ∧
      (Update sampleExt helpOverFullscreen (.KeyMsg "esc")).1.fullscreenLog = true ∧
      View (Update sampleExt helpOverFullscreen (.KeyMsg "esc")).1 =
        Screen.renderFullscreenLog) :=
  ⟨⟨by decide, by decide, by decide, by decide, by decide, by decide, by decide⟩,
    (escape_and_view_order sampleExt helpOverFullscreen "esc" (by decide) (by decide)
      (by decide) (by decide) (by decide)).2.2 (by decide) (by decide)⟩

end Lazyactions
